import Mathlib

/-!
# Match-key and action-data encoder of the PI C++ front end

A shallow embedding of `frontends_extra/cpp/src/tables.cpp`.

* Bytes are natural numbers below 256; a `char` buffer is a map from byte offsets
  (relative to the start of the buffer) to bytes.  The buffer comes from
  `new char[s]`, so its initial contents are indeterminate and are a parameter of
  the constructors; the code performs no bounds check on its writes, so the map is
  total and the allocated size is recorded next to it.
* The P4-info library and the `_compact_v_t` union of `pi_int.h` are not part of
  the sources: the P4-info queries are the fields of `P4Info`, the sizes and
  object representations of the union members are the fields of `Layout`.
* Only the unsigned instantiations of the integer templates are embedded: the
  signed ones stop at `assert(!std::is_signed<T>::value)`.
-/

namespace pi

/-! ## Bytes and byte order -/

/-- The unsigned integer types the templates are instantiated with. -/
inductive UIntTy where
  | u8 | u16 | u32 | u64
  deriving DecidableEq, Repr

/-- The value of `sizeof(T)`. -/
def UIntTy.sizeof : UIntTy → Nat
  | .u8 => 1
  | .u16 => 2
  | .u32 => 4
  | .u64 => 8

/-- Little-endian `n`-byte representation of `v` (truncating). -/
def leBytes (n v : Nat) : List Nat :=
  (List.range n).map fun i => v / 256 ^ i % 256

/-- Big-endian `n`-byte representation of `v` (truncating on the left). -/
def beBytes (n v : Nat) : List Nat :=
  (List.range n).map fun i => v / 256 ^ (n - 1 - i) % 256

/-- Big-endian decoding of a byte sequence. -/
def beDecode (l : List Nat) : Nat :=
  l.foldl (fun acc b => acc * 256 + b) 0

/-- Object representation of an `n`-byte unsigned integer on the host; `le` tells
whether the host is little-endian (`__BYTE_ORDER__ != __ORDER_BIG_ENDIAN__`). -/
def objRep (le : Bool) (n v : Nat) : List Nat :=
  if le then leBytes n v else beBytes n v

/-- The libc `htons`: a byte swap of a `uint16_t` on a little-endian host. -/
def htons (le : Bool) (v : Nat) : Nat :=
  if le then v % 256 * 256 + v / 256 % 256 else v % 2 ^ 16

/-- The libc `htonl`: a byte reversal of a `uint32_t` on a little-endian host. The
argument is converted to `uint32_t` first. -/
def htonl (le : Bool) (v : Nat) : Nat :=
  if le then
    v % 256 * 2 ^ 24 + v / 2 ^ 8 % 256 * 2 ^ 16 + v / 2 ^ 16 % 256 * 2 ^ 8 + v / 2 ^ 24 % 256
  else v % 2 ^ 32

/-- Source `htonll`: `(((uint64_t)htonl(n)) << 32) + htonl(n >> 32)` unless the host
is big-endian. -/
def htonll (le : Bool) (n : Nat) : Nat :=
  if le then (htonl le n * 2 ^ 32 % 2 ^ 64 + htonl le (n / 2 ^ 32)) % 2 ^ 64 else n

/-- The four specialisations of `endianness<T>`. -/
def endianness (le : Bool) : UIntTy → Nat → Nat
  | .u8, v => v
  | .u16, v => htons le v
  | .u32, v => htonl le v
  | .u64, v => htonll le v

/-- The statement `data[0] &= byte0_mask` on a byte sequence (nothing to do when it
is empty). -/
def andHead (mask : Nat) : List Nat → List Nat
  | [] => []
  | b :: bs => (b &&& mask) :: bs

/-! ## Buffers -/

/-- A `char` buffer: byte offset to byte. -/
abbrev Mem := Nat → Nat

/-- The call `memcpy(mem + off, data, data.length)`. -/
def writeBytes (mem : Mem) (off : Nat) (data : List Nat) : Mem :=
  fun a => if off ≤ a ∧ a < off + data.length then data.getD (a - off) 0 else mem a

/-- The statement `mem[off] &= mask`. -/
def andByte (mem : Mem) (off mask : Nat) : Mem :=
  fun a => if a = off then mem a &&& mask else mem a

/-- The `n` bytes of the buffer from offset `off` on. -/
def readBytes (mem : Mem) (off n : Nat) : List Nat :=
  (List.range n).map fun i => mem (off + i)

/-! ## External declarations -/

/-- The P4-info queries used by the encoder (`PI/pi_p4info.h`, not part of the
sources): one field per C function, identifiers are numbers. -/
structure P4Info where
  /-- The query `pi_p4info_table_num_match_fields(p4info, table_id)`. -/
  table_num_match_fields : Nat → Nat
  /-- The `bitwidth` member filled by `pi_p4info_table_match_field_info(p4info, table_id, i, &finfo)`. -/
  table_match_field_info_bitwidth : Nat → Nat → Nat
  /-- The query `pi_p4info_table_match_field_index(p4info, table_id, f_id)`. -/
  table_match_field_index : Nat → Nat → Nat
  /-- The query `pi_p4info_field_bitwidth(p4info, f_id)`. -/
  field_bitwidth : Nat → Nat
  /-- The query `pi_p4info_field_byte0_mask(p4info, f_id)`, as a byte. -/
  field_byte0_mask : Nat → Nat
  /-- The parameter ids returned by `pi_p4info_action_get_params(p4info, action_id, &num_params)`. -/
  action_get_params : Nat → List Nat
  /-- The query `pi_p4info_action_param_bitwidth(p4info, ap_id)`. -/
  action_param_bitwidth : Nat → Nat
  /-- The query `pi_p4info_action_param_byte0_mask(p4info, ap_id)`, as a byte. -/
  action_param_byte0_mask : Nat → Nat

/-- What the encoder needs to know of the union `_compact_v_t` (declared in
`pi_int.h`, not part of the sources; `pi_match_key_t` and `pi_action_data_t` are
that same cell type). Its members `bytes`, `more_bytes` and `v` all start at
offset 0 of the cell. -/
structure Layout where
  /-- The value of `sizeof(_compact_v_t)`. -/
  cellSize : Nat
  /-- The macro `SIZEOF_DST_ARR`, the size of the member `bytes`. -/
  dstArr : Nat
  /-- Object representation of the member `v` after `v = prefix_length`. -/
  vRep : Int → List Nat
  /-- Object representation of the member `more_bytes` when it points to the given
  offset of the buffer. -/
  ptrRep : Nat → List Nat

/-- The members of the union fit in the cell. -/
def Layout.WF (L : Layout) : Prop :=
  L.dstArr ≤ L.cellSize ∧ (∀ p, (L.vRep p).length ≤ L.cellSize) ∧
    ∀ o, (L.ptrRep o).length ≤ L.cellSize

/-- A 64-bit little-endian layout: 8 inline bytes, an 8-byte pointer (the buffer
sits at address `base`) and a 4-byte two's complement `int` payload. -/
def Layout.lp64 (base : Nat) : Layout where
  cellSize := 8
  dstArr := 8
  vRep := fun p => leBytes 4 (p % 2 ^ 32).toNat
  ptrRep := fun o => leBytes 8 (base + o)

/-! ## MatchKey -/

/-- The data members of `MatchKey` (the `p4info` pointer is passed to the
operations instead); `size` is the length of the allocated array. -/
@[ext]
structure MatchKey where
  table_id : Nat
  nset : Nat
  data_offset : Nat
  data_offset_current : Nat
  size : Nat
  match_key : Mem

/-- The loop of the constructors: the spill bytes needed by the given bit-widths. -/
def spillSize (bitwidths : List Nat) : Nat :=
  (bitwidths.map fun bw => if bw > 64 then (bw + 7) / 8 else 0).sum

/-- The constructor `MatchKey::MatchKey`. The contents `garbage` of the new array
and the value `nset0` of the member `nset`, which the constructor body does not
assign, are given by the caller of the model. -/
def MatchKey.new (info : P4Info) (L : Layout) (table_id : Nat) (garbage : Mem)
    (nset0 : Nat) : MatchKey :=
  let num_match_fields := info.table_num_match_fields table_id
  let s := 2 * num_match_fields * L.cellSize
  { table_id := table_id
    nset := nset0
    data_offset := s
    data_offset_current := s
    size := s + spillSize ((List.range num_match_fields).map
      (info.table_match_field_info_bitwidth table_id))
    match_key := garbage }

/-- The method `MatchKey::reset`. -/
def MatchKey.reset (st : MatchKey) : MatchKey :=
  { st with nset := 0, data_offset_current := st.data_offset }

/-- The integer `MatchKey::format<T>`: the error code and the state after the call.
The local `v` is the list `objRep`, `data` is its tail from `sizeof(T) - bytes` on. (For a
width of 0 that tail is empty and nothing reaches the buffer.) -/
def MatchKey.format (info : P4Info) (L : Layout) (le : Bool) (st : MatchKey)
    (f_id : Nat) (T : UIntTy) (v : Nat) (index : Nat) : Nat × MatchKey :=
  let type_bitwidth := T.sizeof * 8
  let bitwidth := info.field_bitwidth f_id
  let bytes := (bitwidth + 7) / 8
  let byte0_mask := info.field_byte0_mask f_id
  if bitwidth > type_bitwidth then (1, st)
  else
    let v := endianness le T v
    let data := (objRep le T.sizeof v).drop (T.sizeof - bytes)
    let data := andHead byte0_mask data
    (0, { st with match_key := writeBytes st.match_key (index * L.cellSize) (data.take bytes) })

/-- The byte-string `MatchKey::format`: `ptr` is the memory the pointer refers to,
`s` the length passed with it. -/
def MatchKey.formatBytes (info : P4Info) (L : Layout) (st : MatchKey)
    (f_id : Nat) (ptr : List Nat) (s : Nat) (index : Nat) : Nat × MatchKey :=
  let bitwidth := info.field_bitwidth f_id
  let bytes := (bitwidth + 7) / 8
  let byte0_mask := info.field_byte0_mask f_id
  if bytes ≠ s then (1, st)
  else if s ≤ L.dstArr then
    let dst := index * L.cellSize
    let m := writeBytes st.match_key dst (ptr.take bytes)
    (0, { st with match_key := andByte m dst byte0_mask })
  else
    let dst := st.data_offset_current
    let m := writeBytes st.match_key (index * L.cellSize) (L.ptrRep dst)
    let m := writeBytes m dst (ptr.take bytes)
    (0, { st with data_offset_current := st.data_offset_current + s
                  match_key := andByte m dst byte0_mask })

/-- The integer `MatchKey::set_exact<T>`. -/
def MatchKey.set_exact (info : P4Info) (L : Layout) (le : Bool) (st : MatchKey)
    (f_id : Nat) (T : UIntTy) (key : Nat) : Nat × MatchKey :=
  let f_index := info.table_match_field_index st.table_id f_id
  let index := f_index * 2
  MatchKey.format info L le st f_id T key index

/-- The byte-string `MatchKey::set_exact`. -/
def MatchKey.set_exactBytes (info : P4Info) (L : Layout) (st : MatchKey)
    (f_id : Nat) (key : List Nat) (s : Nat) : Nat × MatchKey :=
  let f_index := info.table_match_field_index st.table_id f_id
  let index := f_index * 2
  MatchKey.formatBytes info L st f_id key s index

/-- The assignment `mkey[index].v = prefix_length`. -/
def MatchKey.storeV (L : Layout) (st : MatchKey) (index : Nat) (prefix_length : Int) :
    MatchKey :=
  { st with match_key := writeBytes st.match_key (index * L.cellSize) (L.vRep prefix_length) }

/-- The integer `MatchKey::set_lpm<T>`. -/
def MatchKey.set_lpm (info : P4Info) (L : Layout) (le : Bool) (st : MatchKey)
    (f_id : Nat) (T : UIntTy) (key : Nat) (prefix_length : Int) : Nat × MatchKey :=
  let f_index := info.table_match_field_index st.table_id f_id
  let index := f_index * 2
  let r := MatchKey.format info L le st f_id T key index
  let index := index + 1
  (r.1, MatchKey.storeV L r.2 index prefix_length)

/-- The byte-string `MatchKey::set_lpm`. -/
def MatchKey.set_lpmBytes (info : P4Info) (L : Layout) (st : MatchKey)
    (f_id : Nat) (key : List Nat) (s : Nat) (prefix_length : Int) : Nat × MatchKey :=
  let f_index := info.table_match_field_index st.table_id f_id
  let index := f_index * 2
  let r := MatchKey.formatBytes info L st f_id key s index
  let index := index + 1
  (r.1, MatchKey.storeV L r.2 index prefix_length)

/-- The integer `MatchKey::set_ternary<T>`. -/
def MatchKey.set_ternary (info : P4Info) (L : Layout) (le : Bool) (st : MatchKey)
    (f_id : Nat) (T : UIntTy) (key mask : Nat) : Nat × MatchKey :=
  let f_index := info.table_match_field_index st.table_id f_id
  let index := f_index * 2
  let r := MatchKey.format info L le st f_id T key index
  let index := index + 1
  if r.1 ≠ 0 then r
  else MatchKey.format info L le r.2 f_id T mask index

/-- The byte-string `MatchKey::set_ternary`. -/
def MatchKey.set_ternaryBytes (info : P4Info) (L : Layout) (st : MatchKey)
    (f_id : Nat) (key mask : List Nat) (s : Nat) : Nat × MatchKey :=
  let f_index := info.table_match_field_index st.table_id f_id
  let index := f_index * 2
  let r := MatchKey.formatBytes info L st f_id key s index
  let index := index + 1
  if r.1 ≠ 0 then r
  else MatchKey.formatBytes info L r.2 f_id mask s index

/-- One call of a `set_*` method of `MatchKey`, with its arguments. -/
inductive MatchKey.Call where
  | exact (f_id : Nat) (T : UIntTy) (key : Nat)
  | exactBytes (f_id : Nat) (key : List Nat) (s : Nat)
  | lpm (f_id : Nat) (T : UIntTy) (key : Nat) (prefix_length : Int)
  | lpmBytes (f_id : Nat) (key : List Nat) (s : Nat) (prefix_length : Int)
  | ternary (f_id : Nat) (T : UIntTy) (key mask : Nat)
  | ternaryBytes (f_id : Nat) (key mask : List Nat) (s : Nat)

/-- Performs one call. -/
def MatchKey.call (info : P4Info) (L : Layout) (le : Bool) (st : MatchKey) :
    MatchKey.Call → Nat × MatchKey
  | .exact f T k => MatchKey.set_exact info L le st f T k
  | .exactBytes f k s => MatchKey.set_exactBytes info L st f k s
  | .lpm f T k p => MatchKey.set_lpm info L le st f T k p
  | .lpmBytes f k s p => MatchKey.set_lpmBytes info L st f k s p
  | .ternary f T k m => MatchKey.set_ternary info L le st f T k m
  | .ternaryBytes f k m s => MatchKey.set_ternaryBytes info L st f k m s

/-- Performs a sequence of calls on the same object: the error codes, in order, and
the final state. -/
def MatchKey.run (info : P4Info) (L : Layout) (le : Bool) :
    MatchKey → List MatchKey.Call → List Nat × MatchKey
  | st, [] => ([], st)
  | st, c :: cs =>
    let r := MatchKey.call info L le st c
    let rest := MatchKey.run info L le r.2 cs
    (r.1 :: rest.1, rest.2)

/-! ## ActionData -/

/-- The data members of `ActionData`; `size` is the length of the allocated array. -/
structure ActionData where
  action_id : Nat
  nset : Nat
  data_offset : Nat
  data_offset_current : Nat
  size : Nat
  action_data : Mem

/-- The constructor `ActionData::ActionData`. Its body declares a local
`size_t data_offset = s;` and never assigns the members `data_offset` and `nset`:
their values `data_offset0` and `nset0`, like the contents `garbage` of the new
array, are given by the caller of the model. -/
def ActionData.new (info : P4Info) (L : Layout) (action_id : Nat) (garbage : Mem)
    (nset0 data_offset0 : Nat) : ActionData :=
  let params := info.action_get_params action_id
  let num_params := params.length
  let s := num_params * L.cellSize
  let data_offset_local := s
  { action_id := action_id
    nset := nset0
    data_offset := data_offset0
    data_offset_current := data_offset_local
    size := s + spillSize (params.map info.action_param_bitwidth)
    action_data := garbage }

/-- The method `ActionData::reset`. -/
def ActionData.reset (st : ActionData) : ActionData :=
  { st with nset := 0, data_offset_current := st.data_offset }

/-- The integer `ActionData::format<T>`. -/
def ActionData.format (info : P4Info) (L : Layout) (le : Bool) (st : ActionData)
    (ap_id : Nat) (T : UIntTy) (v : Nat) (index : Nat) : Nat × ActionData :=
  let type_bitwidth := T.sizeof * 8
  let bitwidth := info.action_param_bitwidth ap_id
  let bytes := (bitwidth + 7) / 8
  let byte0_mask := info.action_param_byte0_mask ap_id
  if bitwidth > type_bitwidth then (1, st)
  else
    let v := endianness le T v
    let data := (objRep le T.sizeof v).drop (T.sizeof - bytes)
    let data := andHead byte0_mask data
    (0, { st with action_data := writeBytes st.action_data (index * L.cellSize) (data.take bytes) })

/-- The byte-string `ActionData::format`. -/
def ActionData.formatBytes (info : P4Info) (L : Layout) (st : ActionData)
    (ap_id : Nat) (ptr : List Nat) (s : Nat) (index : Nat) : Nat × ActionData :=
  let bitwidth := info.action_param_bitwidth ap_id
  let bytes := (bitwidth + 7) / 8
  let byte0_mask := info.action_param_byte0_mask ap_id
  if bytes ≠ s then (1, st)
  else if s ≤ L.dstArr then
    let dst := index * L.cellSize
    let m := writeBytes st.action_data dst (ptr.take bytes)
    (0, { st with action_data := andByte m dst byte0_mask })
  else
    let dst := st.data_offset_current
    let m := writeBytes st.action_data (index * L.cellSize) (L.ptrRep dst)
    let m := writeBytes m dst (ptr.take bytes)
    (0, { st with data_offset_current := st.data_offset_current + s
                  action_data := andByte m dst byte0_mask })

/-- The integer `ActionData::set_arg<T>`. -/
def ActionData.set_arg (info : P4Info) (L : Layout) (le : Bool) (st : ActionData)
    (ap_id : Nat) (T : UIntTy) (arg : Nat) : Nat × ActionData :=
  let index := ap_id &&& 0xff
  ActionData.format info L le st ap_id T arg index

/-- The byte-string `ActionData::set_arg`. -/
def ActionData.set_argBytes (info : P4Info) (L : Layout) (st : ActionData)
    (ap_id : Nat) (arg : List Nat) (s : Nat) : Nat × ActionData :=
  let index := ap_id &&& 0xff
  ActionData.formatBytes info L st ap_id arg s index

/-- The mask that clears the bits above `W` in the leading byte of a
`⌈W/8⌉`-byte big-endian value. -/
def byte0Mask (W : Nat) : Nat := 2 ^ (W - 8 * ((W + 7) / 8 - 1)) - 1

/-! ## A sample P4 program -/

/-- Bit-widths of the sample fields and parameters, by identifier: 12, 16, 32, 48,
64 and 128 bits for the identifiers 0 to 5, 8 bits otherwise. -/
def sampleWidth : Nat → Nat
  | 0 => 12
  | 1 => 16
  | 2 => 32
  | 3 => 48
  | 4 => 64
  | 5 => 128
  | _ => 8

/-- A P4-info with one table of six match fields and one action of six
parameters, of the widths `sampleWidth`; the index of a field is its identifier
and every byte0-mask clears the bits above the width. -/
def sampleInfo : P4Info where
  table_num_match_fields := fun _ => 6
  table_match_field_info_bitwidth := fun _ i => sampleWidth i
  table_match_field_index := fun _ f => f
  field_bitwidth := sampleWidth
  field_byte0_mask := fun f => byte0Mask (sampleWidth f)
  action_get_params := fun _ => [0, 1, 2, 3, 4, 5]
  action_param_bitwidth := sampleWidth
  action_param_byte0_mask := fun f => byte0Mask (sampleWidth f)

/-- A buffer of zero bytes. -/
def zeroMem : Mem := fun _ => 0

/-- A fresh `MatchKey` for the sample table on a zeroed array. -/
def sampleKey : MatchKey := MatchKey.new sampleInfo (Layout.lp64 4096) 1 zeroMem 0

/-- A fresh `ActionData` for the sample action on a zeroed array, with the members
the constructor leaves unassigned equal to 0. -/
def sampleArgs : ActionData := ActionData.new sampleInfo (Layout.lp64 4096) 1 zeroMem 0 0

/-- Two keys agree on everything but the bytes of the array and `nset`. -/
def MatchKey.sameShape (a b : MatchKey) : Prop :=
  a.table_id = b.table_id ∧ a.data_offset = b.data_offset ∧
    a.data_offset_current = b.data_offset_current ∧ a.size = b.size

/-- The calls made before the `reset()` in the sample run. -/
def samplePrefix : List MatchKey.Call :=
  [.exact 0 .u16 0x0ABC, .exact 1 .u16 0x1234]

/-- The calls made after the `reset()` in the sample run. -/
def sampleCalls : List MatchKey.Call :=
  [.exact 0 .u16 0x0111]

/-! ## MatchTable -/

/-- The data member `table_id` of `MatchTable` (the `p4info` pointer is not used by the
methods embedded here). -/
structure MatchTable where
  table_id : Nat

/-- The arguments of one call of the device function `pi_table_entry_add` (declared in the
PI library, not part of the sources): the device target, the table, the raw match-key
buffer, the entry (action id and raw action-data buffer) and the overwrite flag. -/
structure TableEntryAdd where
  dev_tgt : Nat × Nat
  table_id : Nat
  match_key : Mem
  entry_action_id : Nat
  entry_action_data : Mem
  overwrite : Bool

/-- The method `MatchTable::entry_add`: the error code, the entry handle the device stored
through `entry_handle` (if it was called) and the calls of `pi_table_entry_add`, in order.
The device function is a parameter: it maps the arguments of a call to the status it returns
and the handle it stores. -/
def MatchTable.entry_add (pi_table_entry_add : TableEntryAdd → Nat × Nat) (t : MatchTable)
    (match_key : MatchKey) (action_id : Nat) (action_data : ActionData) (overwrite : Bool) :
    Nat × Option Nat × List TableEntryAdd :=
  if match_key.table_id ≠ t.table_id then (1, none, [])
  else if action_id ≠ action_data.action_id then (1, none, [])
  else
    let call : TableEntryAdd :=
      { dev_tgt := (0, 0xffff)
        table_id := t.table_id
        match_key := match_key.match_key
        entry_action_id := action_id
        entry_action_data := action_data.action_data
        overwrite := overwrite }
    ((pi_table_entry_add call).1, some (pi_table_entry_add call).2, [call])

/-- A device that accepts every entry and hands out the handle 42. -/
def sampleEntryAdd : TableEntryAdd → Nat × Nat := fun _ => (0, 42)

/-! ## The P4Runtime server

An embedding of `proto/server/pi_server.cpp`. Objects created with `new` live in maps from
addresses to objects; the address an allocation returns is an argument of the operation that
allocates. Every operation returns, next to its result, the calls it made, in order
(`Effect`). The gRPC library, the protobuf messages and `DeviceMgr` are not part of the
sources: messages are reduced to the members the server reads, and what the methods of a
device return is given by a `DeviceApi`. Operations that run on several threads are taken
one at a time. -/

/-- The message `google::rpc::Status`, which is `DeviceMgr::Status`. -/
structure RpcStatus where
  code : Int
  message : String
  details : List String
  deriving DecidableEq

/-- A `grpc::Status`: code, error message and binary error details. -/
structure GrpcStatus where
  error_code : Int
  error_message : String
  error_details : String
  deriving DecidableEq

/-- The enumerator `grpc::StatusCode::OK`. -/
def StatusCode.OK : Int := 0

/-- The enumerator `grpc::StatusCode::UNKNOWN`. -/
def StatusCode.UNKNOWN : Int := 2

/-- The enumerator `grpc::StatusCode::FAILED_PRECONDITION`. -/
def StatusCode.FAILED_PRECONDITION : Int := 9

/-- The enumerator `grpc::StatusCode::DATA_LOSS`. -/
def StatusCode.DATA_LOSS : Int := 15

/-- The constant `grpc::Status::OK`. -/
def GrpcStatus.OK : GrpcStatus := ⟨StatusCode.OK, "", ""⟩

/-- The function `SetErrorDetails`; `to_` is `none` for a null pointer. It returns its status
and the object `to_` points to afterwards. The protobuf method `SerializeAsString` is a
parameter. -/
def SetErrorDetails (SerializeAsString : RpcStatus → String) (status : RpcStatus)
    (to_ : Option GrpcStatus) : GrpcStatus × Option GrpcStatus :=
  match to_ with
  | none => (⟨StatusCode.FAILED_PRECONDITION, "", ""⟩, none)
  | some _ =>
    let code :=
      if status.code ≥ StatusCode.OK ∧ status.code ≤ StatusCode.DATA_LOSS then status.code
      else StatusCode.UNKNOWN
    (GrpcStatus.OK, some ⟨code, status.message, SerializeAsString status⟩)

/-- The function `to_grpc_status`. -/
def to_grpc_status (SerializeAsString : RpcStatus → String) (status : RpcStatus) : GrpcStatus :=
  ((SetErrorDetails SerializeAsString status (some GrpcStatus.OK)).2).getD GrpcStatus.OK

/-- The function `no_pipeline_config_status`. -/
def no_pipeline_config_status : GrpcStatus :=
  ⟨StatusCode.FAILED_PRECONDITION, "No forwarding pipeline config set for this device", ""⟩

/-- A `DeviceMgr` object: the id its constructor received and the address of the object,
which is the handle the registry returns. -/
structure DeviceMgr where
  device_id : Nat
  addr : Nat
  deriving DecidableEq

/-- The singleton `Devices`: its `device_map`, as the list of its entries. -/
structure Devices where
  device_map : List (Nat × DeviceMgr)

/-- The method `Devices::get`; `none` is the null pointer. -/
def Devices.get (devices : Devices) (device_id : Nat) : Option DeviceMgr :=
  devices.device_map.lookup device_id

/-- The method `Devices::get_or_add`: the handle it returns and the registry afterwards;
`addr` is the address `new DeviceMgr(device_id)` returns when it runs. -/
def Devices.get_or_add (devices : Devices) (device_id : Nat) (addr : Nat) :
    DeviceMgr × Devices :=
  match devices.device_map.lookup device_id with
  | some it => (it, devices)
  | none =>
    let device_mgr : DeviceMgr := ⟨device_id, addr⟩
    (device_mgr, { device_map := (device_id, device_mgr) :: devices.device_map })

/-- The registry after `get_or_add` for the given ids, in order, each with the address its
allocation would return, starting from the empty registry. -/
def Devices.after : List (Nat × Nat) → Devices
  | [] => { device_map := [] }
  | (device_id, addr) :: rest => ((Devices.after rest).get_or_add device_id addr).2

/-- A `p4::WriteRequest`. -/
structure WriteRequest where
  device_id : Nat
  updates : List Nat
  deriving DecidableEq

/-- A `p4::ReadRequest`. -/
structure ReadRequest where
  device_id : Nat
  entities : List Nat
  deriving DecidableEq

/-- A `p4::ReadResponse`. -/
structure ReadResponse where
  entities : List Nat
  deriving DecidableEq

/-- A `p4::ForwardingPipelineConfig`. -/
structure ForwardingPipelineConfig where
  device_id : Nat
  p4_device_config : List Nat
  deriving DecidableEq

/-- A `p4::SetForwardingPipelineConfigRequest`. -/
structure SetForwardingPipelineConfigRequest where
  action : Nat
  configs : List ForwardingPipelineConfig
  deriving DecidableEq

/-- A `p4::GetForwardingPipelineConfigRequest`. -/
structure GetForwardingPipelineConfigRequest where
  device_ids : List Nat
  deriving DecidableEq

/-- A `p4::PacketIn`. -/
structure PacketIn where
  payload : List Nat
  deriving DecidableEq

/-- A `p4::PacketOut`. -/
structure PacketOut where
  payload : List Nat
  deriving DecidableEq

/-- A `p4::StreamMessageRequest`, by its `update_case()`. -/
inductive StreamMessageRequest where
  | arbitration (device_id : Nat)
  | packet (packet : PacketOut)
  | not_set
  deriving DecidableEq

/-- What the methods of a `DeviceMgr` return (`device_mgr.h` is not part of the sources). -/
structure DeviceApi where
  write : DeviceMgr → WriteRequest → RpcStatus
  read : DeviceMgr → ReadRequest → RpcStatus × ReadResponse
  pipeline_config_set : DeviceMgr → Nat → ForwardingPipelineConfig → RpcStatus
  pipeline_config_get : DeviceMgr → RpcStatus × ForwardingPipelineConfig

/-- The calls the server makes: methods of a `DeviceMgr`, operations posted on a stream with
the address of the tag, and calls between the objects of the server. -/
inductive Effect where
  | write (device_mgr : DeviceMgr) (request : WriteRequest)
  | read (device_mgr : DeviceMgr) (request : ReadRequest)
  | ServerWriter_Write (response : ReadResponse)
  | pipeline_config_set (device_mgr : DeviceMgr) (action : Nat)
      (config : ForwardingPipelineConfig)
  | pipeline_config_get (device_mgr : DeviceMgr)
  | packet_in_register_cb (device_mgr : DeviceMgr)
  | packet_out_send (device_mgr : DeviceMgr) (packet : PacketOut)
  | RequestStreamChannel (tag : Nat)
  | stream_Read (tag : Nat)
  | stream_Write (tag : Nat) (packet : PacketIn)
  | stream_Finish (tag : Nat) (status : GrpcStatus)
  | new_StreamChannelReader (addr : Nat)
  | new_StreamChannelWriter (addr : Nat)
  | writer_proceed (addr : Nat)
  | register_client (client : Nat)
  | remove_client (client : Nat)
  | send (client : Nat) (device_id : Nat) (packet : PacketIn)
  | delete_this (addr : Nat)
  | assert_fail
  deriving DecidableEq

/-- Whether a call is a method of a `DeviceMgr`. -/
def Effect.isDeviceCall : Effect → Bool
  | .write _ _ => true
  | .read _ _ => true
  | .pipeline_config_set _ _ _ => true
  | .pipeline_config_get _ => true
  | .packet_in_register_cb _ => true
  | .packet_out_send _ _ => true
  | _ => false

/-- The handler `P4RuntimeServiceImpl::Write`. -/
def P4RuntimeServiceImpl.Write (api : DeviceApi) (SerializeAsString : RpcStatus → String)
    (devices : Devices) (request : WriteRequest) : GrpcStatus × List Effect :=
  match devices.get request.device_id with
  | none => (no_pipeline_config_status, [])
  | some device_mgr =>
    let status := api.write device_mgr request
    (to_grpc_status SerializeAsString status, [.write device_mgr request])

/-- The handler `P4RuntimeServiceImpl::Read`. -/
def P4RuntimeServiceImpl.Read (api : DeviceApi) (SerializeAsString : RpcStatus → String)
    (devices : Devices) (request : ReadRequest) : GrpcStatus × List Effect :=
  match devices.get request.device_id with
  | none => (no_pipeline_config_status, [])
  | some device_mgr =>
    let r := api.read device_mgr request
    (to_grpc_status SerializeAsString r.1, [.read device_mgr request, .ServerWriter_Write r.2])

/-- The handler `P4RuntimeServiceImpl::SetForwardingPipelineConfig`: its status, the registry
afterwards and its calls; `addr` is the address a `new DeviceMgr` would return. -/
def P4RuntimeServiceImpl.SetForwardingPipelineConfig (api : DeviceApi)
    (SerializeAsString : RpcStatus → String) (devices : Devices)
    (request : SetForwardingPipelineConfigRequest) (addr : Nat) :
    GrpcStatus × Devices × List Effect :=
  match request.configs with
  | [] => (GrpcStatus.OK, devices, [])
  | config :: _ =>
    let r := devices.get_or_add config.device_id addr
    let device_mgr := r.1
    let status := api.pipeline_config_set device_mgr request.action config
    (to_grpc_status SerializeAsString status, r.2,
      [.pipeline_config_set device_mgr request.action config,
       .packet_in_register_cb device_mgr])

/-- The handler `P4RuntimeServiceImpl::GetForwardingPipelineConfig`: its status, the configs
added to the response and its calls. -/
def P4RuntimeServiceImpl.GetForwardingPipelineConfig (api : DeviceApi)
    (SerializeAsString : RpcStatus → String) (devices : Devices)
    (request : GetForwardingPipelineConfigRequest) :
    GrpcStatus × List ForwardingPipelineConfig × List Effect :=
  match request.device_ids with
  | [] => (GrpcStatus.OK, [], [])
  | device_id :: _ =>
    match devices.get device_id with
    | none => (no_pipeline_config_status, [], [])
    | some device_mgr =>
      let r := api.pipeline_config_get device_mgr
      (to_grpc_status SerializeAsString r.1, [r.2], [.pipeline_config_get device_mgr])

/-- The enumeration `StreamChannelWriter::State`. -/
inductive StreamChannelWriter.State where
  | CREATE | CAN_WRITE | MUST_WAIT
  deriving DecidableEq

/-- The data member `state` of a `StreamChannelWriter` (its stream, its response buffer and
its mutex are left out). -/
structure StreamChannelWriter where
  state : StreamChannelWriter.State
  deriving DecidableEq

/-- The method `StreamChannelWriter::send` of the writer at address `self`: the writer
afterwards and the calls made. -/
def StreamChannelWriter.send (w : StreamChannelWriter) (self : Nat) (_device_id : Nat)
    (packet : PacketIn) : StreamChannelWriter × List Effect :=
  if w.state ≠ .CAN_WRITE then (w, [])
  else ({ w with state := .MUST_WAIT }, [.stream_Write self packet])

/-- The method `StreamChannelWriter::proceed`. -/
def StreamChannelWriter.proceed (w : StreamChannelWriter) (ok : Bool) : StreamChannelWriter :=
  if !ok then w
  else if w.state = .CREATE then { w with state := .CAN_WRITE }
  else if w.state = .MUST_WAIT then { w with state := .CAN_WRITE }
  else w

/-- A writer together with the number of `Write` operations it has posted on its stream
whose completion has not been delivered yet. -/
structure WriterSys where
  writer : StreamChannelWriter
  outstanding : Nat
  deriving DecidableEq

/-- What happens to a writer: a `send`, the completion of a `Write` it posted (there must be
one), or the call `writer->proceed()` its reader makes right after constructing it. -/
inductive WriterEvent where
  | send (device_id : Nat) (packet : PacketIn)
  | completion (ok : Bool)
  | drive
  deriving DecidableEq

/-- One event on a writer; an event that cannot happen (a completion with no `Write` posted,
a drive of a writer that has left `CREATE`) leaves everything as it is. -/
def WriterSys.step (s : WriterSys) : WriterEvent → WriterSys
  | .send device_id packet =>
    let r := s.writer.send 0 device_id packet
    { writer := r.1, outstanding := s.outstanding + r.2.length }
  | .completion ok =>
    if s.outstanding = 0 then s
    else { writer := s.writer.proceed ok, outstanding := s.outstanding - 1 }
  | .drive =>
    if s.writer.state = .CREATE then { s with writer := s.writer.proceed true } else s

/-- A newly constructed writer: state `CREATE`, nothing posted. -/
def WriterSys.init : WriterSys := { writer := { state := .CREATE }, outstanding := 0 }

/-- A sequence of events on a writer. -/
def WriterSys.run (s : WriterSys) (events : List WriterEvent) : WriterSys :=
  events.foldl WriterSys.step s

/-- The enumeration `StreamChannelReader::State`. -/
inductive StreamChannelReader.State where
  | CREATE | PROCESS | READ | FINISH
  deriving DecidableEq

/-- The data members of a `StreamChannelReader` that its `proceed` reads or writes; `writer`
is the address of the writer it owns, `none` for a null `unique_ptr`. -/
structure StreamChannelReader where
  device_id : Nat
  request : StreamMessageRequest
  writer : Option Nat
  state : StreamChannelReader.State
  deriving DecidableEq

/-- The tag of a completion: the address of a reader or of a writer. -/
inductive StreamChannelTag where
  | reader (addr : Nat)
  | writer (addr : Nat)
  deriving DecidableEq

/-- The stream multiplexer: the vector `clients` of the `StreamChannelClientMgr` and the
live writers and readers, by address. -/
structure StreamMux where
  clients : List Nat
  writers : Nat → Option StreamChannelWriter
  readers : Nat → Option StreamChannelReader

/-- The method `StreamChannelClientMgr::register_client`. -/
def StreamMux.register_client (m : StreamMux) (client : Nat) : StreamMux :=
  { m with clients := m.clients ++ [client] }

/-- The method `StreamChannelClientMgr::remove_client`: the first element equal to `client`
is erased. -/
def StreamMux.remove_client (m : StreamMux) (client : Nat) : StreamMux :=
  { m with clients := m.clients.erase client }

/-- The loop `for (auto c : clients_) c->send(device_id, packet)`. A `send` through a
pointer to no live writer is recorded and changes nothing. -/
def StreamMux.send_all (device_id : Nat) (packet : PacketIn) :
    List Nat → (Nat → Option StreamChannelWriter) →
      (Nat → Option StreamChannelWriter) × List Effect
  | [], writers => (writers, [])
  | c :: cs, writers =>
    match writers c with
    | none =>
      let rest := StreamMux.send_all device_id packet cs writers
      (rest.1, .send c device_id packet :: rest.2)
    | some w =>
      let r := w.send c device_id packet
      let rest := StreamMux.send_all device_id packet cs (Function.update writers c (some r.1))
      (rest.1, .send c device_id packet :: (r.2 ++ rest.2))

/-- The method `StreamChannelClientMgr::notify_clients`. -/
def StreamMux.notify_clients (m : StreamMux) (device_id : Nat) (packet : PacketIn) :
    StreamMux × List Effect :=
  let clients_ := m.clients
  let r := StreamMux.send_all device_id packet clients_ m.writers
  ({ m with writers := r.1 }, r.2)

/-- The branch `state == State::CREATE` of `StreamChannelReader::proceed`. -/
def StreamChannelReader.request_stream (rd : StreamChannelReader) (self : Nat) :
    StreamChannelReader × List Effect :=
  ({ rd with state := .PROCESS }, [.RequestStreamChannel self])

/-- The constructor of `StreamChannelReader` for the object at `self`: the members get their
initial values and `proceed()` runs, in state `CREATE`. -/
def StreamChannelReader.new (self : Nat) : StreamChannelReader × List Effect :=
  StreamChannelReader.request_stream
    { device_id := 0, request := .not_set, writer := none, state := .CREATE } self

/-- The writers after the destruction of the writer a `unique_ptr` holds. -/
def StreamMux.destroy_writer (writers : Nat → Option StreamChannelWriter) :
    Option Nat → Nat → Option StreamChannelWriter
  | none => writers
  | some w => Function.update writers w none

/-- The method `StreamChannelReader::proceed` of the reader at address `self` (nothing
happens when there is no live reader there); `new_reader` and `new_writer` are the
addresses the two `new` expressions of the branch `PROCESS` return. `assert(0)` stops the
server: it is recorded and nothing follows. -/
def StreamChannelReader.proceed (devices : Devices) (m : StreamMux) (self : Nat) (ok : Bool)
    (new_reader new_writer : Nat) : StreamMux × List Effect :=
  match m.readers self with
  | none => (m, [])
  | some rd0 =>
    if rd0.state = .FINISH then
      ({ m with readers := Function.update m.readers self none
                writers := StreamMux.destroy_writer m.writers rd0.writer },
        [.delete_this self])
    else
      let rd : StreamChannelReader := if !ok then { rd0 with state := .FINISH } else rd0
      match rd.state with
      | .CREATE =>
        let r := rd.request_stream self
        ({ m with readers := Function.update m.readers self (some r.1) }, r.2)
      | .PROCESS =>
        let nr := StreamChannelReader.new new_reader
        let w := ({ state := .CREATE } : StreamChannelWriter).proceed true
        let m1 : StreamMux :=
          { m with writers := Function.update (StreamMux.destroy_writer m.writers rd.writer)
                     new_writer (some w) }
        let m2 := m1.register_client new_writer
        ({ m2 with readers := Function.update (Function.update m.readers new_reader (some nr.1))
                     self (some { rd with writer := some new_writer, state := .READ }) },
          [.new_StreamChannelReader new_reader] ++ nr.2 ++
            [.new_StreamChannelWriter new_writer, .writer_proceed new_writer,
             .register_client new_writer, .stream_Read self])
      | .READ =>
        match rd.request with
        | .arbitration device_id =>
          ({ m with readers := Function.update m.readers self
                      (some { rd with device_id := device_id }) },
            [.stream_Read self])
        | .packet packet =>
          match devices.get rd.device_id with
          | some device_mgr =>
            ({ m with readers := Function.update m.readers self (some rd) },
              [.packet_out_send device_mgr packet, .stream_Read self])
          | none =>
            ({ m with readers := Function.update m.readers self (some rd) },
              [.stream_Read self])
        | .not_set =>
          ({ m with readers := Function.update m.readers self (some rd) }, [.assert_fail])
      | .FINISH =>
        match rd.writer with
        | some w =>
          let m1 := m.remove_client w
          ({ m1 with readers := Function.update m.readers self (some rd) },
            [.remove_client w, .stream_Finish self GrpcStatus.OK])
        | none => ({ m with readers := Function.update m.readers self (some rd) }, [])

/-- The request buffer of the reader at `self` after the transport completed an operation:
a successful `Read` (the only operation posted by a reader in state `READ`) has stored the
received message in it. -/
def StreamMux.received (m : StreamMux) (self : Nat) (ok : Bool)
    (message : StreamMessageRequest) : StreamMux :=
  match m.readers self with
  | some rd =>
    if rd.state = .READ ∧ ok = true then
      { m with readers := Function.update m.readers self (some { rd with request := message }) }
    else m
  | none => m

/-- The method `StreamChannelClientMgr::next` once the completion queue has returned the
tag `tag` with the flag `ok`: the virtual call `proceed(ok)`. `message` is what a completed
`Read` received. -/
def StreamMux.next (devices : Devices) (m : StreamMux) (tag : StreamChannelTag) (ok : Bool)
    (message : StreamMessageRequest) (new_reader new_writer : Nat) : StreamMux × List Effect :=
  match tag with
  | .writer a =>
    match m.writers a with
    | some w => ({ m with writers := Function.update m.writers a (some (w.proceed ok)) }, [])
    | none => (m, [])
  | .reader a =>
    StreamChannelReader.proceed devices (m.received a ok message) a ok new_reader new_writer

/-- The constructor of `StreamChannelClientMgr`: it creates the first reader, at `addr`. -/
def StreamMux.init (addr : Nat) : StreamMux × List Effect :=
  ({ clients := []
     writers := fun _ => none
     readers := Function.update (fun _ => none) addr (some (StreamChannelReader.new addr).1) },
    .new_StreamChannelReader addr :: (StreamChannelReader.new addr).2)

/-- What happens to the multiplexer: a completion is delivered (with the registry as it is at
that moment and the addresses the allocator would return), or a device calls the packet-in
callback. -/
inductive StreamMux.Event where
  | next (devices : List (Nat × DeviceMgr)) (tag : StreamChannelTag) (ok : Bool)
      (message : StreamMessageRequest) (new_reader new_writer : Nat)
  | packet_in (device_id : Nat) (packet : PacketIn)

/-- One event; the allocator never returns the address of a live object, so an event that
offers one is left out. -/
def StreamMux.step (m : StreamMux) : StreamMux.Event → StreamMux
  | .next devices tag ok message new_reader new_writer =>
    if (m.readers new_reader).isNone ∧ (m.writers new_writer).isNone then
      (StreamMux.next ⟨devices⟩ m tag ok message new_reader new_writer).1
    else m
  | .packet_in device_id packet => (m.notify_clients device_id packet).1

/-- A sequence of events on a multiplexer. -/
def StreamMux.run (m : StreamMux) (events : List StreamMux.Event) : StreamMux :=
  events.foldl StreamMux.step m

/-- What holds of every multiplexer the server can reach: no writer is registered twice; a
registered writer is alive and has left `CREATE`; the writer of a reader is alive; the
writer of a reader in `FINISH` is not registered; two readers never share a writer; a reader
in `CREATE` or `PROCESS` has no writer yet. -/
def StreamMux.Inv (m : StreamMux) : Prop :=
  m.clients.Nodup ∧
  (∀ w ∈ m.clients, ∃ wr, m.writers w = some wr ∧ wr.state ≠ .CREATE) ∧
  (∀ r rd w, m.readers r = some rd → rd.writer = some w → (m.writers w).isSome) ∧
  (∀ r rd w, m.readers r = some rd → rd.writer = some w → rd.state = .FINISH →
    w ∉ m.clients) ∧
  (∀ r1 r2 rd1 rd2 w, m.readers r1 = some rd1 → m.readers r2 = some rd2 →
    rd1.writer = some w → rd2.writer = some w → r1 = r2) ∧
  (∀ r rd, m.readers r = some rd → rd.state = .CREATE ∨ rd.state = .PROCESS →
    rd.writer = none)

/-- A multiplexer with one accepted stream: the first reader, at address 100, has received the
completion of its `RequestStreamChannel`; its writer is at address 200, the next reader at
address 101. -/
def sampleMuxEvents : List StreamMux.Event :=
  [.next [] (.reader 100) true .not_set 101 200]

/-- The reader at address 100 after `sampleMuxEvents`. -/
def sampleReader : StreamChannelReader :=
  { device_id := 0, request := .not_set, writer := some 200, state := .READ }

/-- A registry with the single device 7, whose `DeviceMgr` is at address 1000. -/
def sampleDevices : Devices := Devices.after [(7, 1000)]

/-- Devices that answer every call with the status OK and empty messages. -/
def sampleApi : DeviceApi where
  write := fun _ _ => ⟨0, "", []⟩
  read := fun _ _ => (⟨0, "", []⟩, ⟨[]⟩)
  pipeline_config_set := fun _ _ _ => ⟨0, "", []⟩
  pipeline_config_get := fun d => (⟨0, "", []⟩, ⟨d.device_id, []⟩)

/-- A stand-in for the protobuf serialization: the message of the status. -/
def sampleSerialize : RpcStatus → String := fun s => s.message

/-- Devices that refuse every pipeline config with the status 13 (`INTERNAL`) and answer
every other call like `sampleApi`. -/
def failingApi : DeviceApi where
  write := fun _ _ => ⟨0, "", []⟩
  read := fun _ _ => (⟨0, "", []⟩, ⟨[]⟩)
  pipeline_config_set := fun _ _ _ => ⟨13, "bad config", []⟩
  pipeline_config_get := fun d => (⟨0, "", []⟩, ⟨d.device_id, []⟩)

/-- The bytes a call is expected to take from the spill region: `⌈W/8⌉` for each byte-string
value of the accepted length that does not fit the inline bytes of a cell (a ternary call
carries two values), nothing for an integer value or a refused call. -/
def MatchKey.Call.spillBytes (info : P4Info) (L : Layout) : MatchKey.Call → Nat
  | .exact _ _ _ => 0
  | .lpm _ _ _ _ => 0
  | .ternary _ _ _ _ => 0
  | .exactBytes f _ s =>
    if (info.field_bitwidth f + 7) / 8 = s ∧ L.dstArr < s then (info.field_bitwidth f + 7) / 8
    else 0
  | .lpmBytes f _ s _ =>
    if (info.field_bitwidth f + 7) / 8 = s ∧ L.dstArr < s then (info.field_bitwidth f + 7) / 8
    else 0
  | .ternaryBytes f _ _ s =>
    if (info.field_bitwidth f + 7) / 8 = s ∧ L.dstArr < s then
      (info.field_bitwidth f + 7) / 8 + (info.field_bitwidth f + 7) / 8
    else 0

/-- The field a call sets. -/
def MatchKey.Call.field : MatchKey.Call → Nat
  | .exact f _ _ => f
  | .exactBytes f _ _ => f
  | .lpm f _ _ _ => f
  | .lpmBytes f _ _ _ => f
  | .ternary f _ _ _ => f
  | .ternaryBytes f _ _ _ => f

/-- Whether a call is a byte-string `set_ternary`. -/
def MatchKey.Call.isTernaryBytes : MatchKey.Call → Bool
  | .ternaryBytes _ _ _ _ => true
  | _ => false

/-! ## Byte-level lemmas -/

theorem length_beBytes (n v : Nat) : (beBytes n v).length = n := by
  simp [beBytes]

theorem length_andHead (m : Nat) (l : List Nat) : (andHead m l).length = l.length := by
  cases l <;> simp [andHead]

theorem length_readBytes (mem : Mem) (off n : Nat) : (readBytes mem off n).length = n := by
  simp [readBytes]

theorem beBytes_succ (n v : Nat) :
    beBytes (n + 1) v = (v / 256 ^ n % 256) :: beBytes n v := by
  simp only [beBytes, List.range_succ_eq_map, List.map_cons, List.map_map]
  congr 1
  apply List.map_congr_left
  intro i hi
  have : i < n := List.mem_range.mp hi
  simp only [Function.comp]
  congr 3
  omega

theorem drop_beBytes (n b v : Nat) (h : b ≤ n) :
    (beBytes n v).drop (n - b) = beBytes b v := by
  induction n with
  | zero =>
    have : b = 0 := by omega
    subst this; simp [beBytes]
  | succ n ih =>
    rcases Nat.eq_or_lt_of_le h with h1 | h1
    · subst h1; simp
    · have hb : b ≤ n := by omega
      rw [beBytes_succ, show n + 1 - b = (n - b) + 1 by omega, List.drop_succ_cons, ih hb]

theorem beDecode_cons (b : Nat) (l : List Nat) :
    beDecode (b :: l) = b * 256 ^ l.length + beDecode l := by
  have key : ∀ (l : List Nat) (acc : Nat),
      l.foldl (fun acc b => acc * 256 + b) acc
        = acc * 256 ^ l.length + l.foldl (fun acc b => acc * 256 + b) 0 := by
    intro l
    induction l with
    | nil => intro acc; simp
    | cons x xs ih =>
      intro acc
      simp only [List.foldl_cons, List.length_cons]
      rw [ih (acc * 256 + x), ih (0 * 256 + x)]
      ring
  simp only [beDecode, List.foldl_cons]
  rw [key l (0 * 256 + b)]
  simp

theorem beDecode_beBytes (n v : Nat) : beDecode (beBytes n v) = v % 256 ^ n := by
  induction n with
  | zero => simp [beBytes, beDecode, Nat.mod_one]
  | succ n ih =>
    rw [beBytes_succ, beDecode_cons, ih, length_beBytes, pow_succ, Nat.mod_mul, Nat.add_comm,
      Nat.mul_comm]

theorem readBytes_writeBytes (mem : Mem) (off : Nat) (data : List Nat) :
    readBytes (writeBytes mem off data) off data.length = data := by
  apply List.ext_getElem
  · simp [readBytes]
  · intro i h1 h2
    simp only [readBytes, List.getElem_map, List.getElem_range, writeBytes]
    have : off ≤ off + i ∧ off + i < off + data.length := by omega
    simp [this, h2]

theorem writeBytes_of_not_mem (mem : Mem) (off : Nat) (data : List Nat) (a : Nat)
    (h : a < off ∨ off + data.length ≤ a) : writeBytes mem off data a = mem a := by
  simp only [writeBytes]
  rw [if_neg]
  omega

theorem readBytes_congr (m1 m2 : Mem) (off n : Nat)
    (h : ∀ a, off ≤ a → a < off + n → m1 a = m2 a) :
    readBytes m1 off n = readBytes m2 off n := by
  simp only [readBytes]
  apply List.map_congr_left
  intro i hi
  have : i < n := List.mem_range.mp hi
  exact h _ (by omega) (by omega)

theorem readBytes_andByte_writeBytes (mem : Mem) (off mask : Nat) (data : List Nat) :
    readBytes (andByte (writeBytes mem off data) off mask) off data.length
      = andHead mask data := by
  cases data with
  | nil => simp [readBytes, andHead]
  | cons b bs =>
    apply List.ext_getElem
    · simp [readBytes, andHead]
    · intro i h1 h2
      simp only [readBytes, List.getElem_map, List.getElem_range, andByte, writeBytes]
      cases i with
      | zero => simp [andHead]
      | succ i =>
        simp only [andHead, List.length_cons] at h2 ⊢
        have h3 : ¬ (off + (i + 1) = off) := by omega
        have h4 : off ≤ off + (i + 1) ∧ off + (i + 1) < off + (bs.length + 1) := by omega
        have h5 : i < bs.length := by omega
        simp [h3, h4, h5]

theorem htons_bytes (v : Nat) :
    htons true v % 256 = v / 256 % 256 ∧ htons true v / 256 % 256 = v % 256 := by
  have h : htons true v / 256 = v % 256 := by simp only [htons, if_true]; omega
  refine ⟨?_, ?_⟩
  · simp only [htons, if_true]; omega
  · rw [h]; omega

theorem htonl_lt (v : Nat) : htonl true v < 4294967296 := by
  simp only [htonl, if_true, Nat.reducePow]; omega

theorem htonl_bytes (v : Nat) :
    htonl true v % 256 = v / 16777216 % 256 ∧ htonl true v / 256 % 256 = v / 65536 % 256 ∧
    htonl true v / 65536 % 256 = v / 256 % 256 ∧ htonl true v / 16777216 % 256 = v % 256 := by
  have h1 : htonl true v / 256 = v % 256 * 65536 + v / 256 % 256 * 256 + v / 65536 % 256 := by
    simp only [htonl, if_true, Nat.reducePow]; omega
  have h2 : htonl true v / 65536 = v % 256 * 256 + v / 256 % 256 := by
    simp only [htonl, if_true, Nat.reducePow]; omega
  have h3 : htonl true v / 16777216 = v % 256 := by
    simp only [htonl, if_true, Nat.reducePow]; omega
  refine ⟨?_, ?_, ?_, ?_⟩
  · simp only [htonl, if_true, Nat.reducePow]; omega
  · rw [h1]; omega
  · rw [h2]; omega
  · rw [h3]; omega

theorem htonll_eq (n : Nat) :
    htonll true n = htonl true n * 4294967296 + htonl true (n / 4294967296) := by
  have h1 := htonl_lt n
  have h2 := htonl_lt (n / 4294967296)
  simp only [htonll, if_true, Nat.reducePow]
  omega

theorem htonll_bytes (n : Nat) :
    (htonll true n % 256 = n / 72057594037927936 % 256 ∧
     htonll true n / 256 % 256 = n / 281474976710656 % 256 ∧
     htonll true n / 65536 % 256 = n / 1099511627776 % 256 ∧
     htonll true n / 16777216 % 256 = n / 4294967296 % 256) ∧
    (htonll true n / 4294967296 % 256 = n / 16777216 % 256 ∧
     htonll true n / 1099511627776 % 256 = n / 65536 % 256 ∧
     htonll true n / 281474976710656 % 256 = n / 256 % 256 ∧
     htonll true n / 72057594037927936 % 256 = n % 256) := by
  have hA := htonl_lt n
  have hB := htonl_lt (n / 4294967296)
  obtain ⟨a0, a1, a2, a3⟩ := htonl_bytes n
  obtain ⟨b0, b1, b2, b3⟩ := htonl_bytes (n / 4294967296)
  simp only [Nat.div_div_eq_div_mul, Nat.reduceMul] at b0 b1 b2 b3
  rw [htonll_eq]
  generalize htonl true n = A at *
  generalize htonl true (n / 4294967296) = B at *
  have hd : (A * 4294967296 + B) / 4294967296 = A := by omega
  have e1 : (A * 4294967296 + B) / 256 = A * 16777216 + B / 256 := by omega
  have e2 : (A * 4294967296 + B) / 65536 = A * 65536 + B / 65536 := by omega
  have e3 : (A * 4294967296 + B) / 16777216 = A * 256 + B / 16777216 := by omega
  have e5 : (A * 4294967296 + B) / 1099511627776 = A / 256 := by
    rw [show 1099511627776 = 4294967296 * 256 by norm_num, ← Nat.div_div_eq_div_mul, hd]
  have e6 : (A * 4294967296 + B) / 281474976710656 = A / 65536 := by
    rw [show 281474976710656 = 4294967296 * 65536 by norm_num, ← Nat.div_div_eq_div_mul, hd]
  have e7 : (A * 4294967296 + B) / 72057594037927936 = A / 16777216 := by
    rw [show 72057594037927936 = 4294967296 * 16777216 by norm_num, ← Nat.div_div_eq_div_mul, hd]
  rw [hd, e1, e2, e3, e5, e6, e7]
  refine ⟨⟨?_, ?_, ?_, ?_⟩, ?_, ?_, ?_, ?_⟩ <;> omega

theorem objRep_endianness (le : Bool) (T : UIntTy) (v : Nat)
    (hv : v < 2 ^ (8 * T.sizeof)) :
    objRep le T.sizeof (endianness le T v) = beBytes T.sizeof v := by
  cases le
  · cases T <;>
      simp [objRep, endianness, htons, htonl, htonll, UIntTy.sizeof, leBytes, beBytes,
        List.range, List.range.loop] at hv ⊢ <;> omega
  · cases T
    · simp [objRep, endianness, UIntTy.sizeof, leBytes, beBytes, List.range, List.range.loop]
    · have := htons_bytes v
      simp [objRep, endianness, UIntTy.sizeof, leBytes, beBytes, List.range, List.range.loop]
      omega
    · have := htonl_bytes v
      simp [objRep, endianness, UIntTy.sizeof, leBytes, beBytes, List.range, List.range.loop]
      omega
    · have := htonll_bytes v
      simp [objRep, endianness, UIntTy.sizeof, leBytes, beBytes, List.range, List.range.loop]
      omega

/-- The bytes both integer `format<T>` methods copy into the cell are the big-endian
tail of the value with its first byte masked. -/
theorem format_data_eq (le : Bool) (T : UIntTy) (v W m : Nat)
    (hW : W ≤ 8 * T.sizeof) (hv : v < 2 ^ (8 * T.sizeof)) :
    (andHead m ((objRep le T.sizeof (endianness le T v)).drop (T.sizeof - (W + 7) / 8))).take
        ((W + 7) / 8)
      = andHead m (beBytes ((W + 7) / 8) v) := by
  have hb : (W + 7) / 8 ≤ T.sizeof := by omega
  rw [objRep_endianness le T v hv, drop_beBytes _ _ _ hb]
  apply List.take_of_length_le
  rw [length_andHead, length_beBytes]

theorem MatchKey.format_eq (info : P4Info) (L : Layout) (le : Bool) (st : MatchKey)
    (f_id : Nat) (T : UIntTy) (v index : Nat)
    (hW : info.field_bitwidth f_id ≤ 8 * T.sizeof) (hv : v < 2 ^ (8 * T.sizeof)) :
    MatchKey.format info L le st f_id T v index =
      (0, { st with match_key := (writeBytes st.match_key (index * L.cellSize)
              (andHead (info.field_byte0_mask f_id)
                (beBytes ((info.field_bitwidth f_id + 7) / 8) v))) }) := by
  have h : ¬ info.field_bitwidth f_id > T.sizeof * 8 := by omega
  simp only [MatchKey.format, if_neg h]
  rw [format_data_eq le T v _ _ hW hv]

theorem MatchKey.format_fail (info : P4Info) (L : Layout) (le : Bool) (st : MatchKey)
    (f_id : Nat) (T : UIntTy) (v index : Nat)
    (hW : 8 * T.sizeof < info.field_bitwidth f_id) :
    MatchKey.format info L le st f_id T v index = (1, st) := by
  have h : info.field_bitwidth f_id > T.sizeof * 8 := by omega
  simp only [MatchKey.format, if_pos h]

theorem ActionData.format_param_eq (info : P4Info) (L : Layout) (le : Bool) (st : ActionData)
    (ap_id : Nat) (T : UIntTy) (v index : Nat)
    (hW : info.action_param_bitwidth ap_id ≤ 8 * T.sizeof) (hv : v < 2 ^ (8 * T.sizeof)) :
    ActionData.format info L le st ap_id T v index =
      (0, { st with action_data := (writeBytes st.action_data (index * L.cellSize)
              (andHead (info.action_param_byte0_mask ap_id)
                (beBytes ((info.action_param_bitwidth ap_id + 7) / 8) v))) }) := by
  have h : ¬ info.action_param_bitwidth ap_id > T.sizeof * 8 := by omega
  simp only [ActionData.format, if_neg h]
  rw [format_data_eq le T v _ _ hW hv]

/-- Dividing by `2 ^ a` and keeping `c` bits only looks at the bits below `a + c`. -/
theorem mod_two_pow_div_mod (v W a c : Nat) (h : a + c ≤ W) :
    v % 2 ^ W / 2 ^ a % 2 ^ c = v / 2 ^ a % 2 ^ c := by
  have h1 : 2 ^ W = 2 ^ a * 2 ^ (W - a) := by
    rw [← pow_add]; congr 1; omega
  rw [h1, Nat.mod_mul_right_div_self]
  apply Nat.mod_mod_of_dvd
  exact pow_dvd_pow 2 (by omega)

theorem pow_256_eq (j : Nat) : 256 ^ j = 2 ^ (8 * j) := by
  rw [show (256 : Nat) = 2 ^ 8 by norm_num, ← pow_mul]

theorem beBytes_mod (n v W : Nat) (h : 8 * n ≤ W) :
    beBytes n (v % 2 ^ W) = beBytes n v := by
  simp only [beBytes]
  apply List.map_congr_left
  intro i hi
  have hi2 : i < n := List.mem_range.mp hi
  rw [pow_256_eq, show (256 : Nat) = 2 ^ 8 by norm_num]
  exact mod_two_pow_div_mod v W _ 8 (by omega)

/-- Masking the leading byte with the mask that keeps its low `k` bits gives the
big-endian encoding of the value reduced to `8 * n + k` bits. -/
theorem andHead_beBytes_succ (n k v : Nat) (hk : k ≤ 8) :
    andHead (2 ^ k - 1) (beBytes (n + 1) v) = beBytes (n + 1) (v % 2 ^ (8 * n + k)) := by
  rw [beBytes_succ, beBytes_succ, beBytes_mod n v _ (by omega)]
  simp only [andHead]
  congr 1
  rw [Nat.and_pow_two_sub_one_eq_mod, pow_256_eq]
  have e1 : v / 2 ^ (8 * n) % 256 % 2 ^ k = v / 2 ^ (8 * n) % 2 ^ k := by
    apply Nat.mod_mod_of_dvd
    rw [show (256 : Nat) = 2 ^ 8 by norm_num]
    exact pow_dvd_pow 2 hk
  have e2 : v % 2 ^ (8 * n + k) / 2 ^ (8 * n) % 2 ^ 8 = v / 2 ^ (8 * n) % 2 ^ k := by
    have h1 : 2 ^ (8 * n + k) = 2 ^ (8 * n) * 2 ^ k := by rw [← pow_add]
    rw [h1, Nat.mod_mul_right_div_self]
    apply Nat.mod_eq_of_lt
    calc v / 2 ^ (8 * n) % 2 ^ k < 2 ^ k := Nat.mod_lt _ (by positivity)
      _ ≤ 2 ^ 8 := Nat.pow_le_pow_right (by norm_num) hk
  rw [e1, show (256 : Nat) = 2 ^ 8 by norm_num, e2]

theorem andHead_byte0Mask (W v : Nat) :
    andHead (byte0Mask W) (beBytes ((W + 7) / 8) v) = beBytes ((W + 7) / 8) (v % 2 ^ W) := by
  rcases Nat.eq_zero_or_pos W with h0 | hpos
  · subst h0; simp [beBytes, andHead]
  · obtain ⟨n, hn⟩ : ∃ n, (W + 7) / 8 = n + 1 := ⟨(W + 7) / 8 - 1, by omega⟩
    have hk : W - 8 * n ≤ 8 := by omega
    have hW : 8 * n + (W - 8 * n) = W := by omega
    have := andHead_beBytes_succ n (W - 8 * n) v hk
    rw [hW] at this
    simp only [byte0Mask, hn, Nat.add_sub_cancel]
    exact this

/-! ## The integer and byte-string encoders -/

/-- C1: for a field of width `W` and an unsigned type `T` of at least `W` bits, `set_exact`
of a value `V < 2 ^ W` succeeds and the first `⌈W/8⌉` bytes of cell `2 * index(F)` are the
big-endian `⌈W/8⌉`-byte encoding of `V` (which loses no bit of `V`) with its first byte
ANDed with the byte0-mask of the field. -/
theorem MatchKey.set_exact_big_endian (info : P4Info) (L : Layout) (le : Bool)
    (st : MatchKey) (f_id : Nat) (T : UIntTy) (V : Nat)
    (hT : info.field_bitwidth f_id ≤ 8 * T.sizeof)
    (hV : V < 2 ^ info.field_bitwidth f_id) :
    (MatchKey.set_exact info L le st f_id T V).1 = 0 ∧
    readBytes (MatchKey.set_exact info L le st f_id T V).2.match_key
        (info.table_match_field_index st.table_id f_id * 2 * L.cellSize)
        ((info.field_bitwidth f_id + 7) / 8)
      = andHead (info.field_byte0_mask f_id) (beBytes ((info.field_bitwidth f_id + 7) / 8) V) ∧
    beDecode (beBytes ((info.field_bitwidth f_id + 7) / 8) V) = V := by
  have hV2 : V < 2 ^ (8 * T.sizeof) :=
    lt_of_lt_of_le hV (Nat.pow_le_pow_right (by norm_num) hT)
  simp only [MatchKey.set_exact, MatchKey.format_eq info L le st f_id T V _ hT hV2]
  refine ⟨trivial, ?_, ?_⟩
  · have h := readBytes_writeBytes st.match_key
      (info.table_match_field_index st.table_id f_id * 2 * L.cellSize)
      (andHead (info.field_byte0_mask f_id) (beBytes ((info.field_bitwidth f_id + 7) / 8) V))
    rw [length_andHead, length_beBytes] at h
    exact h
  · rw [beDecode_beBytes, pow_256_eq]
    apply Nat.mod_eq_of_lt
    exact lt_of_lt_of_le hV (Nat.pow_le_pow_right (by norm_num) (by omega))

/-- A 12-bit field set from the `uint16_t` value `0x0ABC`. -/
theorem MatchKey.set_exact_big_endian_witness :
    (MatchKey.set_exact sampleInfo (Layout.lp64 4096) true sampleKey 0 .u16 0x0ABC).1 = 0 ∧
    readBytes (MatchKey.set_exact sampleInfo (Layout.lp64 4096) true sampleKey 0 .u16
        0x0ABC).2.match_key
        (sampleInfo.table_match_field_index sampleKey.table_id 0 * 2 * (Layout.lp64 4096).cellSize)
        ((sampleInfo.field_bitwidth 0 + 7) / 8)
      = andHead (sampleInfo.field_byte0_mask 0) (beBytes ((sampleInfo.field_bitwidth 0 + 7) / 8)
          0x0ABC) ∧
    beDecode (beBytes ((sampleInfo.field_bitwidth 0 + 7) / 8) 0x0ABC) = 0x0ABC :=
  MatchKey.set_exact_big_endian sampleInfo (Layout.lp64 4096) true sampleKey 0 .u16 0x0ABC
    (by decide) (by decide)

/-- C2: when the byte0-mask of a field of width `W` clears exactly the bits above `W` in the
leading byte, two values of the same unsigned type `T` (of at least `W` bits) that agree on
their low `W` bits lead `set_exact` to the same error code and the same state. -/
theorem MatchKey.set_exact_ignores_high_bits (info : P4Info) (L : Layout) (le : Bool)
    (st : MatchKey) (f_id : Nat) (T : UIntTy) (V V' : Nat)
    (hM : info.field_byte0_mask f_id = byte0Mask (info.field_bitwidth f_id))
    (hT : info.field_bitwidth f_id ≤ 8 * T.sizeof)
    (hV : V < 2 ^ (8 * T.sizeof)) (hV' : V' < 2 ^ (8 * T.sizeof))
    (hEq : V % 2 ^ info.field_bitwidth f_id = V' % 2 ^ info.field_bitwidth f_id) :
    MatchKey.set_exact info L le st f_id T V = MatchKey.set_exact info L le st f_id T V' := by
  simp only [MatchKey.set_exact, MatchKey.format_eq info L le st f_id T V _ hT hV,
    MatchKey.format_eq info L le st f_id T V' _ hT hV', hM, andHead_byte0Mask, hEq]

/-- Scenario S1: a 12-bit field with mask `0x0F`; `0x0ABC` and `0xFABC` both give the cell
bytes `[0x0A, 0xBC]`. -/
theorem MatchKey.set_exact_ignores_high_bits_witness :
    (sampleInfo.field_bitwidth 0 = 12 ∧ sampleInfo.field_byte0_mask 0 = 0x0F) ∧
    MatchKey.set_exact sampleInfo (Layout.lp64 4096) true sampleKey 0 .u16 0x0ABC
      = MatchKey.set_exact sampleInfo (Layout.lp64 4096) true sampleKey 0 .u16 0xFABC ∧
    readBytes (MatchKey.set_exact sampleInfo (Layout.lp64 4096) true sampleKey 0 .u16
      0xFABC).2.match_key 0 2 = [0x0A, 0xBC] :=
  ⟨by decide,
   MatchKey.set_exact_ignores_high_bits sampleInfo (Layout.lp64 4096) true sampleKey 0 .u16
     0x0ABC 0xFABC (by decide) (by decide) (by decide) (by decide) (by decide),
   by decide⟩

/-- C3: after `set_exact` of a `uint64_t` value `V` on a 64-bit field with byte0-mask `0xFF`,
the 8 bytes of the cell of the field decode, big-endian, to `V` (on either host byte
order). -/
theorem MatchKey.set_exact_u64_roundtrip (info : P4Info) (L : Layout) (le : Bool)
    (st : MatchKey) (f_id : Nat) (V : Nat)
    (hW : info.field_bitwidth f_id = 64) (hM : info.field_byte0_mask f_id = 0xFF)
    (hV : V < 2 ^ 64) :
    beDecode (readBytes (MatchKey.set_exact info L le st f_id .u64 V).2.match_key
      (info.table_match_field_index st.table_id f_id * 2 * L.cellSize) 8) = V := by
  have hT : info.field_bitwidth f_id ≤ 8 * UIntTy.u64.sizeof := by
    rw [hW]; decide
  have hV2 : V < 2 ^ (8 * UIntTy.u64.sizeof) := hV
  have hmask : (0xFF : Nat) = byte0Mask 64 := by decide
  simp only [MatchKey.set_exact, MatchKey.format_eq info L le st f_id .u64 V _ hT hV2, hM, hW]
  rw [hmask, andHead_byte0Mask]
  have h := readBytes_writeBytes st.match_key
    (info.table_match_field_index st.table_id f_id * 2 * L.cellSize)
    (beBytes ((64 + 7) / 8) (V % 2 ^ 64))
  rw [length_beBytes] at h
  rw [show (64 + 7) / 8 = 8 by norm_num] at h ⊢
  rw [h, beDecode_beBytes, Nat.mod_eq_of_lt hV]
  exact Nat.mod_eq_of_lt (by norm_num at hV ⊢; exact hV)

/-- A 64-bit value written on a little-endian host and read back. -/
theorem MatchKey.set_exact_u64_roundtrip_witness :
    (sampleInfo.field_bitwidth 4 = 64 ∧ sampleInfo.field_byte0_mask 4 = 0xFF ∧
      0x0102030405060708 < 2 ^ 64) ∧
    beDecode (readBytes (MatchKey.set_exact sampleInfo (Layout.lp64 4096) true sampleKey 4 .u64
      0x0102030405060708).2.match_key
      (sampleInfo.table_match_field_index sampleKey.table_id 4 * 2 * (Layout.lp64 4096).cellSize)
      8) = 0x0102030405060708 :=
  ⟨by decide,
   MatchKey.set_exact_u64_roundtrip sampleInfo (Layout.lp64 4096) true sampleKey 4
     0x0102030405060708 (by decide) (by decide) (by decide)⟩

/-- C4: the integer `MatchKey::set_exact<T>` and `ActionData::set_arg<T>` return the failure
code 1 exactly when the width of the field or parameter exceeds the number of bits of `T`, and
0 otherwise, whatever the value: a type wider than the field is accepted. -/
theorem set_integer_fails_iff_too_wide (info : P4Info) (L : Layout) (le : Bool)
    (mk : MatchKey) (ad : ActionData) (id : Nat) (T : UIntTy) (v : Nat) :
    (MatchKey.set_exact info L le mk id T v).1
      = (if info.field_bitwidth id > 8 * T.sizeof then 1 else 0) ∧
    (ActionData.set_arg info L le ad id T v).1
      = (if info.action_param_bitwidth id > 8 * T.sizeof then 1 else 0) := by
  constructor
  · simp only [MatchKey.set_exact, MatchKey.format, Nat.mul_comm T.sizeof 8]
    split <;> rfl
  · simp only [ActionData.set_arg, ActionData.format, Nat.mul_comm T.sizeof 8]
    split <;> rfl

/-- Scenario S2: a `uint8_t` value offered to a 16-bit field is refused. -/
theorem set_exact_u8_on_16_bits :
    (MatchKey.set_exact sampleInfo (Layout.lp64 4096) true sampleKey 1 .u8 0x80).1 = 1 := by
  decide

theorem MatchKey.formatBytes_rc (info : P4Info) (L : Layout) (st : MatchKey)
    (f_id : Nat) (ptr : List Nat) (s index : Nat) :
    (MatchKey.formatBytes info L st f_id ptr s index).1
      = (if (info.field_bitwidth f_id + 7) / 8 ≠ s then 1 else 0) := by
  simp only [MatchKey.formatBytes]
  split
  · rfl
  · split <;> rfl

theorem ActionData.formatBytes_param_rc (info : P4Info) (L : Layout) (st : ActionData)
    (ap_id : Nat) (ptr : List Nat) (s index : Nat) :
    (ActionData.formatBytes info L st ap_id ptr s index).1
      = (if (info.action_param_bitwidth ap_id + 7) / 8 ≠ s then 1 else 0) := by
  simp only [ActionData.formatBytes]
  split
  · rfl
  · split <;> rfl

theorem MatchKey.formatBytes_dest (info : P4Info) (L : Layout) (st : MatchKey)
    (f_id : Nat) (ptr : List Nat) (s index : Nat) (hlen : ptr.length = s)
    (hs : (info.field_bitwidth f_id + 7) / 8 = s) :
    readBytes (MatchKey.formatBytes info L st f_id ptr s index).2.match_key
        (if s ≤ L.dstArr then index * L.cellSize else st.data_offset_current) s
      = andHead (info.field_byte0_mask f_id) ptr := by
  have h1 : ¬ (info.field_bitwidth f_id + 7) / 8 ≠ s := by simp [hs]
  have h2 : ptr.take ((info.field_bitwidth f_id + 7) / 8) = ptr := by
    rw [hs, ← hlen, List.take_length]
  simp only [MatchKey.formatBytes, if_neg h1, h2]
  split
  · have h := readBytes_andByte_writeBytes st.match_key (index * L.cellSize)
      (info.field_byte0_mask f_id) ptr
    rw [hlen] at h
    exact h
  · have h := readBytes_andByte_writeBytes
      (writeBytes st.match_key (index * L.cellSize) (L.ptrRep st.data_offset_current))
      st.data_offset_current (info.field_byte0_mask f_id) ptr
    rw [hlen] at h
    exact h

theorem ActionData.formatBytes_param_dest (info : P4Info) (L : Layout) (st : ActionData)
    (ap_id : Nat) (ptr : List Nat) (s index : Nat) (hlen : ptr.length = s)
    (hs : (info.action_param_bitwidth ap_id + 7) / 8 = s) :
    readBytes (ActionData.formatBytes info L st ap_id ptr s index).2.action_data
        (if s ≤ L.dstArr then index * L.cellSize else st.data_offset_current) s
      = andHead (info.action_param_byte0_mask ap_id) ptr := by
  have h1 : ¬ (info.action_param_bitwidth ap_id + 7) / 8 ≠ s := by simp [hs]
  have h2 : ptr.take ((info.action_param_bitwidth ap_id + 7) / 8) = ptr := by
    rw [hs, ← hlen, List.take_length]
  simp only [ActionData.formatBytes, if_neg h1, h2]
  split
  · have h := readBytes_andByte_writeBytes st.action_data (index * L.cellSize)
      (info.action_param_byte0_mask ap_id) ptr
    rw [hlen] at h
    exact h
  · have h := readBytes_andByte_writeBytes
      (writeBytes st.action_data (index * L.cellSize) (L.ptrRep st.data_offset_current))
      st.data_offset_current (info.action_param_byte0_mask ap_id) ptr
    rw [hlen] at h
    exact h

/-- C5: for a byte string of `s` bytes, the byte-string `MatchKey::set_exact` and
`ActionData::set_arg` return the failure code 1 exactly when `s ≠ ⌈W/8⌉`, and 0 otherwise;
on success the destination (the inline bytes of the cell when `s ≤ SIZEOF_DST_ARR`, else the
spill bytes at the cursor the call started with) holds the `s` bytes with the first one ANDed
with the byte0-mask. -/
theorem set_bytes_fails_iff_width_mismatch (info : P4Info) (L : Layout)
    (mk : MatchKey) (ad : ActionData) (id : Nat) (ptr : List Nat) (s : Nat)
    (hlen : ptr.length = s) :
    ((MatchKey.set_exactBytes info L mk id ptr s).1
        = (if (info.field_bitwidth id + 7) / 8 ≠ s then 1 else 0) ∧
      ((MatchKey.set_exactBytes info L mk id ptr s).1 = 0 →
        readBytes (MatchKey.set_exactBytes info L mk id ptr s).2.match_key
            (if s ≤ L.dstArr then info.table_match_field_index mk.table_id id * 2 * L.cellSize
              else mk.data_offset_current) s
          = andHead (info.field_byte0_mask id) ptr)) ∧
    ((ActionData.set_argBytes info L ad id ptr s).1
        = (if (info.action_param_bitwidth id + 7) / 8 ≠ s then 1 else 0) ∧
      ((ActionData.set_argBytes info L ad id ptr s).1 = 0 →
        readBytes (ActionData.set_argBytes info L ad id ptr s).2.action_data
            (if s ≤ L.dstArr then (id &&& 0xff) * L.cellSize else ad.data_offset_current) s
          = andHead (info.action_param_byte0_mask id) ptr)) := by
  refine ⟨⟨MatchKey.formatBytes_rc _ _ _ _ _ _ _, ?_⟩, ⟨ActionData.formatBytes_param_rc _ _ _ _ _ _ _, ?_⟩⟩
  · intro h0
    have hs : (info.field_bitwidth id + 7) / 8 = s := by
      by_contra hne
      simp only [MatchKey.set_exactBytes, MatchKey.formatBytes_rc, ne_eq, hne, not_false_eq_true,
        if_true] at h0
      exact absurd h0 (by decide)
    exact MatchKey.formatBytes_dest info L mk id ptr s _ hlen hs
  · intro h0
    have hs : (info.action_param_bitwidth id + 7) / 8 = s := by
      by_contra hne
      simp only [ActionData.set_argBytes, ActionData.formatBytes_param_rc, ne_eq, hne,
        not_false_eq_true, if_true] at h0
      exact absurd h0 (by decide)
    exact ActionData.formatBytes_param_dest info L ad id ptr s _ hlen hs

/-- A 128-bit field and a 128-bit parameter set from 16 bytes, which go to the spill
region. -/
theorem set_bytes_fails_iff_width_mismatch_witness :
    ([1, 2, 3, 4, 5, 6, 7, 8, 9, 10, 11, 12, 13, 14, 15, 16].length = 16 ∧
      (MatchKey.set_exactBytes sampleInfo (Layout.lp64 4096) sampleKey 5
        [1, 2, 3, 4, 5, 6, 7, 8, 9, 10, 11, 12, 13, 14, 15, 16] 16).1 = 0 ∧
      (ActionData.set_argBytes sampleInfo (Layout.lp64 4096) sampleArgs 5
        [1, 2, 3, 4, 5, 6, 7, 8, 9, 10, 11, 12, 13, 14, 15, 16] 16).1 = 0 ∧
      readBytes (MatchKey.set_exactBytes sampleInfo (Layout.lp64 4096) sampleKey 5
        [1, 2, 3, 4, 5, 6, 7, 8, 9, 10, 11, 12, 13, 14, 15, 16] 16).2.match_key 96 16
        = [1, 2, 3, 4, 5, 6, 7, 8, 9, 10, 11, 12, 13, 14, 15, 16]) ∧
    (((MatchKey.set_exactBytes sampleInfo (Layout.lp64 4096) sampleKey 5
        [1, 2, 3, 4, 5, 6, 7, 8, 9, 10, 11, 12, 13, 14, 15, 16] 16).1
        = (if (sampleInfo.field_bitwidth 5 + 7) / 8 ≠ 16 then 1 else 0) ∧
      ((MatchKey.set_exactBytes sampleInfo (Layout.lp64 4096) sampleKey 5
        [1, 2, 3, 4, 5, 6, 7, 8, 9, 10, 11, 12, 13, 14, 15, 16] 16).1 = 0 →
        readBytes (MatchKey.set_exactBytes sampleInfo (Layout.lp64 4096) sampleKey 5
            [1, 2, 3, 4, 5, 6, 7, 8, 9, 10, 11, 12, 13, 14, 15, 16] 16).2.match_key
            (if 16 ≤ (Layout.lp64 4096).dstArr then
              sampleInfo.table_match_field_index sampleKey.table_id 5 * 2
                * (Layout.lp64 4096).cellSize
              else sampleKey.data_offset_current) 16
          = andHead (sampleInfo.field_byte0_mask 5)
              [1, 2, 3, 4, 5, 6, 7, 8, 9, 10, 11, 12, 13, 14, 15, 16])) ∧
    ((ActionData.set_argBytes sampleInfo (Layout.lp64 4096) sampleArgs 5
        [1, 2, 3, 4, 5, 6, 7, 8, 9, 10, 11, 12, 13, 14, 15, 16] 16).1
        = (if (sampleInfo.action_param_bitwidth 5 + 7) / 8 ≠ 16 then 1 else 0) ∧
      ((ActionData.set_argBytes sampleInfo (Layout.lp64 4096) sampleArgs 5
        [1, 2, 3, 4, 5, 6, 7, 8, 9, 10, 11, 12, 13, 14, 15, 16] 16).1 = 0 →
        readBytes (ActionData.set_argBytes sampleInfo (Layout.lp64 4096) sampleArgs 5
            [1, 2, 3, 4, 5, 6, 7, 8, 9, 10, 11, 12, 13, 14, 15, 16] 16).2.action_data
            (if 16 ≤ (Layout.lp64 4096).dstArr then (5 &&& 0xff) * (Layout.lp64 4096).cellSize
              else sampleArgs.data_offset_current) 16
          = andHead (sampleInfo.action_param_byte0_mask 5)
              [1, 2, 3, 4, 5, 6, 7, 8, 9, 10, 11, 12, 13, 14, 15, 16]))) :=
  ⟨by decide,
   set_bytes_fails_iff_width_mismatch sampleInfo (Layout.lp64 4096) sampleKey sampleArgs 5
     [1, 2, 3, 4, 5, 6, 7, 8, 9, 10, 11, 12, 13, 14, 15, 16] 16 rfl⟩

/-! ## Failing calls -/

theorem MatchKey.set_exact_failure_unchanged (info : P4Info) (L : Layout) (le : Bool)
    (st : MatchKey) (f_id : Nat) (T : UIntTy) (key : Nat)
    (h : (MatchKey.set_exact info L le st f_id T key).1 ≠ 0) :
    (MatchKey.set_exact info L le st f_id T key).2 = st := by
  simp only [MatchKey.set_exact, MatchKey.format] at h ⊢
  split
  · rfl
  · rename_i hc
    simp [hc] at h

theorem MatchKey.set_exactBytes_failure_unchanged (info : P4Info) (L : Layout)
    (st : MatchKey) (f_id : Nat) (key : List Nat) (s : Nat)
    (h : (MatchKey.set_exactBytes info L st f_id key s).1 ≠ 0) :
    (MatchKey.set_exactBytes info L st f_id key s).2 = st := by
  simp only [MatchKey.set_exactBytes, MatchKey.formatBytes_rc] at h
  have hc : (info.field_bitwidth f_id + 7) / 8 ≠ s := by
    intro hc; simp [hc] at h
  simp only [MatchKey.set_exactBytes, MatchKey.formatBytes, if_pos hc]

theorem MatchKey.set_ternary_failure_unchanged (info : P4Info) (L : Layout) (le : Bool)
    (st : MatchKey) (f_id : Nat) (T : UIntTy) (key mask : Nat)
    (h : (MatchKey.set_ternary info L le st f_id T key mask).1 ≠ 0) :
    (MatchKey.set_ternary info L le st f_id T key mask).2 = st := by
  by_cases hc : info.field_bitwidth f_id > T.sizeof * 8
  · simp [MatchKey.set_ternary, MatchKey.format, hc]
  · simp [MatchKey.set_ternary, MatchKey.format, hc] at h

theorem MatchKey.set_ternaryBytes_failure_unchanged (info : P4Info) (L : Layout)
    (st : MatchKey) (f_id : Nat) (key mask : List Nat) (s : Nat)
    (h : (MatchKey.set_ternaryBytes info L st f_id key mask s).1 ≠ 0) :
    (MatchKey.set_ternaryBytes info L st f_id key mask s).2 = st := by
  by_cases hc : (info.field_bitwidth f_id + 7) / 8 ≠ s
  · simp [MatchKey.set_ternaryBytes, MatchKey.formatBytes, hc]
  · simp [MatchKey.set_ternaryBytes, MatchKey.formatBytes_rc, hc] at h

/-- C6, at a failing input: on a fresh key over zeroed memory, `set_lpm<uint8_t>` on a 16-bit
field and the byte-string `set_lpm` with 1 byte for that field both return the failure code 1,
yet the companion cell (bytes 24 to 27), zero before the call, holds the prefix length 24
after it. -/
theorem MatchKey.set_lpm_failure_writes_companion :
    readBytes sampleKey.match_key 24 4 = [0, 0, 0, 0] ∧
    (MatchKey.set_lpm sampleInfo (Layout.lp64 4096) true sampleKey 1 .u8 0x80 24).1 = 1 ∧
    readBytes (MatchKey.set_lpm sampleInfo (Layout.lp64 4096) true sampleKey 1 .u8 0x80
      24).2.match_key 24 4 = [24, 0, 0, 0] ∧
    (MatchKey.set_lpmBytes sampleInfo (Layout.lp64 4096) sampleKey 1 [0x80] 1 24).1 = 1 ∧
    readBytes (MatchKey.set_lpmBytes sampleInfo (Layout.lp64 4096) sampleKey 1 [0x80] 1
      24).2.match_key 24 4 = [24, 0, 0, 0] := by
  decide

/-! ## LPM and ternary keys -/

theorem readBytes_writeBytes_disjoint (mem : Mem) (off : Nat) (data : List Nat) (off' n : Nat)
    (h : off' + n ≤ off ∨ off + data.length ≤ off') :
    readBytes (writeBytes mem off data) off' n = readBytes mem off' n := by
  apply readBytes_congr
  intro a h1 h2
  exact writeBytes_of_not_mem mem off data a (by omega)

theorem readBytes_andByte_disjoint (mem : Mem) (off mask off' n : Nat)
    (h : off < off' ∨ off' + n ≤ off) :
    readBytes (andByte mem off mask) off' n = readBytes mem off' n := by
  apply readBytes_congr
  intro a h1 h2
  simp only [andByte]
  rw [if_neg]
  omega

/-- C7: after a successful `set_lpm` (integer or byte-string form) on the field of index `i`,
cell `2i` holds, byte for byte, what `set_exact` with the same value stores in it from the same
state, and cell `2i+1` starts with the object representation of its member `v` holding the
prefix length. -/
theorem MatchKey.set_lpm_success (info : P4Info) (L : Layout) (le : Bool) (st : MatchKey)
    (f_id : Nat) (T : UIntTy) (V : Nat) (key : List Nat) (s : Nat) (p : Int) :
    ((MatchKey.set_lpm info L le st f_id T V p).1 = 0 →
      readBytes (MatchKey.set_lpm info L le st f_id T V p).2.match_key
          (info.table_match_field_index st.table_id f_id * 2 * L.cellSize) L.cellSize
        = readBytes (MatchKey.set_exact info L le st f_id T V).2.match_key
          (info.table_match_field_index st.table_id f_id * 2 * L.cellSize) L.cellSize ∧
      readBytes (MatchKey.set_lpm info L le st f_id T V p).2.match_key
          ((info.table_match_field_index st.table_id f_id * 2 + 1) * L.cellSize)
          (L.vRep p).length
        = L.vRep p) ∧
    ((MatchKey.set_lpmBytes info L st f_id key s p).1 = 0 →
      readBytes (MatchKey.set_lpmBytes info L st f_id key s p).2.match_key
          (info.table_match_field_index st.table_id f_id * 2 * L.cellSize) L.cellSize
        = readBytes (MatchKey.set_exactBytes info L st f_id key s).2.match_key
          (info.table_match_field_index st.table_id f_id * 2 * L.cellSize) L.cellSize ∧
      readBytes (MatchKey.set_lpmBytes info L st f_id key s p).2.match_key
          ((info.table_match_field_index st.table_id f_id * 2 + 1) * L.cellSize)
          (L.vRep p).length
        = L.vRep p) := by
  have e : (info.table_match_field_index st.table_id f_id * 2 + 1) * L.cellSize
      = info.table_match_field_index st.table_id f_id * 2 * L.cellSize + L.cellSize := by ring
  constructor
  · intro _
    simp only [MatchKey.set_lpm, MatchKey.storeV, MatchKey.set_exact]
    exact ⟨readBytes_writeBytes_disjoint _ _ _ _ _ (by omega), readBytes_writeBytes _ _ _⟩
  · intro _
    simp only [MatchKey.set_lpmBytes, MatchKey.storeV, MatchKey.set_exactBytes]
    exact ⟨readBytes_writeBytes_disjoint _ _ _ _ _ (by omega), readBytes_writeBytes _ _ _⟩

/-- Scenario S3: `set_lpm(F, 0x0A000000, 8)` on a 32-bit field (index 2) gives the cell bytes
`[0x0A, 0x00, 0x00, 0x00]` and the companion 8, here a 4-byte little-endian `int`. -/
theorem MatchKey.set_lpm_success_witness :
    ((MatchKey.set_lpm sampleInfo (Layout.lp64 4096) true sampleKey 2 .u32 0x0A000000 8).1 = 0 ∧
      (MatchKey.set_lpmBytes sampleInfo (Layout.lp64 4096) sampleKey 2 [0x0A, 0, 0, 0] 4 8).1 = 0 ∧
      readBytes (MatchKey.set_lpm sampleInfo (Layout.lp64 4096) true sampleKey 2 .u32 0x0A000000
        8).2.match_key 32 4 = [0x0A, 0x00, 0x00, 0x00] ∧
      readBytes (MatchKey.set_lpm sampleInfo (Layout.lp64 4096) true sampleKey 2 .u32 0x0A000000
        8).2.match_key 40 4 = [8, 0, 0, 0] ∧
      (Layout.lp64 4096).vRep 8 = [8, 0, 0, 0]) ∧
    (((MatchKey.set_lpm sampleInfo (Layout.lp64 4096) true sampleKey 2 .u32 0x0A000000 8).1 = 0 →
      readBytes (MatchKey.set_lpm sampleInfo (Layout.lp64 4096) true sampleKey 2 .u32 0x0A000000
          8).2.match_key
          (sampleInfo.table_match_field_index sampleKey.table_id 2 * 2
            * (Layout.lp64 4096).cellSize) (Layout.lp64 4096).cellSize
        = readBytes (MatchKey.set_exact sampleInfo (Layout.lp64 4096) true sampleKey 2 .u32
          0x0A000000).2.match_key
          (sampleInfo.table_match_field_index sampleKey.table_id 2 * 2
            * (Layout.lp64 4096).cellSize) (Layout.lp64 4096).cellSize ∧
      readBytes (MatchKey.set_lpm sampleInfo (Layout.lp64 4096) true sampleKey 2 .u32 0x0A000000
          8).2.match_key
          ((sampleInfo.table_match_field_index sampleKey.table_id 2 * 2 + 1)
            * (Layout.lp64 4096).cellSize)
          ((Layout.lp64 4096).vRep 8).length
        = (Layout.lp64 4096).vRep 8) ∧
    ((MatchKey.set_lpmBytes sampleInfo (Layout.lp64 4096) sampleKey 2 [0x0A, 0, 0, 0] 4 8).1 = 0 →
      readBytes (MatchKey.set_lpmBytes sampleInfo (Layout.lp64 4096) sampleKey 2 [0x0A, 0, 0, 0] 4
          8).2.match_key
          (sampleInfo.table_match_field_index sampleKey.table_id 2 * 2
            * (Layout.lp64 4096).cellSize) (Layout.lp64 4096).cellSize
        = readBytes (MatchKey.set_exactBytes sampleInfo (Layout.lp64 4096) sampleKey 2
          [0x0A, 0, 0, 0] 4).2.match_key
          (sampleInfo.table_match_field_index sampleKey.table_id 2 * 2
            * (Layout.lp64 4096).cellSize) (Layout.lp64 4096).cellSize ∧
      readBytes (MatchKey.set_lpmBytes sampleInfo (Layout.lp64 4096) sampleKey 2 [0x0A, 0, 0, 0] 4
          8).2.match_key
          ((sampleInfo.table_match_field_index sampleKey.table_id 2 * 2 + 1)
            * (Layout.lp64 4096).cellSize)
          ((Layout.lp64 4096).vRep 8).length
        = (Layout.lp64 4096).vRep 8)) :=
  ⟨by decide,
   MatchKey.set_lpm_success sampleInfo (Layout.lp64 4096) true sampleKey 2 .u32 0x0A000000
     [0x0A, 0, 0, 0] 4 8⟩

/-- C8: for a field of index `i` whose `⌈W/8⌉` bytes fit the inline bytes of a cell, and a key
and a mask of the accepted width (an unsigned type of at least `W` bits, or byte strings of
`⌈W/8⌉` bytes), `set_ternary` succeeds; afterwards the first `⌈W/8⌉` bytes of cell `2i` are the
bytes of the key and those of cell `2i+1` the bytes of the mask, each with its first byte ANDed
with the byte0-mask; writing the key leaves cell `2i+1` as it was and writing the mask leaves
cell `2i` as the key write left it. -/
theorem MatchKey.set_ternary_cells (info : P4Info) (L : Layout) (le : Bool) (st : MatchKey)
    (f_id : Nat) (T : UIntTy) (key mask : Nat) (keyB maskB : List Nat) (s : Nat)
    (hL : L.WF) (hC : (info.field_bitwidth f_id + 7) / 8 ≤ L.dstArr)
    (hT : info.field_bitwidth f_id ≤ 8 * T.sizeof)
    (hkey : key < 2 ^ (8 * T.sizeof)) (hmask : mask < 2 ^ (8 * T.sizeof))
    (hs : s = (info.field_bitwidth f_id + 7) / 8)
    (hkeyB : keyB.length = s) (hmaskB : maskB.length = s) :
    ((MatchKey.set_ternary info L le st f_id T key mask).1 = 0 ∧
      readBytes (MatchKey.set_ternary info L le st f_id T key mask).2.match_key
          (info.table_match_field_index st.table_id f_id * 2 * L.cellSize)
          ((info.field_bitwidth f_id + 7) / 8)
        = andHead (info.field_byte0_mask f_id)
            (beBytes ((info.field_bitwidth f_id + 7) / 8) key) ∧
      readBytes (MatchKey.set_ternary info L le st f_id T key mask).2.match_key
          ((info.table_match_field_index st.table_id f_id * 2 + 1) * L.cellSize)
          ((info.field_bitwidth f_id + 7) / 8)
        = andHead (info.field_byte0_mask f_id)
            (beBytes ((info.field_bitwidth f_id + 7) / 8) mask) ∧
      readBytes (MatchKey.set_exact info L le st f_id T key).2.match_key
          ((info.table_match_field_index st.table_id f_id * 2 + 1) * L.cellSize) L.cellSize
        = readBytes st.match_key
          ((info.table_match_field_index st.table_id f_id * 2 + 1) * L.cellSize) L.cellSize ∧
      readBytes (MatchKey.set_ternary info L le st f_id T key mask).2.match_key
          (info.table_match_field_index st.table_id f_id * 2 * L.cellSize) L.cellSize
        = readBytes (MatchKey.set_exact info L le st f_id T key).2.match_key
          (info.table_match_field_index st.table_id f_id * 2 * L.cellSize) L.cellSize) ∧
    ((MatchKey.set_ternaryBytes info L st f_id keyB maskB s).1 = 0 ∧
      readBytes (MatchKey.set_ternaryBytes info L st f_id keyB maskB s).2.match_key
          (info.table_match_field_index st.table_id f_id * 2 * L.cellSize) s
        = andHead (info.field_byte0_mask f_id) keyB ∧
      readBytes (MatchKey.set_ternaryBytes info L st f_id keyB maskB s).2.match_key
          ((info.table_match_field_index st.table_id f_id * 2 + 1) * L.cellSize) s
        = andHead (info.field_byte0_mask f_id) maskB ∧
      readBytes (MatchKey.set_exactBytes info L st f_id keyB s).2.match_key
          ((info.table_match_field_index st.table_id f_id * 2 + 1) * L.cellSize) L.cellSize
        = readBytes st.match_key
          ((info.table_match_field_index st.table_id f_id * 2 + 1) * L.cellSize) L.cellSize ∧
      readBytes (MatchKey.set_ternaryBytes info L st f_id keyB maskB s).2.match_key
          (info.table_match_field_index st.table_id f_id * 2 * L.cellSize) L.cellSize
        = readBytes (MatchKey.set_exactBytes info L st f_id keyB s).2.match_key
          (info.table_match_field_index st.table_id f_id * 2 * L.cellSize) L.cellSize) := by
  have e : (info.table_match_field_index st.table_id f_id * 2 + 1) * L.cellSize
      = info.table_match_field_index st.table_id f_id * 2 * L.cellSize + L.cellSize := by ring
  have hcs : (info.field_bitwidth f_id + 7) / 8 ≤ L.cellSize := le_trans hC hL.1
  constructor
  · have hK : (andHead (info.field_byte0_mask f_id)
        (beBytes ((info.field_bitwidth f_id + 7) / 8) key)).length
        = (info.field_bitwidth f_id + 7) / 8 := by rw [length_andHead, length_beBytes]
    have hM : (andHead (info.field_byte0_mask f_id)
        (beBytes ((info.field_bitwidth f_id + 7) / 8) mask)).length
        = (info.field_bitwidth f_id + 7) / 8 := by rw [length_andHead, length_beBytes]
    simp only [MatchKey.set_ternary, MatchKey.set_exact, MatchKey.format_eq _ _ _ _ _ _ _ _ hT hkey,
      MatchKey.format_eq _ _ _ _ _ _ _ _ hT hmask, ne_eq, not_true_eq_false, if_false]
    refine ⟨trivial, ?_, ?_, ?_, ?_⟩
    · rw [readBytes_writeBytes_disjoint _ _ _ _ _ (by omega)]
      have h := readBytes_writeBytes st.match_key
        (info.table_match_field_index st.table_id f_id * 2 * L.cellSize)
        (andHead (info.field_byte0_mask f_id) (beBytes ((info.field_bitwidth f_id + 7) / 8) key))
      rw [hK] at h
      exact h
    · have h := readBytes_writeBytes
        (writeBytes st.match_key (info.table_match_field_index st.table_id f_id * 2 * L.cellSize)
          (andHead (info.field_byte0_mask f_id)
            (beBytes ((info.field_bitwidth f_id + 7) / 8) key)))
        ((info.table_match_field_index st.table_id f_id * 2 + 1) * L.cellSize)
        (andHead (info.field_byte0_mask f_id) (beBytes ((info.field_bitwidth f_id + 7) / 8) mask))
      rw [hM] at h
      exact h
    · exact readBytes_writeBytes_disjoint _ _ _ _ _ (by omega)
    · exact readBytes_writeBytes_disjoint _ _ _ _ _ (by omega)
  · subst hs
    have h1 : ¬ (info.field_bitwidth f_id + 7) / 8 ≠ (info.field_bitwidth f_id + 7) / 8 := by simp
    have tk : keyB.take ((info.field_bitwidth f_id + 7) / 8) = keyB := by
      rw [← hkeyB, List.take_length]
    have tm : maskB.take ((info.field_bitwidth f_id + 7) / 8) = maskB := by
      rw [← hmaskB, List.take_length]
    simp only [MatchKey.set_ternaryBytes, MatchKey.set_exactBytes, MatchKey.formatBytes, if_neg h1,
      if_pos hC, tk, tm, ne_eq, not_true_eq_false, if_false]
    refine ⟨trivial, ?_, ?_, ?_, ?_⟩
    · rw [readBytes_andByte_disjoint _ _ _ _ _ (by omega),
        readBytes_writeBytes_disjoint _ _ _ _ _ (by omega)]
      have h := readBytes_andByte_writeBytes st.match_key
        (info.table_match_field_index st.table_id f_id * 2 * L.cellSize)
        (info.field_byte0_mask f_id) keyB
      rw [hkeyB] at h
      exact h
    · have h := readBytes_andByte_writeBytes
        (andByte (writeBytes st.match_key
          (info.table_match_field_index st.table_id f_id * 2 * L.cellSize) keyB)
          (info.table_match_field_index st.table_id f_id * 2 * L.cellSize)
          (info.field_byte0_mask f_id))
        ((info.table_match_field_index st.table_id f_id * 2 + 1) * L.cellSize)
        (info.field_byte0_mask f_id) maskB
      rw [hmaskB] at h
      exact h
    · rw [readBytes_andByte_disjoint _ _ _ _ _ (by omega),
        readBytes_writeBytes_disjoint _ _ _ _ _ (by omega)]
    · rw [readBytes_andByte_disjoint _ _ _ _ _ (by omega),
        readBytes_writeBytes_disjoint _ _ _ _ _ (by omega)]

theorem Layout.lp64_wf (base : Nat) : (Layout.lp64 base).WF :=
  ⟨Nat.le_refl 8, fun _ => by simp [Layout.lp64, leBytes], fun _ => by simp [Layout.lp64, leBytes]⟩

/-- Scenario S4: a 48-bit field (index 3, cells 6 and 7) with a 6-byte key and a 6-byte mask, given
as `uint64_t` values and as byte strings. -/
theorem MatchKey.set_ternary_cells_witness :
    ((sampleInfo.field_bitwidth 3 + 7) / 8 ≤ (Layout.lp64 4096).dstArr ∧
      sampleInfo.field_bitwidth 3 ≤ 8 * UIntTy.u64.sizeof ∧
      0x001122334455 < 2 ^ (8 * UIntTy.u64.sizeof) ∧
      0xFFFFFFFFFF00 < 2 ^ (8 * UIntTy.u64.sizeof) ∧
      6 = (sampleInfo.field_bitwidth 3 + 7) / 8 ∧
      [0x00, 0x11, 0x22, 0x33, 0x44, 0x55].length = 6 ∧
      [0xFF, 0xFF, 0xFF, 0xFF, 0xFF, 0x00].length = 6) ∧
    ((MatchKey.set_ternary sampleInfo (Layout.lp64 4096) true sampleKey 3 .u64 0x001122334455
        0xFFFFFFFFFF00).1 = 0 ∧
      readBytes (MatchKey.set_ternary sampleInfo (Layout.lp64 4096) true sampleKey 3 .u64
        0x001122334455 0xFFFFFFFFFF00).2.match_key 48 6 = [0x00, 0x11, 0x22, 0x33, 0x44, 0x55] ∧
      readBytes (MatchKey.set_ternary sampleInfo (Layout.lp64 4096) true sampleKey 3 .u64
        0x001122334455 0xFFFFFFFFFF00).2.match_key 56 6 = [0xFF, 0xFF, 0xFF, 0xFF, 0xFF, 0x00]) ∧
    ((MatchKey.set_ternaryBytes sampleInfo (Layout.lp64 4096) sampleKey 3
        [0x00, 0x11, 0x22, 0x33, 0x44, 0x55] [0xFF, 0xFF, 0xFF, 0xFF, 0xFF, 0x00] 6).1 = 0 ∧
      readBytes (MatchKey.set_ternaryBytes sampleInfo (Layout.lp64 4096) sampleKey 3
        [0x00, 0x11, 0x22, 0x33, 0x44, 0x55] [0xFF, 0xFF, 0xFF, 0xFF, 0xFF, 0x00] 6).2.match_key
        48 6 = [0x00, 0x11, 0x22, 0x33, 0x44, 0x55] ∧
      readBytes (MatchKey.set_ternaryBytes sampleInfo (Layout.lp64 4096) sampleKey 3
        [0x00, 0x11, 0x22, 0x33, 0x44, 0x55] [0xFF, 0xFF, 0xFF, 0xFF, 0xFF, 0x00] 6).2.match_key
        56 6 = [0xFF, 0xFF, 0xFF, 0xFF, 0xFF, 0x00]) :=
  have h := MatchKey.set_ternary_cells sampleInfo (Layout.lp64 4096) true sampleKey 3 .u64
    0x001122334455 0xFFFFFFFFFF00 [0x00, 0x11, 0x22, 0x33, 0x44, 0x55]
    [0xFF, 0xFF, 0xFF, 0xFF, 0xFF, 0x00] 6 (Layout.lp64_wf 4096) (by decide) (by decide)
    (by decide) (by decide) (by decide) rfl rfl
  ⟨by decide, ⟨h.1.1, h.1.2.1, h.1.2.2.1⟩, ⟨h.2.1, h.2.2.1, h.2.2.2.1⟩⟩

/-! ## reset -/

theorem MatchKey.call_sameShape (info : P4Info) (L : Layout) (le : Bool) (a b : MatchKey)
    (c : MatchKey.Call) (h : a.sameShape b) :
    (MatchKey.call info L le a c).1 = (MatchKey.call info L le b c).1 ∧
    (MatchKey.call info L le a c).2.sameShape (MatchKey.call info L le b c).2 := by
  obtain ⟨h1, h2, h3, h4⟩ := h
  cases c with
  | exact f T k =>
    by_cases c1 : info.field_bitwidth f > T.sizeof * 8 <;>
      simp [MatchKey.call, MatchKey.set_exact, MatchKey.format, MatchKey.sameShape, c1, h1, h2,
        h3, h4]
  | exactBytes f k s =>
    by_cases c1 : (info.field_bitwidth f + 7) / 8 ≠ s <;> by_cases c2 : s ≤ L.dstArr <;>
      simp [MatchKey.call, MatchKey.set_exactBytes, MatchKey.formatBytes, MatchKey.sameShape, c1,
        c2, h1, h2, h3, h4]
  | lpm f T k p =>
    by_cases c1 : info.field_bitwidth f > T.sizeof * 8 <;>
      simp [MatchKey.call, MatchKey.set_lpm, MatchKey.storeV, MatchKey.format, MatchKey.sameShape,
        c1, h1, h2, h3, h4]
  | lpmBytes f k s p =>
    by_cases c1 : (info.field_bitwidth f + 7) / 8 ≠ s <;> by_cases c2 : s ≤ L.dstArr <;>
      simp [MatchKey.call, MatchKey.set_lpmBytes, MatchKey.storeV, MatchKey.formatBytes,
        MatchKey.sameShape, c1, c2, h1, h2, h3, h4]
  | ternary f T k m =>
    by_cases c1 : info.field_bitwidth f > T.sizeof * 8 <;>
      simp [MatchKey.call, MatchKey.set_ternary, MatchKey.format, MatchKey.sameShape, c1, h1, h2,
        h3, h4]
  | ternaryBytes f k m s =>
    by_cases c1 : (info.field_bitwidth f + 7) / 8 ≠ s <;> by_cases c2 : s ≤ L.dstArr <;>
      simp [MatchKey.call, MatchKey.set_ternaryBytes, MatchKey.formatBytes, MatchKey.sameShape, c1,
        c2, h1, h2, h3, h4]

theorem MatchKey.run_sameShape (info : P4Info) (L : Layout) (le : Bool)
    (cs : List MatchKey.Call) (a b : MatchKey) (h : a.sameShape b) :
    (MatchKey.run info L le a cs).1 = (MatchKey.run info L le b cs).1 ∧
    (MatchKey.run info L le a cs).2.sameShape (MatchKey.run info L le b cs).2 := by
  induction cs generalizing a b with
  | nil => exact ⟨rfl, h⟩
  | cons c cs ih =>
    obtain ⟨e1, e2⟩ := MatchKey.call_sameShape info L le a b c h
    obtain ⟨e3, e4⟩ := ih _ _ e2
    simp only [MatchKey.run]
    exact ⟨by rw [e1, e3], e4⟩

/-- No call changes the table, the end of the cell array or the size of the array. -/
theorem MatchKey.call_fixed (info : P4Info) (L : Layout) (le : Bool) (a : MatchKey)
    (c : MatchKey.Call) :
    (MatchKey.call info L le a c).2.table_id = a.table_id ∧
    (MatchKey.call info L le a c).2.data_offset = a.data_offset ∧
    (MatchKey.call info L le a c).2.size = a.size := by
  cases c with
  | exact f T k =>
    by_cases c1 : info.field_bitwidth f > T.sizeof * 8 <;>
      simp [MatchKey.call, MatchKey.set_exact, MatchKey.format, c1]
  | exactBytes f k s =>
    by_cases c1 : (info.field_bitwidth f + 7) / 8 ≠ s <;> by_cases c2 : s ≤ L.dstArr <;>
      simp [MatchKey.call, MatchKey.set_exactBytes, MatchKey.formatBytes, c1, c2]
  | lpm f T k p =>
    by_cases c1 : info.field_bitwidth f > T.sizeof * 8 <;>
      simp [MatchKey.call, MatchKey.set_lpm, MatchKey.storeV, MatchKey.format, c1]
  | lpmBytes f k s p =>
    by_cases c1 : (info.field_bitwidth f + 7) / 8 ≠ s <;> by_cases c2 : s ≤ L.dstArr <;>
      simp [MatchKey.call, MatchKey.set_lpmBytes, MatchKey.storeV, MatchKey.formatBytes, c1, c2]
  | ternary f T k m =>
    by_cases c1 : info.field_bitwidth f > T.sizeof * 8 <;>
      simp [MatchKey.call, MatchKey.set_ternary, MatchKey.format, c1]
  | ternaryBytes f k m s =>
    by_cases c1 : (info.field_bitwidth f + 7) / 8 ≠ s <;> by_cases c2 : s ≤ L.dstArr <;>
      simp [MatchKey.call, MatchKey.set_ternaryBytes, MatchKey.formatBytes, c1, c2]

theorem MatchKey.run_fixed (info : P4Info) (L : Layout) (le : Bool)
    (cs : List MatchKey.Call) (a : MatchKey) :
    (MatchKey.run info L le a cs).2.table_id = a.table_id ∧
    (MatchKey.run info L le a cs).2.data_offset = a.data_offset ∧
    (MatchKey.run info L le a cs).2.size = a.size := by
  induction cs generalizing a with
  | nil => exact ⟨rfl, rfl, rfl⟩
  | cons c cs ih =>
    obtain ⟨e1, e2, e3⟩ := MatchKey.call_fixed info L le a c
    obtain ⟨e4, e5, e6⟩ := ih (MatchKey.call info L le a c).2
    simp only [MatchKey.run]
    exact ⟨by rw [e4, e1], by rw [e5, e2], by rw [e6, e3]⟩

theorem MatchKey.reset_eq_new (info : P4Info) (L : Layout) (le : Bool) (table_id : Nat)
    (garbage : Mem) (nset0 : Nat) (pre : List MatchKey.Call) :
    (MatchKey.run info L le (MatchKey.new info L table_id garbage nset0) pre).2.reset
      = MatchKey.new info L table_id
          (MatchKey.run info L le (MatchKey.new info L table_id garbage nset0) pre).2.match_key
          0 := by
  obtain ⟨e1, e2, e3⟩ := MatchKey.run_fixed info L le pre
    (MatchKey.new info L table_id garbage nset0)
  apply MatchKey.ext
  · simpa [MatchKey.reset, MatchKey.new] using e1
  · simp [MatchKey.reset, MatchKey.new]
  · simpa [MatchKey.reset, MatchKey.new] using e2
  · simpa [MatchKey.reset, MatchKey.new] using e2
  · simpa [MatchKey.reset, MatchKey.new] using e3
  · simp [MatchKey.reset, MatchKey.new]

/-- C9, as stated, fails: on zeroed arrays, after `set_exact` on the fields 0 and 1 and
`reset()`, a `set_exact` on field 0 leaves byte 16 (the cell of field 1) at `0x12`, while on a
fresh key it leaves it at 0. -/
theorem MatchKey.reset_then_calls_differs_from_fresh :
    (MatchKey.run sampleInfo (Layout.lp64 4096) true
      (MatchKey.run sampleInfo (Layout.lp64 4096) true sampleKey samplePrefix).2.reset
      sampleCalls).2.match_key 16 = 0x12 ∧
    (MatchKey.run sampleInfo (Layout.lp64 4096) true sampleKey sampleCalls).2.match_key 16 = 0 ∧
    (MatchKey.run sampleInfo (Layout.lp64 4096) true
      (MatchKey.run sampleInfo (Layout.lp64 4096) true sampleKey samplePrefix).2.reset
      sampleCalls).2
      ≠ (MatchKey.run sampleInfo (Layout.lp64 4096) true sampleKey sampleCalls).2 := by
  refine ⟨by decide, by decide, ?_⟩
  intro h
  have h16 := congrArg (fun k => k.match_key 16) h
  revert h16
  decide

/-- C9, amended: `reset()` puts the spill cursor back and leaves the bytes of the array as
they are. For a key that received any calls since its construction, `reset()` followed by the
calls `S` ends in the state, and returns the error codes, that `S` gives on a fresh key for the
same table whose array starts with the bytes the key held at the `reset()`; and it returns the
same error codes and ends with the same spill cursor as `S` on any fresh key for that table. -/
theorem MatchKey.reset_then_calls (info : P4Info) (L : Layout) (le : Bool) (table_id : Nat)
    (garbage garbage' : Mem) (nset0 nset0' : Nat) (pre S : List MatchKey.Call) :
    MatchKey.run info L le
        (MatchKey.run info L le (MatchKey.new info L table_id garbage nset0) pre).2.reset S
      = MatchKey.run info L le (MatchKey.new info L table_id
          (MatchKey.run info L le (MatchKey.new info L table_id garbage nset0) pre).2.match_key
          0) S ∧
    (MatchKey.run info L le
        (MatchKey.run info L le (MatchKey.new info L table_id garbage nset0) pre).2.reset S).1
      = (MatchKey.run info L le (MatchKey.new info L table_id garbage' nset0') S).1 ∧
    (MatchKey.run info L le
        (MatchKey.run info L le (MatchKey.new info L table_id garbage nset0) pre).2.reset
        S).2.data_offset_current
      = (MatchKey.run info L le (MatchKey.new info L table_id garbage' nset0')
        S).2.data_offset_current := by
  have hnew := MatchKey.reset_eq_new info L le table_id garbage nset0 pre
  have hshape : (MatchKey.new info L table_id
      (MatchKey.run info L le (MatchKey.new info L table_id garbage nset0) pre).2.match_key
      0).sameShape (MatchKey.new info L table_id garbage' nset0') := ⟨rfl, rfl, rfl, rfl⟩
  obtain ⟨e1, e2⟩ := MatchKey.run_sameShape info L le S _ _ hshape
  rw [hnew]
  exact ⟨rfl, e1, e2.2.2.1⟩

/-- C10, at a failing input: the constructor of `ActionData` puts the spill cursor at the end
of the cell array but leaves the member `data_offset` as it found it, and `reset()` copies that
member to the cursor. For the sample action (6 parameters, 8-byte cells) with the member at 0,
the cursor is 48 after construction and 0 after `reset()`: the 16 bytes of the 128-bit
parameter 5 then spill to offset 0, over the cells, instead of offset 48. -/
theorem ActionData.reset_cursor_not_restored :
    (∀ (info : P4Info) (L : Layout) (action_id : Nat) (garbage : Mem) (nset0 data_offset0 : Nat),
      (ActionData.new info L action_id garbage nset0 data_offset0).data_offset_current
        = (info.action_get_params action_id).length * L.cellSize ∧
      (ActionData.new info L action_id garbage nset0 data_offset0).reset.data_offset_current
        = data_offset0) ∧
    sampleArgs.data_offset_current = 48 ∧
    sampleArgs.reset.data_offset_current = 0 ∧
    readBytes (ActionData.set_argBytes sampleInfo (Layout.lp64 4096) sampleArgs 5
      [1, 2, 3, 4, 5, 6, 7, 8, 9, 10, 11, 12, 13, 14, 15, 16] 16).2.action_data 48 16
      = [1, 2, 3, 4, 5, 6, 7, 8, 9, 10, 11, 12, 13, 14, 15, 16] ∧
    readBytes (ActionData.set_argBytes sampleInfo (Layout.lp64 4096) sampleArgs.reset 5
      [1, 2, 3, 4, 5, 6, 7, 8, 9, 10, 11, 12, 13, 14, 15, 16] 16).2.action_data 0 16
      = [1, 2, 3, 4, 5, 6, 7, 8, 9, 10, 11, 12, 13, 14, 15, 16] ∧
    readBytes (ActionData.set_argBytes sampleInfo (Layout.lp64 4096) sampleArgs.reset 5
      [1, 2, 3, 4, 5, 6, 7, 8, 9, 10, 11, 12, 13, 14, 15, 16] 16).2.action_data 48 16
      = [0, 0, 0, 0, 0, 0, 0, 0, 0, 0, 0, 0, 0, 0, 0, 0] :=
  ⟨fun _ _ _ _ _ _ => ⟨rfl, rfl⟩, by decide, by decide, by decide, by decide, by decide⟩

/-! ## Action arguments -/

theorem cell_disjoint (i j cs : Nat) (h : j ≠ i) :
    j * cs + cs ≤ i * cs ∨ i * cs + cs ≤ j * cs := by
  rcases Nat.lt_or_gt_of_ne h with h1 | h1
  · left
    calc j * cs + cs = (j + 1) * cs := by ring
      _ ≤ i * cs := Nat.mul_le_mul_right cs h1
  · right
    calc i * cs + cs = (i + 1) * cs := by ring
      _ ≤ j * cs := Nat.mul_le_mul_right cs h1

/-- C11, as stated, fails: an accepted byte string wider than the inline bytes does not go
into the cell. On the fresh sample arguments, `set_arg` of 16 bytes for the 128-bit parameter 5
succeeds; cell 5 (bytes 40 to 47) then holds the pointer to offset 48 of the array, at address
4096, and the bytes of the value are in the spill region (bytes 48 to 63). When `reset()` has
put the cursor at 0, the same call writes the value over the cells 0 and 1. -/
theorem ActionData.set_arg_spilled_value_not_in_cell :
    (ActionData.set_argBytes sampleInfo (Layout.lp64 4096) sampleArgs 5
      [1, 2, 3, 4, 5, 6, 7, 8, 9, 10, 11, 12, 13, 14, 15, 16] 16).1 = 0 ∧
    readBytes (ActionData.set_argBytes sampleInfo (Layout.lp64 4096) sampleArgs 5
      [1, 2, 3, 4, 5, 6, 7, 8, 9, 10, 11, 12, 13, 14, 15, 16] 16).2.action_data 40 8
      = [48, 16, 0, 0, 0, 0, 0, 0] ∧
    readBytes (ActionData.set_argBytes sampleInfo (Layout.lp64 4096) sampleArgs 5
      [1, 2, 3, 4, 5, 6, 7, 8, 9, 10, 11, 12, 13, 14, 15, 16] 16).2.action_data 40 16
      ≠ andHead (sampleInfo.action_param_byte0_mask 5)
          [1, 2, 3, 4, 5, 6, 7, 8, 9, 10, 11, 12, 13, 14, 15, 16] ∧
    readBytes (ActionData.set_argBytes sampleInfo (Layout.lp64 4096) sampleArgs 5
      [1, 2, 3, 4, 5, 6, 7, 8, 9, 10, 11, 12, 13, 14, 15, 16] 16).2.action_data 48 16
      = [1, 2, 3, 4, 5, 6, 7, 8, 9, 10, 11, 12, 13, 14, 15, 16] ∧
    (ActionData.set_argBytes sampleInfo (Layout.lp64 4096) sampleArgs.reset 5
      [1, 2, 3, 4, 5, 6, 7, 8, 9, 10, 11, 12, 13, 14, 15, 16] 16).1 = 0 ∧
    readBytes sampleArgs.reset.action_data 0 16
      = [0, 0, 0, 0, 0, 0, 0, 0, 0, 0, 0, 0, 0, 0, 0, 0] ∧
    readBytes (ActionData.set_argBytes sampleInfo (Layout.lp64 4096) sampleArgs.reset 5
      [1, 2, 3, 4, 5, 6, 7, 8, 9, 10, 11, 12, 13, 14, 15, 16] 16).2.action_data 0 16
      = [1, 2, 3, 4, 5, 6, 7, 8, 9, 10, 11, 12, 13, 14, 15, 16] := by
  decide

/-- C11, amended: `set_arg` for the parameter id `ap` of width `W` uses the cell of index
`ap & 0xff` and the width and byte0-mask of the action parameter. An accepted integer (an
unsigned type of at least `W` bits, cells of at least 8 inline bytes) and an accepted byte
string that fits the inline bytes are written into the first `⌈W/8⌉` bytes of that cell,
big-endian for the integer, byte 0 ANDed with the mask; every other cell and the spill cursor
are left as they were. An accepted byte string wider than the inline bytes is written, byte 0
ANDed with the mask, to the spill region at the spill cursor, which advances by `⌈W/8⌉`; the
cell, when it lies below the cursor, receives the pointer to these bytes, and every other
cell that lies below the cursor is left as it was. -/
theorem ActionData.set_arg_single_cell (info : P4Info) (L : Layout) (le : Bool)
    (ad : ActionData) (ap_id : Nat) (T : UIntTy) (v : Nat) (arg : List Nat) (s : Nat)
    (hL : L.WF) :
    (8 ≤ L.dstArr → info.action_param_bitwidth ap_id ≤ 8 * T.sizeof → v < 2 ^ (8 * T.sizeof) →
      (ActionData.set_arg info L le ad ap_id T v).1 = 0 ∧
      readBytes (ActionData.set_arg info L le ad ap_id T v).2.action_data
          ((ap_id &&& 0xff) * L.cellSize) ((info.action_param_bitwidth ap_id + 7) / 8)
        = andHead (info.action_param_byte0_mask ap_id)
            (beBytes ((info.action_param_bitwidth ap_id + 7) / 8) v) ∧
      (∀ j, j ≠ ap_id &&& 0xff →
        readBytes (ActionData.set_arg info L le ad ap_id T v).2.action_data
            (j * L.cellSize) L.cellSize
          = readBytes ad.action_data (j * L.cellSize) L.cellSize) ∧
      (ActionData.set_arg info L le ad ap_id T v).2.data_offset_current
        = ad.data_offset_current) ∧
    (arg.length = s → s = (info.action_param_bitwidth ap_id + 7) / 8 → s ≤ L.dstArr →
      (ActionData.set_argBytes info L ad ap_id arg s).1 = 0 ∧
      readBytes (ActionData.set_argBytes info L ad ap_id arg s).2.action_data
          ((ap_id &&& 0xff) * L.cellSize) s
        = andHead (info.action_param_byte0_mask ap_id) arg ∧
      (∀ j, j ≠ ap_id &&& 0xff →
        readBytes (ActionData.set_argBytes info L ad ap_id arg s).2.action_data
            (j * L.cellSize) L.cellSize
          = readBytes ad.action_data (j * L.cellSize) L.cellSize) ∧
      (ActionData.set_argBytes info L ad ap_id arg s).2.data_offset_current
        = ad.data_offset_current) ∧
    (arg.length = s → s = (info.action_param_bitwidth ap_id + 7) / 8 → ¬ s ≤ L.dstArr →
      (ActionData.set_argBytes info L ad ap_id arg s).1 = 0 ∧
      readBytes (ActionData.set_argBytes info L ad ap_id arg s).2.action_data
          ad.data_offset_current s
        = andHead (info.action_param_byte0_mask ap_id) arg ∧
      (ActionData.set_argBytes info L ad ap_id arg s).2.data_offset_current
        = ad.data_offset_current + s ∧
      ((ap_id &&& 0xff) * L.cellSize + L.cellSize ≤ ad.data_offset_current →
        readBytes (ActionData.set_argBytes info L ad ap_id arg s).2.action_data
            ((ap_id &&& 0xff) * L.cellSize) (L.ptrRep ad.data_offset_current).length
          = L.ptrRep ad.data_offset_current) ∧
      (∀ j, j ≠ ap_id &&& 0xff → j * L.cellSize + L.cellSize ≤ ad.data_offset_current →
        readBytes (ActionData.set_argBytes info L ad ap_id arg s).2.action_data
            (j * L.cellSize) L.cellSize
          = readBytes ad.action_data (j * L.cellSize) L.cellSize)) := by
  refine ⟨?_, ?_, ?_⟩
  · intro hC hT hv
    have hb8 : (info.action_param_bitwidth ap_id + 7) / 8 ≤ 8 := by
      have : T.sizeof ≤ 8 := by cases T <;> decide
      omega
    have hcs : 8 ≤ L.cellSize := le_trans hC hL.1
    have hlen : (andHead (info.action_param_byte0_mask ap_id)
        (beBytes ((info.action_param_bitwidth ap_id + 7) / 8) v)).length
        = (info.action_param_bitwidth ap_id + 7) / 8 := by rw [length_andHead, length_beBytes]
    simp only [ActionData.set_arg, ActionData.format_param_eq _ _ _ _ _ _ _ _ hT hv]
    refine ⟨trivial, ?_, ?_, trivial⟩
    · have h := readBytes_writeBytes ad.action_data ((ap_id &&& 0xff) * L.cellSize)
        (andHead (info.action_param_byte0_mask ap_id)
          (beBytes ((info.action_param_bitwidth ap_id + 7) / 8) v))
      rw [hlen] at h
      exact h
    · intro j hj
      have hd := cell_disjoint (ap_id &&& 0xff) j L.cellSize hj
      exact readBytes_writeBytes_disjoint _ _ _ _ _ (by rw [hlen]; omega)
  · intro harg hs hin
    subst hs
    have h1 : ¬ (info.action_param_bitwidth ap_id + 7) / 8
        ≠ (info.action_param_bitwidth ap_id + 7) / 8 := by simp
    have ta : arg.take ((info.action_param_bitwidth ap_id + 7) / 8) = arg := by
      rw [← harg, List.take_length]
    have hle := hL.1
    simp only [ActionData.set_argBytes, ActionData.formatBytes, if_neg h1, if_pos hin, ta]
    refine ⟨trivial, ?_, ?_, trivial⟩
    · have h := readBytes_andByte_writeBytes ad.action_data ((ap_id &&& 0xff) * L.cellSize)
        (info.action_param_byte0_mask ap_id) arg
      rw [harg] at h
      exact h
    · intro j hj
      have hd := cell_disjoint (ap_id &&& 0xff) j L.cellSize hj
      rw [readBytes_andByte_disjoint _ _ _ _ _ (by omega),
        readBytes_writeBytes_disjoint _ _ _ _ _ (by omega)]
  · intro harg hs hout
    subst hs
    have h1 : ¬ (info.action_param_bitwidth ap_id + 7) / 8
        ≠ (info.action_param_bitwidth ap_id + 7) / 8 := by simp
    have ta : arg.take ((info.action_param_bitwidth ap_id + 7) / 8) = arg := by
      rw [← harg, List.take_length]
    have hp := hL.2.2 ad.data_offset_current
    simp only [ActionData.set_argBytes, ActionData.formatBytes, if_neg h1, if_neg hout, ta]
    refine ⟨trivial, ?_, trivial, ?_, ?_⟩
    · have h := readBytes_andByte_writeBytes
        (writeBytes ad.action_data ((ap_id &&& 0xff) * L.cellSize)
          (L.ptrRep ad.data_offset_current))
        ad.data_offset_current (info.action_param_byte0_mask ap_id) arg
      rw [harg] at h
      exact h
    · intro hbelow
      rw [readBytes_andByte_disjoint _ _ _ _ _ (by omega),
        readBytes_writeBytes_disjoint _ _ _ _ _ (by omega)]
      exact readBytes_writeBytes _ _ _
    · intro j hj hbelow
      have hd := cell_disjoint (ap_id &&& 0xff) j L.cellSize hj
      rw [readBytes_andByte_disjoint _ _ _ _ _ (by omega),
        readBytes_writeBytes_disjoint _ _ _ _ _ (by omega),
        readBytes_writeBytes_disjoint _ _ _ _ _ (by omega)]

/-- The parameter id `0x103` (8 bits wide in the sample program) goes to cell 3, bytes 24 to
31, as an integer and as a byte string, and cell 0 keeps its bytes. The 16 bytes of the
128-bit parameter 5 go to the spill region of the fresh sample arguments, bytes 48 to 63;
cell 5 gets the pointer to them, cell 0 keeps its bytes and the cursor moves to 64. -/
theorem ActionData.set_arg_single_cell_witness :
    (8 ≤ (Layout.lp64 4096).dstArr ∧
      sampleInfo.action_param_bitwidth 0x103 ≤ 8 * UIntTy.u8.sizeof ∧
      0x7F < 2 ^ (8 * UIntTy.u8.sizeof) ∧
      1 = (sampleInfo.action_param_bitwidth 0x103 + 7) / 8 ∧ [0x7F].length = 1 ∧
      1 ≤ (Layout.lp64 4096).dstArr ∧
      16 = (sampleInfo.action_param_bitwidth 5 + 7) / 8 ∧
      ¬ 16 ≤ (Layout.lp64 4096).dstArr ∧
      (5 &&& 0xff) * (Layout.lp64 4096).cellSize + (Layout.lp64 4096).cellSize
        ≤ sampleArgs.data_offset_current ∧
      (Layout.lp64 4096).ptrRep sampleArgs.data_offset_current = [48, 16, 0, 0, 0, 0, 0, 0]) ∧
    ((ActionData.set_arg sampleInfo (Layout.lp64 4096) true sampleArgs 0x103 .u8 0x7F).1 = 0 ∧
      readBytes (ActionData.set_arg sampleInfo (Layout.lp64 4096) true sampleArgs 0x103 .u8
        0x7F).2.action_data 24 1 = [0x7F] ∧
      readBytes (ActionData.set_arg sampleInfo (Layout.lp64 4096) true sampleArgs 0x103 .u8
        0x7F).2.action_data 0 8 = readBytes sampleArgs.action_data 0 8) ∧
    ((ActionData.set_argBytes sampleInfo (Layout.lp64 4096) sampleArgs 0x103 [0x7F] 1).1 = 0 ∧
      readBytes (ActionData.set_argBytes sampleInfo (Layout.lp64 4096) sampleArgs 0x103 [0x7F]
        1).2.action_data 24 1 = [0x7F]) ∧
    ((ActionData.set_argBytes sampleInfo (Layout.lp64 4096) sampleArgs 5
        [1, 2, 3, 4, 5, 6, 7, 8, 9, 10, 11, 12, 13, 14, 15, 16] 16).1 = 0 ∧
      readBytes (ActionData.set_argBytes sampleInfo (Layout.lp64 4096) sampleArgs 5
        [1, 2, 3, 4, 5, 6, 7, 8, 9, 10, 11, 12, 13, 14, 15, 16] 16).2.action_data 48 16
        = [1, 2, 3, 4, 5, 6, 7, 8, 9, 10, 11, 12, 13, 14, 15, 16] ∧
      (ActionData.set_argBytes sampleInfo (Layout.lp64 4096) sampleArgs 5
        [1, 2, 3, 4, 5, 6, 7, 8, 9, 10, 11, 12, 13, 14, 15, 16] 16).2.data_offset_current
        = 64 ∧
      readBytes (ActionData.set_argBytes sampleInfo (Layout.lp64 4096) sampleArgs 5
        [1, 2, 3, 4, 5, 6, 7, 8, 9, 10, 11, 12, 13, 14, 15, 16] 16).2.action_data 40 8
        = [48, 16, 0, 0, 0, 0, 0, 0] ∧
      readBytes (ActionData.set_argBytes sampleInfo (Layout.lp64 4096) sampleArgs 5
        [1, 2, 3, 4, 5, 6, 7, 8, 9, 10, 11, 12, 13, 14, 15, 16] 16).2.action_data 0 8
        = readBytes sampleArgs.action_data 0 8) :=
  have h := ActionData.set_arg_single_cell sampleInfo (Layout.lp64 4096) true sampleArgs 0x103
    .u8 0x7F [0x7F] 1 (Layout.lp64_wf 4096)
  have hi := h.1 (by decide) (by decide) (by decide)
  have hb := h.2.1 rfl (by decide) (by decide)
  have hs := (ActionData.set_arg_single_cell sampleInfo (Layout.lp64 4096) true sampleArgs 5
    .u8 0 [1, 2, 3, 4, 5, 6, 7, 8, 9, 10, 11, 12, 13, 14, 15, 16] 16
    (Layout.lp64_wf 4096)).2.2 rfl (by decide) (by decide)
  ⟨by decide, ⟨hi.1, hi.2.1, hi.2.2.1 0 (by decide)⟩, ⟨hb.1, hb.2.1⟩,
    ⟨hs.1, hs.2.1, hs.2.2.1, hs.2.2.2.1 (by decide), hs.2.2.2.2 0 (by decide) (by decide)⟩⟩

/-! ## MatchTable -/

/-- C12: `entry_add` on a `MatchTable` for table `T`, with a key built for table `T1` and
action data built for action `a1`, returns the failure code 1 without calling
`pi_table_entry_add` when `T1 ≠ T` or `a1 ≠ a`; otherwise it calls it exactly once, with table
`T`, the raw key and action-data buffers and the overwrite flag, and returns the status of
that call. -/
theorem MatchTable.entry_add_checks (pi_table_entry_add : TableEntryAdd → Nat × Nat)
    (t : MatchTable) (match_key : MatchKey) (action_id : Nat) (action_data : ActionData)
    (overwrite : Bool) :
    ((match_key.table_id ≠ t.table_id ∨ action_id ≠ action_data.action_id) →
      (MatchTable.entry_add pi_table_entry_add t match_key action_id action_data overwrite).1 = 1 ∧
      (MatchTable.entry_add pi_table_entry_add t match_key action_id action_data
        overwrite).2.2 = []) ∧
    ((match_key.table_id = t.table_id ∧ action_id = action_data.action_id) →
      (MatchTable.entry_add pi_table_entry_add t match_key action_id action_data
        overwrite).2.2
        = [{ dev_tgt := (0, 0xffff), table_id := t.table_id, match_key := match_key.match_key,
             entry_action_id := action_id, entry_action_data := action_data.action_data,
             overwrite := overwrite }] ∧
      (MatchTable.entry_add pi_table_entry_add t match_key action_id action_data overwrite).1
        = (pi_table_entry_add
            { dev_tgt := (0, 0xffff), table_id := t.table_id, match_key := match_key.match_key,
              entry_action_id := action_id, entry_action_data := action_data.action_data,
              overwrite := overwrite }).1) := by
  constructor
  · intro h
    by_cases h1 : match_key.table_id ≠ t.table_id
    · simp [MatchTable.entry_add, h1]
    · have h2 : action_id ≠ action_data.action_id := by
        rcases h with h | h
        · exact absurd h h1
        · exact h
      simp [MatchTable.entry_add, h1, h2]
  · rintro ⟨h1, h2⟩
    simp [MatchTable.entry_add, h1, h2]

/-- The sample key (table 1) and sample arguments (action 1) are accepted by the table 1 with
action 1, and refused by the table 2 and with action 2. -/
theorem MatchTable.entry_add_checks_witness :
    (sampleKey.table_id = 1 ∧ sampleArgs.action_id = 1) ∧
    ((MatchTable.entry_add sampleEntryAdd ⟨1⟩ sampleKey 1 sampleArgs true).2.2.length = 1 ∧
      (MatchTable.entry_add sampleEntryAdd ⟨1⟩ sampleKey 1 sampleArgs true).1 = 0) ∧
    ((MatchTable.entry_add sampleEntryAdd ⟨2⟩ sampleKey 1 sampleArgs true).1 = 1 ∧
      (MatchTable.entry_add sampleEntryAdd ⟨2⟩ sampleKey 1 sampleArgs true).2.2 = []) ∧
    ((MatchTable.entry_add sampleEntryAdd ⟨1⟩ sampleKey 2 sampleArgs true).1 = 1 ∧
      (MatchTable.entry_add sampleEntryAdd ⟨1⟩ sampleKey 2 sampleArgs true).2.2 = []) :=
  have h := (MatchTable.entry_add_checks sampleEntryAdd ⟨1⟩ sampleKey 1 sampleArgs true).2
    ⟨rfl, rfl⟩
  ⟨⟨rfl, rfl⟩, ⟨by rw [h.1]; rfl, h.2⟩,
    (MatchTable.entry_add_checks sampleEntryAdd ⟨2⟩ sampleKey 1 sampleArgs true).1
      (Or.inl (by decide)),
    (MatchTable.entry_add_checks sampleEntryAdd ⟨1⟩ sampleKey 2 sampleArgs true).1
      (Or.inr (by decide))⟩

/-! ## The stream multiplexer -/

/-- Replacing a reader by one with the same writer keeps the invariant, when the new state
fits that writer. -/
theorem StreamMux.Inv.update_reader (m m' : StreamMux) (self : Nat)
    (rd0 rd' : StreamChannelReader) (hI : m.Inv)
    (hc : m'.clients = m.clients) (hws : m'.writers = m.writers)
    (hr : m'.readers = Function.update m.readers self (some rd'))
    (hself : m.readers self = some rd0) (hw : rd'.writer = rd0.writer)
    (h1 : rd'.state = .CREATE ∨ rd'.state = .PROCESS → rd'.writer = none)
    (h2 : rd'.state = .FINISH → ∀ w, rd'.writer = some w → w ∉ m.clients) : m'.Inv := by
  obtain ⟨hA, hB, hC, hD, hE, hF⟩ := hI
  have key : ∀ r rd, m'.readers r = some rd →
      (r = self ∧ rd = rd') ∨ (r ≠ self ∧ m.readers r = some rd) := by
    intro r rd h
    rw [hr] at h
    by_cases e : r = self
    · subst e
      rw [Function.update_same] at h
      exact Or.inl ⟨rfl, (Option.some.inj h).symm⟩
    · rw [Function.update_noteq e] at h
      exact Or.inr ⟨e, h⟩
  refine ⟨by rw [hc]; exact hA, by rw [hc, hws]; exact hB, ?_, ?_, ?_, ?_⟩
  · intro r rd w h hwr
    rw [hws]
    rcases key r rd h with ⟨_, e⟩ | ⟨_, e⟩
    · subst e
      exact hC self rd0 w hself (hw ▸ hwr)
    · exact hC r rd w e hwr
  · intro r rd w h hwr hst
    rw [hc]
    rcases key r rd h with ⟨_, e⟩ | ⟨_, e⟩
    · subst e
      exact h2 hst w hwr
    · exact hD r rd w e hwr hst
  · intro r1 r2 rd1 rd2 w g1 g2 w1 w2
    rcases key r1 rd1 g1 with ⟨e1, f1⟩ | ⟨e1, f1⟩ <;>
      rcases key r2 rd2 g2 with ⟨e2, f2⟩ | ⟨e2, f2⟩
    · rw [e1, e2]
    · subst f1
      rw [e1]
      exact hE self r2 rd0 rd2 w hself f2 (hw ▸ w1) w2
    · subst f2
      rw [e2]
      exact hE r1 self rd1 rd0 w f1 hself w1 (hw ▸ w2)
    · exact hE r1 r2 rd1 rd2 w f1 f2 w1 w2
  · intro r rd h hst
    rcases key r rd h with ⟨_, e⟩ | ⟨_, e⟩
    · subst e
      exact h1 hst
    · exact hF r rd e hst

theorem StreamMux.Inv.remove_client (m : StreamMux) (w : Nat) (hI : m.Inv) :
    (m.remove_client w).Inv := by
  obtain ⟨hA, hB, hC, hD, hE, hF⟩ := hI
  refine ⟨hA.erase w, ?_, hC, ?_, hE, hF⟩
  · intro w' hw'
    exact hB w' (List.mem_of_mem_erase hw')
  · intro r rd w' h hwr hst hmem
    exact hD r rd w' h hwr hst (List.mem_of_mem_erase hmem)

/-- Changing the state of live writers, never back to `CREATE`, keeps the invariant. -/
theorem StreamMux.Inv.update_writers (m m' : StreamMux) (hI : m.Inv)
    (hc : m'.clients = m.clients) (hr : m'.readers = m.readers)
    (hw : ∀ a, (∀ wr, m.writers a = some wr →
        ∃ wr', m'.writers a = some wr' ∧ (wr.state ≠ .CREATE → wr'.state ≠ .CREATE)) ∧
      (m.writers a = none → m'.writers a = none)) : m'.Inv := by
  obtain ⟨hA, hB, hC, hD, hE, hF⟩ := hI
  refine ⟨by rw [hc]; exact hA, ?_, ?_, by rw [hc, hr]; exact hD, by rw [hr]; exact hE,
    by rw [hr]; exact hF⟩
  · intro w hmem
    rw [hc] at hmem
    obtain ⟨wr, e, hne⟩ := hB w hmem
    obtain ⟨wr', e', hne'⟩ := (hw w).1 wr e
    exact ⟨wr', e', hne' hne⟩
  · intro r rd w h hwr
    rw [hr] at h
    have h1 := hC r rd w h hwr
    obtain ⟨wr, e⟩ := Option.isSome_iff_exists.mp h1
    obtain ⟨wr', e', _⟩ := (hw w).1 wr e
    rw [e']
    rfl

theorem StreamChannelWriter.send_state (w : StreamChannelWriter) (self device_id : Nat)
    (packet : PacketIn) (h : w.state ≠ .CREATE) :
    (w.send self device_id packet).1.state ≠ .CREATE := by
  simp only [StreamChannelWriter.send]
  split
  · exact h
  · simp

theorem StreamChannelWriter.proceed_state (w : StreamChannelWriter) (ok : Bool)
    (h : w.state ≠ .CREATE) : (w.proceed ok).state ≠ .CREATE := by
  simp only [StreamChannelWriter.proceed]
  split_ifs <;> first | exact h | simp

theorem StreamMux.send_all_writers (device_id : Nat) (packet : PacketIn) (cs : List Nat)
    (writers : Nat → Option StreamChannelWriter) (a : Nat) :
    (∀ wr, writers a = some wr →
      ∃ wr', (StreamMux.send_all device_id packet cs writers).1 a = some wr' ∧
        (wr.state ≠ .CREATE → wr'.state ≠ .CREATE)) ∧
    (writers a = none → (StreamMux.send_all device_id packet cs writers).1 a = none) := by
  induction cs generalizing writers with
  | nil =>
    exact ⟨fun wr h => ⟨wr, h, id⟩, fun h => h⟩
  | cons c cs ih =>
    simp only [StreamMux.send_all]
    cases hc : writers c with
    | none => exact ih writers
    | some w =>
      simp only
      have ih' := ih (Function.update writers c (some (w.send c device_id packet).1))
      by_cases e : a = c
      · subst e
        rw [Function.update_same] at ih'
        constructor
        · intro wr h
          rw [hc] at h
          have hwr : w = wr := Option.some.inj h
          subst hwr
          obtain ⟨wr', e1, e2⟩ := ih'.1 _ rfl
          exact ⟨wr', e1, fun hne => e2 (StreamChannelWriter.send_state w a device_id packet hne)⟩
        · intro h
          rw [hc] at h
          exact absurd h (by simp)
      · rw [Function.update_noteq e] at ih'
        exact ih'

theorem StreamMux.Inv.notify_clients (m : StreamMux) (device_id : Nat) (packet : PacketIn)
    (hI : m.Inv) : (m.notify_clients device_id packet).1.Inv :=
  StreamMux.Inv.update_writers m (m.notify_clients device_id packet).1 hI rfl rfl
    (fun a => StreamMux.send_all_writers device_id packet m.clients m.writers a)

theorem StreamMux.Inv.writer_proceed (m : StreamMux) (a : Nat) (w : StreamChannelWriter)
    (ok : Bool) (hI : m.Inv) (ha : m.writers a = some w) :
    StreamMux.Inv { m with writers := Function.update m.writers a (some (w.proceed ok)) } := by
  refine StreamMux.Inv.update_writers m
    { m with writers := Function.update m.writers a (some (w.proceed ok)) } hI rfl rfl ?_
  intro b
  by_cases e : b = a
  · subst e
    simp only [Function.update_same]
    constructor
    · intro wr h
      rw [ha] at h
      have hwr : w = wr := Option.some.inj h
      subst hwr
      exact ⟨_, rfl, StreamChannelWriter.proceed_state w ok⟩
    · intro h
      rw [ha] at h
      exact absurd h (by simp)
  · simp only [Function.update_noteq e]
    exact ⟨fun wr h => ⟨wr, h, id⟩, fun h => h⟩

theorem StreamMux.Inv.received (m : StreamMux) (self : Nat) (ok : Bool)
    (message : StreamMessageRequest) (hI : m.Inv) : (m.received self ok message).Inv := by
  simp only [StreamMux.received]
  cases hr : m.readers self with
  | none => exact hI
  | some rd =>
    simp only
    split
    · rename_i hst
      refine StreamMux.Inv.update_reader m
        { m with readers := Function.update m.readers self
                   (some { rd with request := message }) }
        self rd { rd with request := message } hI rfl rfl rfl hr rfl ?_ ?_
      · intro h
        rcases h with h | h <;> simp [hst.1] at h
      · intro h
        simp [hst.1] at h
    · exact hI

theorem StreamMux.Inv.delete_reader (m : StreamMux) (self : Nat) (rd0 : StreamChannelReader)
    (hI : m.Inv) (hself : m.readers self = some rd0) (hst : rd0.state = .FINISH) :
    StreamMux.Inv { m with readers := Function.update m.readers self none
                           writers := StreamMux.destroy_writer m.writers rd0.writer } := by
  obtain ⟨hA, hB, hC, hD, hE, hF⟩ := hI
  have key : ∀ r rd, Function.update m.readers self none r = some rd →
      r ≠ self ∧ m.readers r = some rd := by
    intro r rd h
    by_cases e : r = self
    · subst e
      rw [Function.update_same] at h
      exact absurd h (by simp)
    · rw [Function.update_noteq e] at h
      exact ⟨e, h⟩
  have hw : ∀ a, rd0.writer ≠ some a →
      StreamMux.destroy_writer m.writers rd0.writer a = m.writers a := by
    intro a ha
    cases hwr : rd0.writer with
    | none => rfl
    | some w =>
      simp only [StreamMux.destroy_writer]
      apply Function.update_noteq
      intro e
      apply ha
      rw [hwr, e]
  refine ⟨hA, ?_, ?_, ?_, ?_, ?_⟩
  · intro w hmem
    simp only
    rw [hw w (fun e => hD self rd0 w hself e hst hmem)]
    exact hB w hmem
  · intro r rd w h hwr
    obtain ⟨hne, h'⟩ := key r rd h
    simp only
    rw [hw w (fun e => hne (hE r self rd rd0 w h' hself hwr e))]
    exact hC r rd w h' hwr
  · intro r rd w h hwr hs
    exact hD r rd w (key r rd h).2 hwr hs
  · intro r1 r2 rd1 rd2 w g1 g2 w1 w2
    exact hE r1 r2 rd1 rd2 w (key r1 rd1 g1).2 (key r2 rd2 g2).2 w1 w2
  · intro r rd h hs
    exact hF r rd (key r rd h).2 hs

theorem StreamMux.Inv.accept (m : StreamMux) (self new_reader new_writer : Nat)
    (rd0 : StreamChannelReader) (hI : m.Inv) (hself : m.readers self = some rd0)
    (hst : rd0.state = .PROCESS) (hnr : m.readers new_reader = none)
    (hnw : m.writers new_writer = none) :
    StreamMux.Inv
      { clients := m.clients ++ [new_writer]
        writers := Function.update (StreamMux.destroy_writer m.writers rd0.writer) new_writer
          (some (({ state := .CREATE } : StreamChannelWriter).proceed true))
        readers := Function.update
          (Function.update m.readers new_reader (some (StreamChannelReader.new new_reader).1))
          self (some { rd0 with writer := some new_writer, state := .READ }) } := by
  obtain ⟨hA, hB, hC, hD, hE, hF⟩ := hI
  have hnone : rd0.writer = none := hF self rd0 hself (Or.inr hst)
  have hlive : ∀ w, (m.writers w).isSome → w ≠ new_writer := by
    intro w h e
    rw [e, hnw] at h
    exact absurd h (by simp)
  have hnotin : new_writer ∉ m.clients := by
    intro hmem
    obtain ⟨wr, e, _⟩ := hB new_writer hmem
    rw [hnw] at e
    exact absurd e (by simp)
  have key : ∀ r rd, Function.update
      (Function.update m.readers new_reader (some (StreamChannelReader.new new_reader).1))
      self (some { rd0 with writer := some new_writer, state := .READ }) r = some rd →
      (r = self ∧ rd = { rd0 with writer := some new_writer, state := .READ }) ∨
      (rd = (StreamChannelReader.new new_reader).1) ∨
      (r ≠ self ∧ m.readers r = some rd) := by
    intro r rd h
    by_cases e : r = self
    · subst e
      rw [Function.update_same] at h
      exact Or.inl ⟨rfl, (Option.some.inj h).symm⟩
    · rw [Function.update_noteq e] at h
      by_cases e2 : r = new_reader
      · subst e2
        rw [Function.update_same] at h
        exact Or.inr (Or.inl (Option.some.inj h).symm)
      · rw [Function.update_noteq e2] at h
        exact Or.inr (Or.inr ⟨e, h⟩)
  have hws : ∀ a, a ≠ new_writer →
      Function.update (StreamMux.destroy_writer m.writers rd0.writer) new_writer
        (some (({ state := .CREATE } : StreamChannelWriter).proceed true)) a = m.writers a := by
    intro a ha
    rw [Function.update_noteq ha, hnone]
    rfl
  have hnew : (StreamChannelReader.new new_reader).1.writer = none := rfl
  have hnewst : (StreamChannelReader.new new_reader).1.state = .PROCESS := rfl
  refine ⟨?_, ?_, ?_, ?_, ?_, ?_⟩
  · exact List.Nodup.append hA (List.nodup_singleton _) (by simpa using hnotin)
  · intro w hmem
    simp only
    rcases List.mem_append.mp hmem with h | h
    · rw [hws w (hlive w (by obtain ⟨wr, e, _⟩ := hB w h; rw [e]; rfl))]
      exact hB w h
    · have e : w = new_writer := by simpa using h
      subst e
      rw [Function.update_same]
      exact ⟨_, rfl, by decide⟩
  · intro r rd w h hwr
    simp only
    rcases key r rd h with ⟨_, e⟩ | e | ⟨_, e⟩
    · subst e
      have : w = new_writer := (Option.some.inj hwr).symm
      subst this
      rw [Function.update_same]
      rfl
    · subst e
      rw [hnew] at hwr
      exact absurd hwr (by simp)
    · have h1 := hC r rd w e hwr
      rw [hws w (hlive w h1)]
      exact h1
  · intro r rd w h hwr hs
    simp only
    rcases key r rd h with ⟨_, e⟩ | e | ⟨_, e⟩
    · subst e
      simp at hs
    · subst e
      rw [hnew] at hwr
      exact absurd hwr (by simp)
    · intro hmem
      rcases List.mem_append.mp hmem with h1 | h1
      · exact hD r rd w e hwr hs h1
      · have e2 : w = new_writer := by simpa using h1
        exact hlive w (hC r rd w e hwr) e2
  · intro r1 r2 rd1 rd2 w g1 g2 w1 w2
    rcases key r1 rd1 g1 with ⟨e1, f1⟩ | f1 | ⟨e1, f1⟩ <;>
      rcases key r2 rd2 g2 with ⟨e2, f2⟩ | f2 | ⟨e2, f2⟩
    · rw [e1, e2]
    · subst f2; rw [hnew] at w2; exact absurd w2 (by simp)
    · subst f1
      have : w = new_writer := (Option.some.inj w1).symm
      exact absurd this (hlive w (hC r2 rd2 w f2 w2))
    · subst f1; rw [hnew] at w1; exact absurd w1 (by simp)
    · subst f1; rw [hnew] at w1; exact absurd w1 (by simp)
    · subst f1; rw [hnew] at w1; exact absurd w1 (by simp)
    · subst f2
      have : w = new_writer := (Option.some.inj w2).symm
      exact absurd this (hlive w (hC r1 rd1 w f1 w1))
    · subst f2; rw [hnew] at w2; exact absurd w2 (by simp)
    · exact hE r1 r2 rd1 rd2 w f1 f2 w1 w2
  · intro r rd h hs
    rcases key r rd h with ⟨_, e⟩ | e | ⟨_, e⟩
    · subst e
      rcases hs with hs | hs <;> simp at hs
    · subst e
      exact hnew
    · exact hF r rd e hs

theorem StreamMux.Inv.proceed (devices : Devices) (m : StreamMux) (self : Nat) (ok : Bool)
    (new_reader new_writer : Nat) (hI : m.Inv) (hnr : m.readers new_reader = none)
    (hnw : m.writers new_writer = none) :
    (StreamChannelReader.proceed devices m self ok new_reader new_writer).1.Inv := by
  unfold StreamChannelReader.proceed
  cases hr : m.readers self with
  | none => exact hI
  | some rd0 =>
    simp only
    by_cases hfin : rd0.state = .FINISH
    · rw [if_pos hfin]
      exact StreamMux.Inv.delete_reader m self rd0 hI hr hfin
    · rw [if_neg hfin]
      cases ok with
      | false =>
        simp only [Bool.not_false, if_true]
        cases hw : rd0.writer with
        | none =>
          simp only
          refine StreamMux.Inv.update_reader m _ self rd0 _ hI rfl rfl rfl hr hw.symm ?_ ?_
          · intro h
            rcases h with h | h <;> simp at h
          · intro _ w h
            simp [hw] at h
        | some w =>
          simp only
          refine StreamMux.Inv.update_reader (m.remove_client w) _ self rd0 _
            (StreamMux.Inv.remove_client m w hI) rfl rfl rfl hr hw.symm ?_ ?_
          · intro h
            rcases h with h | h <;> simp at h
          · intro _ w' h
            have e : w = w' := Option.some.inj h
            subst e
            exact hI.1.not_mem_erase
      | true =>
        simp only [Bool.not_true, Bool.false_eq_true, if_false]
        cases hs : rd0.state with
        | CREATE =>
          simp only
          refine StreamMux.Inv.update_reader m _ self rd0 _ hI rfl rfl rfl hr rfl ?_ ?_
          · intro _
            exact hI.2.2.2.2.2 self rd0 hr (Or.inl hs)
          · intro h
            simp [StreamChannelReader.request_stream] at h
        | PROCESS =>
          simp only
          exact StreamMux.Inv.accept m self new_reader new_writer rd0 hI hr hs hnr hnw
        | READ =>
          simp only
          cases hq : rd0.request with
          | arbitration d =>
            simp only
            refine StreamMux.Inv.update_reader m _ self rd0 _ hI rfl rfl rfl hr rfl ?_ ?_
            · intro h
              rcases h with h | h <;> simp [hs] at h
            · intro h
              simp [hs] at h
          | packet p =>
            simp only
            cases devices.get rd0.device_id <;>
            · simp only
              refine StreamMux.Inv.update_reader m _ self rd0 _ hI rfl rfl rfl hr rfl ?_ ?_
              · intro h
                rcases h with h | h <;> simp [hs] at h
              · intro h
                simp [hs] at h
          | not_set =>
            simp only
            refine StreamMux.Inv.update_reader m _ self rd0 _ hI rfl rfl rfl hr rfl ?_ ?_
            · intro h
              rcases h with h | h <;> simp [hs] at h
            · intro h
              simp [hs] at h
        | FINISH => exact absurd hs hfin

theorem StreamMux.received_readers_none (m : StreamMux) (self : Nat) (ok : Bool)
    (message : StreamMessageRequest) (a : Nat) (h : m.readers a = none) :
    (m.received self ok message).readers a = none := by
  simp only [StreamMux.received]
  cases hr : m.readers self with
  | none => exact h
  | some rd =>
    simp only
    split
    · simp only
      have e : a ≠ self := by
        intro e
        rw [e, hr] at h
        exact absurd h (by simp)
      rw [Function.update_noteq e]
      exact h
    · exact h

theorem StreamMux.received_writers (m : StreamMux) (self : Nat) (ok : Bool)
    (message : StreamMessageRequest) : (m.received self ok message).writers = m.writers := by
  simp only [StreamMux.received]
  cases m.readers self with
  | none => rfl
  | some rd =>
    simp only
    split <;> rfl

theorem StreamMux.received_clients (m : StreamMux) (self : Nat) (ok : Bool)
    (message : StreamMessageRequest) : (m.received self ok message).clients = m.clients := by
  simp only [StreamMux.received]
  cases m.readers self with
  | none => rfl
  | some rd =>
    simp only
    split <;> rfl

theorem StreamMux.Inv.next (devices : Devices) (m : StreamMux) (tag : StreamChannelTag)
    (ok : Bool) (message : StreamMessageRequest) (new_reader new_writer : Nat) (hI : m.Inv)
    (hnr : m.readers new_reader = none) (hnw : m.writers new_writer = none) :
    (StreamMux.next devices m tag ok message new_reader new_writer).1.Inv := by
  cases tag with
  | writer a =>
    simp only [StreamMux.next]
    cases hw : m.writers a with
    | none => exact hI
    | some w => exact StreamMux.Inv.writer_proceed m a w ok hI hw
  | reader a =>
    simp only [StreamMux.next]
    apply StreamMux.Inv.proceed
    · exact StreamMux.Inv.received m a ok message hI
    · exact StreamMux.received_readers_none m a ok message new_reader hnr
    · rw [StreamMux.received_writers]
      exact hnw

theorem StreamMux.Inv.step (m : StreamMux) (event : StreamMux.Event) (hI : m.Inv) :
    (m.step event).Inv := by
  cases event with
  | next devices tag ok message new_reader new_writer =>
    simp only [StreamMux.step]
    split
    · rename_i h
      exact StreamMux.Inv.next _ m tag ok message new_reader new_writer hI
        (Option.isNone_iff_eq_none.mp h.1) (Option.isNone_iff_eq_none.mp h.2)
    · exact hI
  | packet_in device_id packet =>
    exact StreamMux.Inv.notify_clients m device_id packet hI

theorem StreamMux.Inv.run (events : List StreamMux.Event) (m : StreamMux) (hI : m.Inv) :
    (m.run events).Inv := by
  induction events generalizing m with
  | nil => exact hI
  | cons e es ih => exact ih (m.step e) (StreamMux.Inv.step m e hI)

theorem StreamMux.Inv.init (addr : Nat) : (StreamMux.init addr).1.Inv := by
  have key : ∀ r rd, (StreamMux.init addr).1.readers r = some rd →
      rd = (StreamChannelReader.new addr).1 := by
    intro r rd h
    simp only [StreamMux.init] at h
    by_cases e : r = addr
    · subst e
      rw [Function.update_same] at h
      exact (Option.some.inj h).symm
    · rw [Function.update_noteq e] at h
      exact absurd h (by simp)
  have hnew : (StreamChannelReader.new addr).1.writer = none := rfl
  refine ⟨List.nodup_nil, ?_, ?_, ?_, ?_, ?_⟩
  · intro w h
    simp [StreamMux.init] at h
  · intro r rd w h hw
    rw [key r rd h, hnew] at hw
    exact absurd hw (by simp)
  · intro r rd w h hw
    rw [key r rd h, hnew] at hw
    exact absurd hw (by simp)
  · intro r1 r2 rd1 rd2 w h1 _ hw
    rw [key r1 rd1 h1, hnew] at hw
    exact absurd hw (by simp)
  · intro r rd h _
    rw [key r rd h]
    exact hnew

/-- Every multiplexer reached from the constructor satisfies the invariant. -/
theorem StreamMux.reachable_inv (addr : Nat) (events : List StreamMux.Event) :
    ((StreamMux.init addr).1.run events).Inv :=
  StreamMux.Inv.run events _ (StreamMux.Inv.init addr)

/-! ## Writers -/

theorem WriterSys.step_inv (s : WriterSys) (e : WriterEvent)
    (h : s.outstanding ≤ 1 ∧ (s.outstanding = 1 → s.writer.state = .MUST_WAIT)) :
    (s.step e).outstanding ≤ 1 ∧
      ((s.step e).outstanding = 1 → (s.step e).writer.state = .MUST_WAIT) := by
  obtain ⟨h1, h2⟩ := h
  cases e with
  | send device_id packet =>
    simp only [WriterSys.step, StreamChannelWriter.send]
    by_cases hc : s.writer.state = .CAN_WRITE
    · have h0 : s.outstanding = 0 := by
        rcases Nat.eq_zero_or_pos s.outstanding with h0 | h0
        · exact h0
        · have e1 : s.outstanding = 1 := by omega
          have := h2 e1
          rw [hc] at this
          exact absurd this (by decide)
      simp [hc, h0]
    · simp [hc]
      exact ⟨h1, h2⟩
  | completion ok =>
    simp only [WriterSys.step]
    split
    · exact ⟨h1, h2⟩
    · simp only
      constructor
      · omega
      · intro h3
        omega
  | drive =>
    simp only [WriterSys.step]
    split
    · rename_i hc
      simp only
      refine ⟨h1, ?_⟩
      intro h3
      have := h2 h3
      rw [hc] at this
      exact absurd this (by decide)
    · exact ⟨h1, h2⟩

theorem WriterSys.run_inv (events : List WriterEvent) (s : WriterSys)
    (h : s.outstanding ≤ 1 ∧ (s.outstanding = 1 → s.writer.state = .MUST_WAIT)) :
    (s.run events).outstanding ≤ 1 ∧
      ((s.run events).outstanding = 1 → (s.run events).writer.state = .MUST_WAIT) := by
  induction events generalizing s with
  | nil => exact h
  | cons e es ih => exact ih (s.step e) (WriterSys.step_inv s e h)

/-- C13: whatever `send` calls and `Write` completions a writer goes through after its
construction, at most one of the `Write` operations it posted is not completed yet; `send` in
state `CAN_WRITE` posts one `Write` and moves to `MUST_WAIT`, and `send` in any other state
posts nothing and leaves the writer as it is. -/
theorem WriterSys.at_most_one_write (events : List WriterEvent) (w : StreamChannelWriter)
    (self device_id : Nat) (packet : PacketIn) :
    (WriterSys.init.run events).outstanding ≤ 1 ∧
    (w.state = .CAN_WRITE →
      w.send self device_id packet = ({ state := .MUST_WAIT }, [.stream_Write self packet])) ∧
    (w.state ≠ .CAN_WRITE → w.send self device_id packet = (w, [])) := by
  refine ⟨(WriterSys.run_inv events WriterSys.init ⟨by decide, by decide⟩).1, ?_, ?_⟩
  · intro h
    simp [StreamChannelWriter.send, h]
  · intro h
    simp [StreamChannelWriter.send, h]

/-- Scenario S5: the writer is driven, sends a packet, drops a second one while the `Write` is
in flight, and sends again after the completion. -/
theorem WriterSys.at_most_one_write_witness :
    (WriterSys.init.run [.drive, .send 0 ⟨[1]⟩, .send 0 ⟨[2]⟩]
      = { writer := { state := .MUST_WAIT }, outstanding := 1 } ∧
      WriterSys.init.run [.drive, .send 0 ⟨[1]⟩, .send 0 ⟨[2]⟩, .completion true]
      = { writer := { state := .CAN_WRITE }, outstanding := 0 }) ∧
    ((WriterSys.init.run [.drive, .send 0 ⟨[1]⟩, .send 0 ⟨[2]⟩, .completion true,
        .send 0 ⟨[3]⟩]).outstanding ≤ 1 ∧
      (({ state := .CAN_WRITE } : StreamChannelWriter).state = .CAN_WRITE →
        ({ state := .CAN_WRITE } : StreamChannelWriter).send 200 0 ⟨[3]⟩
          = ({ state := .MUST_WAIT }, [.stream_Write 200 ⟨[3]⟩])) ∧
      (({ state := .CAN_WRITE } : StreamChannelWriter).state ≠ .CAN_WRITE →
        ({ state := .CAN_WRITE } : StreamChannelWriter).send 200 0 ⟨[3]⟩
          = ({ state := .CAN_WRITE }, []))) :=
  ⟨by decide,
   WriterSys.at_most_one_write
     [.drive, .send 0 ⟨[1]⟩, .send 0 ⟨[2]⟩, .completion true, .send 0 ⟨[3]⟩]
     { state := .CAN_WRITE } 200 0 ⟨[3]⟩⟩

/-- C14, as stated, fails: a writer in `MUST_WAIT` whose `Write` completes with `ok = false`
stays in `MUST_WAIT`. -/
theorem StreamChannelWriter.proceed_not_ok_stays :
    (({ state := .MUST_WAIT } : StreamChannelWriter).proceed false).state = .MUST_WAIT ∧
    (({ state := .MUST_WAIT } : StreamChannelWriter).proceed false).state ≠ .CAN_WRITE := by
  decide

/-- C14, amended: for a writer in `MUST_WAIT`, a `Write` completion with `ok = true` moves it to
`CAN_WRITE`, and one with `ok = false` leaves it as it is. -/
theorem StreamChannelWriter.proceed_must_wait (w : StreamChannelWriter)
    (h : w.state = .MUST_WAIT) :
    (w.proceed true).state = .CAN_WRITE ∧ w.proceed false = w := by
  simp [StreamChannelWriter.proceed, h]

/-- A writer in `MUST_WAIT` under both completions. -/
theorem StreamChannelWriter.proceed_must_wait_witness :
    ({ state := .MUST_WAIT } : StreamChannelWriter).state = .MUST_WAIT ∧
    (({ state := .MUST_WAIT } : StreamChannelWriter).proceed true).state = .CAN_WRITE ∧
    ({ state := .MUST_WAIT } : StreamChannelWriter).proceed false = { state := .MUST_WAIT } :=
  ⟨rfl, StreamChannelWriter.proceed_must_wait { state := .MUST_WAIT } rfl⟩

/-! ## Readers -/

theorem StreamMux.received_of_not_read (m : StreamMux) (self : Nat) (ok : Bool)
    (message : StreamMessageRequest) (rd : StreamChannelReader)
    (hr : m.readers self = some rd) (h : ¬ (rd.state = .READ ∧ ok = true)) :
    m.received self ok message = m := by
  simp only [StreamMux.received, hr, if_neg h]

/-- C15: in a multiplexer the server can reach, for a reader in `PROCESS` or `READ` that owns
the writer `w`, a completion with `ok = false` leaves the reader in `FINISH`, erases `w` from
the roster and then posts one `Finish(OK)`, and nothing else; after that, whatever else
happened, the next completion delivered to the reader, with either flag, destroys the reader
and `w` and does nothing else. -/
theorem StreamMux.reader_finish (addr : Nat) (events : List StreamMux.Event)
    (devices : Devices) (r w : Nat) (rd : StreamChannelReader) (message : StreamMessageRequest)
    (new_reader new_writer : Nat)
    (hr : ((StreamMux.init addr).1.run events).readers r = some rd)
    (hs : rd.state = .PROCESS ∨ rd.state = .READ) (hw : rd.writer = some w) :
    (StreamMux.next devices ((StreamMux.init addr).1.run events) (.reader r) false message
        new_reader new_writer).2
      = [.remove_client w, .stream_Finish r GrpcStatus.OK] ∧
    (StreamMux.next devices ((StreamMux.init addr).1.run events) (.reader r) false message
        new_reader new_writer).1.readers r = some { rd with state := .FINISH } ∧
    (StreamMux.next devices ((StreamMux.init addr).1.run events) (.reader r) false message
        new_reader new_writer).1.clients = ((StreamMux.init addr).1.run events).clients.erase w ∧
    w ∉ (StreamMux.next devices ((StreamMux.init addr).1.run events) (.reader r) false message
        new_reader new_writer).1.clients ∧
    (∀ (m2 : StreamMux) (devices2 : Devices) (ok2 : Bool) (message2 : StreamMessageRequest)
        (new_reader2 new_writer2 : Nat),
      m2.readers r = some { rd with state := .FINISH } →
      (StreamMux.next devices2 m2 (.reader r) ok2 message2 new_reader2 new_writer2).2
        = [.delete_this r] ∧
      (StreamMux.next devices2 m2 (.reader r) ok2 message2 new_reader2 new_writer2).1.clients
        = m2.clients ∧
      (StreamMux.next devices2 m2 (.reader r) ok2 message2 new_reader2 new_writer2).1.readers
        = Function.update m2.readers r none ∧
      (StreamMux.next devices2 m2 (.reader r) ok2 message2 new_reader2 new_writer2).1.writers
        = Function.update m2.writers w none) := by
  have hI := StreamMux.reachable_inv addr events
  generalize (StreamMux.init addr).1.run events = m at hr hI ⊢
  have hnf : ¬ rd.state = .FINISH := by
    rcases hs with h | h <;> simp [h]
  have hrec : m.received r false message = m :=
    StreamMux.received_of_not_read m r false message rd hr (by simp)
  have hstep : StreamMux.next devices m (.reader r) false message new_reader new_writer
      = ({ m.remove_client w with
            readers := Function.update m.readers r (some { rd with state := .FINISH }) },
          [.remove_client w, .stream_Finish r GrpcStatus.OK]) := by
    simp only [StreamMux.next, hrec, StreamChannelReader.proceed, hr, if_neg hnf, Bool.not_false,
      if_true, hw]
  rw [hstep]
  refine ⟨rfl, ?_, rfl, ?_, ?_⟩
  · simp only [Function.update_same]
  · exact hI.1.not_mem_erase
  · intro m2 devices2 ok2 message2 new_reader2 new_writer2 h2
    have hrec2 : m2.received r ok2 message2 = m2 :=
      StreamMux.received_of_not_read m2 r ok2 message2 _ h2 (by simp)
    simp only [StreamMux.next, hrec2, StreamChannelReader.proceed, h2, if_true, hw,
      StreamMux.destroy_writer, and_self]

/-- Scenario S5, the end: the reader at address 100 of the sample multiplexer is in `READ` with
the registered writer 200; the client disconnects. -/
theorem StreamMux.reader_finish_witness :
    (((StreamMux.init 100).1.run sampleMuxEvents).readers 100 = some sampleReader ∧
      ((StreamMux.init 100).1.run sampleMuxEvents).clients = [200] ∧
      (sampleReader.state = .PROCESS ∨ sampleReader.state = .READ) ∧
      sampleReader.writer = some 200) ∧
    (StreamMux.next ⟨[]⟩ ((StreamMux.init 100).1.run sampleMuxEvents) (.reader 100) false
        .not_set 102 201).2
      = [.remove_client 200, .stream_Finish 100 GrpcStatus.OK] ∧
    (StreamMux.next ⟨[]⟩ ((StreamMux.init 100).1.run sampleMuxEvents) (.reader 100) false
        .not_set 102 201).1.clients = [] ∧
    (StreamMux.next ⟨[]⟩
        (StreamMux.next ⟨[]⟩ ((StreamMux.init 100).1.run sampleMuxEvents) (.reader 100) false
          .not_set 102 201).1 (.reader 100) true .not_set 102 201).2
      = [.delete_this 100] :=
  have h := StreamMux.reader_finish 100 sampleMuxEvents ⟨[]⟩ 100 200 sampleReader .not_set 102
    201 (by decide) (Or.inr rfl) rfl
  ⟨by decide, h.1, by decide,
    (h.2.2.2.2 _ ⟨[]⟩ true .not_set 102 201 h.2.1).1⟩

/-! ## The client roster -/

theorem StreamChannelWriter.send_effects (w : StreamChannelWriter) (self device_id : Nat)
    (packet : PacketIn) (c d : Nat) (p : PacketIn) :
    Effect.send c d p ∉ (w.send self device_id packet).2 := by
  simp only [StreamChannelWriter.send]
  split <;> simp

theorem StreamMux.send_all_count (device_id : Nat) (packet : PacketIn) (cs : List Nat)
    (writers : Nat → Option StreamChannelWriter) (c : Nat) :
    (StreamMux.send_all device_id packet cs writers).2.count (.send c device_id packet)
      = cs.count c := by
  induction cs generalizing writers with
  | nil => rfl
  | cons c0 cs ih =>
    simp only [StreamMux.send_all]
    cases writers c0 with
    | none =>
      simp only [List.count_cons, ih]
      by_cases e : c0 = c
      · subst e; simp
      · have e' : ¬ (Effect.send c0 device_id packet = Effect.send c device_id packet) := by
          intro h; injection h with h1; exact e h1
        simp [e, e']
    | some w =>
      simp only [List.count_cons, List.count_append, ih]
      have hz : (w.send c0 device_id packet).2.count (.send c device_id packet) = 0 :=
        List.count_eq_zero.mpr (StreamChannelWriter.send_effects w c0 device_id packet _ _ _)
      rw [hz]
      by_cases e : c0 = c
      · subst e; simp
      · have e' : ¬ (Effect.send c0 device_id packet = Effect.send c device_id packet) := by
          intro h; injection h with h1; exact e h1
        simp [e, e']

theorem StreamMux.send_all_mem (device_id : Nat) (packet : PacketIn) (cs : List Nat)
    (writers : Nat → Option StreamChannelWriter) (c d : Nat) (p : PacketIn)
    (h : Effect.send c d p ∈ (StreamMux.send_all device_id packet cs writers).2) : c ∈ cs := by
  induction cs generalizing writers with
  | nil => simp [StreamMux.send_all] at h
  | cons c0 cs ih =>
    simp only [StreamMux.send_all] at h
    cases hw : writers c0 with
    | none =>
      rw [hw] at h
      simp only [List.mem_cons] at h
      rcases h with h | h
      · injection h with h1
        rw [h1]; exact List.mem_cons_self _ _
      · exact List.mem_cons_of_mem _ (ih _ h)
    | some w =>
      rw [hw] at h
      simp only [List.mem_cons, List.mem_append] at h
      rcases h with h | h | h
      · injection h with h1
        rw [h1]; exact List.mem_cons_self _ _
      · exact absurd h (StreamChannelWriter.send_effects w c0 device_id packet _ _ _)
      · exact List.mem_cons_of_mem _ (ih _ h)

/-- C16: `notify_clients` calls `send` once for each element of the roster as it is at the
call. In a multiplexer the server can reach, after `remove_client(w)` the roster does not
contain `w` and still contains every other writer it contained; as long as `w`
is not in the roster no `notify_clients` calls `send` on it, and every writer left in the
roster gets exactly one `send` per `notify_clients`. -/
theorem StreamMux.removed_client_gets_no_send (addr : Nat) (events : List StreamMux.Event)
    (w : Nat) (device_id : Nat) (packet : PacketIn) :
    (∀ (m : StreamMux) (c : Nat),
      (m.notify_clients device_id packet).2.count (.send c device_id packet)
        = m.clients.count c) ∧
    w ∉ (((StreamMux.init addr).1.run events).remove_client w).clients ∧
    (∀ w' ∈ ((StreamMux.init addr).1.run events).clients, w' ≠ w →
      w' ∈ (((StreamMux.init addr).1.run events).remove_client w).clients) ∧
    (∀ (m : StreamMux) (d : Nat) (p : PacketIn), w ∉ m.clients →
      Effect.send w d p ∉ (m.notify_clients device_id packet).2) ∧
    (∀ w' ∈ (((StreamMux.init addr).1.run events).remove_client w).clients,
      ((((StreamMux.init addr).1.run events).remove_client w).notify_clients device_id
        packet).2.count (.send w' device_id packet) = 1) := by
  have hI := StreamMux.reachable_inv addr events
  generalize (StreamMux.init addr).1.run events = m0 at hI ⊢
  have hcount : ∀ (m : StreamMux) (c : Nat),
      (m.notify_clients device_id packet).2.count (.send c device_id packet)
        = m.clients.count c :=
    fun m c => StreamMux.send_all_count device_id packet m.clients m.writers c
  refine ⟨hcount, hI.1.not_mem_erase, ?_, ?_, ?_⟩
  · intro w' hmem hne
    exact (List.mem_erase_of_ne hne).mpr hmem
  · intro m d p hnot hmem
    exact hnot (StreamMux.send_all_mem device_id packet m.clients m.writers w d p hmem)
  · intro w' hmem
    rw [hcount]
    exact List.count_eq_one_of_mem (hI.1.erase w) hmem

/-- The writer 200 of the sample multiplexer: one `send` per packet-in while it is registered,
none once it is removed. -/
theorem StreamMux.removed_client_gets_no_send_witness :
    (200 ∈ ((StreamMux.init 100).1.run sampleMuxEvents).clients ∧
      (((StreamMux.init 100).1.run sampleMuxEvents).notify_clients 7 ⟨[1, 2]⟩).2
        = [.send 200 7 ⟨[1, 2]⟩, .stream_Write 200 ⟨[1, 2]⟩] ∧
      ((((StreamMux.init 100).1.run sampleMuxEvents).remove_client 200).notify_clients 7
        ⟨[1, 2]⟩).2 = []) ∧
    200 ∉ (((StreamMux.init 100).1.run sampleMuxEvents).remove_client 200).clients :=
  ⟨by decide,
   (StreamMux.removed_client_gets_no_send 100 sampleMuxEvents 200 7 ⟨[1, 2]⟩).2.1⟩

/-- C17: in every multiplexer the server can reach, each writer in the roster is alive and in
state `CAN_WRITE` or `MUST_WAIT`. A reader in `PROCESS` that gets a completion with `ok = true`
creates the next reader, constructs its writer, drives it (to `CAN_WRITE`), registers it and
posts one `Read`, in this order, and is then in `READ`. -/
theorem StreamMux.registered_writers_can_write (addr : Nat) (events : List StreamMux.Event)
    (devices : Devices) (m : StreamMux) (self : Nat) (rd : StreamChannelReader)
    (message : StreamMessageRequest) (new_reader new_writer : Nat) :
    (∀ w ∈ ((StreamMux.init addr).1.run events).clients,
      ∃ wr, ((StreamMux.init addr).1.run events).writers w = some wr ∧
        (wr.state = .CAN_WRITE ∨ wr.state = .MUST_WAIT)) ∧
    (m.readers self = some rd → rd.state = .PROCESS →
      (StreamMux.next devices m (.reader self) true message new_reader new_writer).2
        = [.new_StreamChannelReader new_reader, .RequestStreamChannel new_reader,
           .new_StreamChannelWriter new_writer, .writer_proceed new_writer,
           .register_client new_writer, .stream_Read self] ∧
      (StreamMux.next devices m (.reader self) true message new_reader new_writer).1.clients
        = m.clients ++ [new_writer] ∧
      (StreamMux.next devices m (.reader self) true message new_reader new_writer).1.writers
        new_writer = some { state := .CAN_WRITE } ∧
      (StreamMux.next devices m (.reader self) true message new_reader new_writer).1.readers
        self = some { rd with writer := some new_writer, state := .READ }) := by
  constructor
  · intro w hmem
    obtain ⟨wr, e, hne⟩ := (StreamMux.reachable_inv addr events).2.1 w hmem
    refine ⟨wr, e, ?_⟩
    cases hs : wr.state with
    | CREATE => exact absurd hs hne
    | CAN_WRITE => exact Or.inl rfl
    | MUST_WAIT => exact Or.inr rfl
  · intro hr hs
    have hnf : ¬ rd.state = .FINISH := by simp [hs]
    have hrec : m.received self true message = m :=
      StreamMux.received_of_not_read m self true message rd hr (by simp [hs])
    simp only [StreamMux.next, hrec, StreamChannelReader.proceed, hr, if_neg hnf, hs,
      Bool.not_true, Bool.false_eq_true, if_false, StreamMux.register_client,
      Function.update_same, StreamChannelReader.new, StreamChannelReader.request_stream,
      List.cons_append, List.nil_append, List.singleton_append, true_and]
    simp [StreamChannelWriter.proceed]

/-- The first stream of the sample multiplexer is accepted: the writer 200 is registered in
state `CAN_WRITE`. -/
theorem StreamMux.registered_writers_can_write_witness :
    ((StreamMux.init 100).1.readers 100
        = some { device_id := 0, request := .not_set, writer := none, state := .PROCESS } ∧
      ((StreamMux.init 100).1.run sampleMuxEvents).clients = [200] ∧
      ((StreamMux.init 100).1.run sampleMuxEvents).writers 200 = some { state := .CAN_WRITE }) ∧
    (StreamMux.next ⟨[]⟩ (StreamMux.init 100).1 (.reader 100) true .not_set 101 200).2
      = [.new_StreamChannelReader 101, .RequestStreamChannel 101,
         .new_StreamChannelWriter 200, .writer_proceed 200,
         .register_client 200, .stream_Read 100] :=
  ⟨by decide,
   ((StreamMux.registered_writers_can_write 100 sampleMuxEvents ⟨[]⟩ (StreamMux.init 100).1 100
      { device_id := 0, request := .not_set, writer := none, state := .PROCESS } .not_set 101
      200).2 (by decide) rfl).1⟩

/-- C18: for a reader in `READ`, a `Read` completion with `ok = true` that delivered an
arbitration message stores its device id in the reader and calls no device; one that
delivered a packet calls `packet_out_send` once on the registry entry of the stored device id
when there is one, and calls no device otherwise; in both cases exactly one `Read` is posted
afterwards, the reader stays in `READ`, and the roster and the writers are untouched. -/
theorem StreamMux.read_completion (devices : Devices) (m : StreamMux) (r : Nat)
    (rd : StreamChannelReader) (device_id : Nat) (packet : PacketOut)
    (new_reader new_writer : Nat)
    (hr : m.readers r = some rd) (hs : rd.state = .READ) :
    ((StreamMux.next devices m (.reader r) true (.arbitration device_id) new_reader
          new_writer).2 = [.stream_Read r] ∧
      (StreamMux.next devices m (.reader r) true (.arbitration device_id) new_reader
          new_writer).1.readers r
        = some { device_id := device_id, request := .arbitration device_id,
                 writer := rd.writer, state := .READ } ∧
      (StreamMux.next devices m (.reader r) true (.arbitration device_id) new_reader
          new_writer).1.clients = m.clients ∧
      (StreamMux.next devices m (.reader r) true (.arbitration device_id) new_reader
          new_writer).1.writers = m.writers) ∧
    ((∀ device_mgr, devices.get rd.device_id = some device_mgr →
        (StreamMux.next devices m (.reader r) true (.packet packet) new_reader new_writer).2
          = [.packet_out_send device_mgr packet, .stream_Read r]) ∧
      (devices.get rd.device_id = none →
        (StreamMux.next devices m (.reader r) true (.packet packet) new_reader new_writer).2
          = [.stream_Read r]) ∧
      (StreamMux.next devices m (.reader r) true (.packet packet) new_reader
          new_writer).1.readers r
        = some { device_id := rd.device_id, request := .packet packet,
                 writer := rd.writer, state := .READ } ∧
      (StreamMux.next devices m (.reader r) true (.packet packet) new_reader
          new_writer).1.clients = m.clients ∧
      (StreamMux.next devices m (.reader r) true (.packet packet) new_reader
          new_writer).1.writers = m.writers) := by
  have hrec : ∀ message, m.received r true message
      = { m with readers := Function.update m.readers r (some { rd with request := message }) } := by
    intro message
    simp only [StreamMux.received, hr, hs, and_self, if_true]
  constructor
  · simp [StreamMux.next, hrec, StreamChannelReader.proceed, hs]
  · refine ⟨?_, ?_, ?_⟩
    · intro device_mgr hd
      simp [StreamMux.next, hrec, StreamChannelReader.proceed, hs, hd]
    · intro hd
      simp [StreamMux.next, hrec, StreamChannelReader.proceed, hs, hd]
    · cases hd : devices.get rd.device_id <;>
        simp [StreamMux.next, hrec, StreamChannelReader.proceed, hs, hd]

/-- The reader 100 of the sample multiplexer receives an arbitration for device 7 and then a
packet: the packet goes to the `DeviceMgr` of device 7; a packet received before the
arbitration (stored device id 0, not in the registry) reaches no device. -/
theorem StreamMux.read_completion_witness :
    (((StreamMux.init 100).1.run sampleMuxEvents).readers 100 = some sampleReader ∧
      sampleReader.state = .READ ∧ sampleDevices.get sampleReader.device_id = none ∧
      (StreamMux.next sampleDevices
        (StreamMux.next sampleDevices ((StreamMux.init 100).1.run sampleMuxEvents) (.reader 100)
          true (.arbitration 7) 102 201).1
        (.reader 100) true (.packet ⟨[9]⟩) 102 201).2
        = [.packet_out_send ⟨7, 1000⟩ ⟨[9]⟩, .stream_Read 100]) ∧
    (StreamMux.next sampleDevices ((StreamMux.init 100).1.run sampleMuxEvents) (.reader 100)
        true (.arbitration 7) 102 201).2 = [.stream_Read 100] ∧
    (StreamMux.next sampleDevices ((StreamMux.init 100).1.run sampleMuxEvents) (.reader 100)
        true (.packet ⟨[9]⟩) 102 201).2 = [.stream_Read 100] :=
  have h := StreamMux.read_completion sampleDevices ((StreamMux.init 100).1.run sampleMuxEvents)
    100 sampleReader 7 ⟨[9]⟩ 102 201 (by decide) rfl
  ⟨by decide, h.1.1, h.2.2.1 (by decide)⟩

/-! ## The device registry -/

theorem Devices.get_get_or_add_ne (devices : Devices) (d d' addr : Nat) (h : d' ≠ d) :
    (devices.get_or_add d addr).2.get d' = devices.get d' := by
  simp only [Devices.get_or_add]
  cases devices.device_map.lookup d with
  | some it => rfl
  | none =>
    simp only [Devices.get, List.lookup]
    have : (d' == d) = false := by simpa using h
    rw [this]

theorem Devices.get_get_or_add_same (devices : Devices) (d addr : Nat) :
    (devices.get_or_add d addr).2.get d = some (devices.get_or_add d addr).1 := by
  simp only [Devices.get_or_add]
  cases h : devices.device_map.lookup d with
  | some it => exact h
  | none => simp [Devices.get, List.lookup]

theorem Devices.get_after (ids : List (Nat × Nat)) (k : Nat) :
    (Devices.after ids).get k = none ↔ k ∉ ids.map Prod.fst := by
  induction ids with
  | nil => simp [Devices.after, Devices.get, List.lookup]
  | cons x rest ih =>
    obtain ⟨d, addr⟩ := x
    simp only [Devices.after, List.map_cons, List.mem_cons, not_or]
    by_cases e : k = d
    · subst e
      rw [Devices.get_get_or_add_same]
      simp
    · rw [Devices.get_get_or_add_ne _ _ _ _ e, ih]
      simp [e]

/-- C19: `get_or_add(d)` returns the handle the registry has for `d` and leaves the registry
alone when there is one, and otherwise inserts and returns a new `DeviceMgr` constructed with
the id `d`. Afterwards `get(d)` returns the returned handle, a second `get_or_add(d)` returns
it again and changes nothing, `get(d')` for `d' ≠ d` is as before, and every entry the
registry had is still there with the same handle. Starting from the empty registry, `get`
returns no handle exactly for the ids never passed to `get_or_add`. -/
theorem Devices.registry_only_grows (devices : Devices) (d d' addr addr2 : Nat)
    (ids : List (Nat × Nat)) :
    (∀ h, devices.get d = some h → devices.get_or_add d addr = (h, devices)) ∧
    (devices.get d = none →
      (devices.get_or_add d addr).1 = ⟨d, addr⟩ ∧
      (devices.get_or_add d addr).2.device_map = (d, ⟨d, addr⟩) :: devices.device_map) ∧
    (devices.get_or_add d addr).2.get d = some (devices.get_or_add d addr).1 ∧
    (devices.get_or_add d addr).2.get_or_add d addr2
      = ((devices.get_or_add d addr).1, (devices.get_or_add d addr).2) ∧
    (d' ≠ d → (devices.get_or_add d addr).2.get d' = devices.get d') ∧
    (∀ k h, devices.get k = some h → (devices.get_or_add d addr).2.get k = some h) ∧
    ((Devices.after ids).get d = none ↔ d ∉ ids.map Prod.fst) := by
  have hsame := Devices.get_get_or_add_same devices d addr
  refine ⟨?_, ?_, hsame, ?_, Devices.get_get_or_add_ne devices d d' addr, ?_,
    Devices.get_after ids d⟩
  · intro h hget
    simp only [Devices.get] at hget
    simp only [Devices.get_or_add, hget]
  · intro hget
    simp only [Devices.get] at hget
    simp only [Devices.get_or_add, hget, and_self]
  · simp only [Devices.get] at hsame
    generalize devices.get_or_add d addr = r at hsame
    simp only [Devices.get_or_add, hsame]
  · intro k h hk
    by_cases e : k = d
    · subst e
      simp only [Devices.get] at hk
      simp only [Devices.get_or_add, hk, Devices.get]
    · rw [Devices.get_get_or_add_ne devices d k addr e]
      exact hk

/-- Scenario S6, the registry: device 7 is added to the empty registry, looked up, asked for
again and kept when device 8 is added. -/
theorem Devices.registry_only_grows_witness :
    ((Devices.after []).get 7 = none ∧
      ((Devices.after []).get_or_add 7 1000).1 = ⟨7, 1000⟩ ∧
      sampleDevices.get 7 = some ⟨7, 1000⟩ ∧ sampleDevices.get 8 = none ∧
      (sampleDevices.get_or_add 7 2000).1 = ⟨7, 1000⟩ ∧
      (sampleDevices.get_or_add 8 2000).2.get 7 = some ⟨7, 1000⟩) ∧
    ((Devices.after []).get_or_add 7 1000).2.get 7
      = some ((Devices.after []).get_or_add 7 1000).1 :=
  ⟨by decide, (Devices.registry_only_grows (Devices.after []) 7 8 1000 2000 []).2.2.1⟩

/-! ## The unary handlers -/

/-- C20: `Write`, `Read` and `GetForwardingPipelineConfig` (for the first device id of the
request) return `FAILED_PRECONDITION` and call no device when the registry has no entry for
the device id; when it has one they call the corresponding method of that `DeviceMgr` once
and return `to_grpc_status` of the status it returned. -/
theorem P4RuntimeServiceImpl.unknown_device_refused (api : DeviceApi)
    (SerializeAsString : RpcStatus → String) (devices : Devices) (wreq : WriteRequest)
    (rreq : ReadRequest) (device_id : Nat) (rest : List Nat) :
    no_pipeline_config_status.error_code = StatusCode.FAILED_PRECONDITION ∧
    ((devices.get wreq.device_id = none →
        P4RuntimeServiceImpl.Write api SerializeAsString devices wreq
          = (no_pipeline_config_status, [])) ∧
      (∀ device_mgr, devices.get wreq.device_id = some device_mgr →
        P4RuntimeServiceImpl.Write api SerializeAsString devices wreq
          = (to_grpc_status SerializeAsString (api.write device_mgr wreq),
              [.write device_mgr wreq]))) ∧
    ((devices.get rreq.device_id = none →
        P4RuntimeServiceImpl.Read api SerializeAsString devices rreq
          = (no_pipeline_config_status, [])) ∧
      (∀ device_mgr, devices.get rreq.device_id = some device_mgr →
        (P4RuntimeServiceImpl.Read api SerializeAsString devices rreq).1
          = to_grpc_status SerializeAsString (api.read device_mgr rreq).1 ∧
        (P4RuntimeServiceImpl.Read api SerializeAsString devices rreq).2
          = [.read device_mgr rreq, .ServerWriter_Write (api.read device_mgr rreq).2] ∧
        (P4RuntimeServiceImpl.Read api SerializeAsString devices rreq).2.filter
          Effect.isDeviceCall = [.read device_mgr rreq])) ∧
    ((devices.get device_id = none →
        P4RuntimeServiceImpl.GetForwardingPipelineConfig api SerializeAsString devices
          ⟨device_id :: rest⟩ = (no_pipeline_config_status, [], [])) ∧
      (∀ device_mgr, devices.get device_id = some device_mgr →
        P4RuntimeServiceImpl.GetForwardingPipelineConfig api SerializeAsString devices
          ⟨device_id :: rest⟩
          = (to_grpc_status SerializeAsString (api.pipeline_config_get device_mgr).1,
              [(api.pipeline_config_get device_mgr).2],
              [.pipeline_config_get device_mgr]))) := by
  refine ⟨rfl, ⟨?_, ?_⟩, ⟨?_, ?_⟩, ⟨?_, ?_⟩⟩
  · intro h
    simp only [P4RuntimeServiceImpl.Write, h]
  · intro device_mgr h
    simp only [P4RuntimeServiceImpl.Write, h]
  · intro h
    simp only [P4RuntimeServiceImpl.Read, h]
  · intro device_mgr h
    simp [P4RuntimeServiceImpl.Read, h, Effect.isDeviceCall]
  · intro h
    simp only [P4RuntimeServiceImpl.GetForwardingPipelineConfig, h]
  · intro device_mgr h
    simp only [P4RuntimeServiceImpl.GetForwardingPipelineConfig, h]

/-- Scenario S6: after `SetForwardingPipelineConfig` for device 7 only, a `Write` for device 7
reaches its `DeviceMgr` and a `Write` for device 8 is refused with `FAILED_PRECONDITION`. -/
theorem P4RuntimeServiceImpl.unknown_device_refused_witness :
    ((P4RuntimeServiceImpl.SetForwardingPipelineConfig sampleApi sampleSerialize
        (Devices.after []) ⟨1, [⟨7, []⟩]⟩ 1000).2.1.device_map = [(7, ⟨7, 1000⟩)] ∧
      (P4RuntimeServiceImpl.SetForwardingPipelineConfig sampleApi sampleSerialize
        (Devices.after []) ⟨1, [⟨7, []⟩]⟩ 1000).2.1.get 8 = none ∧
      P4RuntimeServiceImpl.Write sampleApi sampleSerialize
        (P4RuntimeServiceImpl.SetForwardingPipelineConfig sampleApi sampleSerialize
          (Devices.after []) ⟨1, [⟨7, []⟩]⟩ 1000).2.1 ⟨7, [1]⟩
        = (⟨0, "", ""⟩, [.write ⟨7, 1000⟩ ⟨7, [1]⟩])) ∧
    P4RuntimeServiceImpl.Write sampleApi sampleSerialize
        (P4RuntimeServiceImpl.SetForwardingPipelineConfig sampleApi sampleSerialize
          (Devices.after []) ⟨1, [⟨7, []⟩]⟩ 1000).2.1 ⟨8, [1]⟩
      = (⟨9, "No forwarding pipeline config set for this device", ""⟩, []) :=
  ⟨by decide,
   (P4RuntimeServiceImpl.unknown_device_refused sampleApi sampleSerialize
      (P4RuntimeServiceImpl.SetForwardingPipelineConfig sampleApi sampleSerialize
        (Devices.after []) ⟨1, [⟨7, []⟩]⟩ 1000).2.1 ⟨8, [1]⟩ ⟨8, []⟩ 8 []).2.1.1 (by decide)⟩

/-- C21, as stated, fails: with a device whose `pipeline_config_set` returns the status 13, the
handler returns that failure and has still called `packet_in_register_cb` on the device. -/
theorem P4RuntimeServiceImpl.callback_registered_after_failure :
    (P4RuntimeServiceImpl.SetForwardingPipelineConfig failingApi sampleSerialize
      (Devices.after []) ⟨1, [⟨7, []⟩]⟩ 1000).1.error_code = 13 ∧
    (P4RuntimeServiceImpl.SetForwardingPipelineConfig failingApi sampleSerialize
      (Devices.after []) ⟨1, [⟨7, []⟩]⟩ 1000).2.2
      = [.pipeline_config_set ⟨7, 1000⟩ 1 ⟨7, []⟩, .packet_in_register_cb ⟨7, 1000⟩] ∧
    Effect.packet_in_register_cb ⟨7, 1000⟩ ∈
      (P4RuntimeServiceImpl.SetForwardingPipelineConfig failingApi sampleSerialize
        (Devices.after []) ⟨1, [⟨7, []⟩]⟩ 1000).2.2 := by
  decide

/-- C21, amended: for a request with at least one config, the handler obtains the device of the
first config with `get_or_add`, calls `pipeline_config_set` on it and then, whatever status
that call returned, registers the packet-in callback on it; it makes no other call and returns
`to_grpc_status` of the status of `pipeline_config_set`. -/
theorem P4RuntimeServiceImpl.callback_registered_after_config_set (api : DeviceApi)
    (SerializeAsString : RpcStatus → String) (devices : Devices) (action : Nat)
    (config : ForwardingPipelineConfig) (rest : List ForwardingPipelineConfig) (addr : Nat) :
    P4RuntimeServiceImpl.SetForwardingPipelineConfig api SerializeAsString devices
        ⟨action, config :: rest⟩ addr
      = (to_grpc_status SerializeAsString
          (api.pipeline_config_set (devices.get_or_add config.device_id addr).1 action config),
         (devices.get_or_add config.device_id addr).2,
         [.pipeline_config_set (devices.get_or_add config.device_id addr).1 action config,
          .packet_in_register_cb (devices.get_or_add config.device_id addr).1]) := by
  rfl

/-- C22, as stated, fails: a device status with the code 16 becomes an RPC status with the
code 2 (`UNKNOWN`); so does one with the code -1. -/
theorem to_grpc_status_code_out_of_range :
    (to_grpc_status sampleSerialize ⟨16, "sixteen", []⟩).error_code = 2 ∧
    (to_grpc_status sampleSerialize ⟨16, "sixteen", []⟩).error_code ≠ 16 ∧
    (to_grpc_status sampleSerialize ⟨-1, "minus one", []⟩).error_code = 2 := by
  decide

/-- C22, amended: `to_grpc_status(s)` has the message of `s` and the serialization of `s` as
detail payload; its code is the code of `s` when that lies between `OK` (0) and `DATA_LOSS`
(15), and `UNKNOWN` (2) otherwise. -/
theorem to_grpc_status_fields (SerializeAsString : RpcStatus → String) (s : RpcStatus) :
    (to_grpc_status SerializeAsString s).error_code
      = (if 0 ≤ s.code ∧ s.code ≤ 15 then s.code else 2) ∧
    (to_grpc_status SerializeAsString s).error_message = s.message ∧
    (to_grpc_status SerializeAsString s).error_details = SerializeAsString s := by
  refine ⟨?_, rfl, rfl⟩
  simp only [to_grpc_status, SetErrorDetails, Option.getD_some, StatusCode.OK,
    StatusCode.DATA_LOSS, StatusCode.UNKNOWN, ge_iff_le]

/-! ## Extreme values -/

theorem two_pow_add_sub_one_div (a c : Nat) : (2 ^ (a + c) - 1) / 2 ^ a = 2 ^ c - 1 := by
  have ha : 0 < 2 ^ a := by positivity
  have hc : 0 < 2 ^ c := by positivity
  have h : 2 ^ (a + c) - 1 = (2 ^ a - 1) + (2 ^ c - 1) * 2 ^ a := by
    rw [pow_add, Nat.sub_mul, Nat.one_mul, Nat.mul_comm (2 ^ c) (2 ^ a)]
    have : 2 ^ a ≤ 2 ^ a * 2 ^ c := Nat.le_mul_of_pos_right _ hc
    omega
  rw [h, Nat.add_mul_div_right _ _ ha, Nat.div_eq_of_lt (by omega), Nat.zero_add]

theorem two_pow_sub_one_mod_256 (k : Nat) : (2 ^ (8 + k) - 1) % 256 = 255 := by
  have hk : 0 < 2 ^ k := by positivity
  rw [pow_add, show (2 : Nat) ^ 8 = 256 by norm_num]
  omega

theorem beBytes_all_ones (n k : Nat) :
    beBytes n (2 ^ (8 * n + k) - 1) = List.replicate n 255 := by
  induction n generalizing k with
  | zero => rfl
  | succ n ih =>
    rw [beBytes_succ, List.replicate_succ, show 8 * (n + 1) + k = 8 * n + (8 + k) by ring,
      ih (8 + k), pow_256_eq, two_pow_add_sub_one_div, two_pow_sub_one_mod_256]

theorem beBytes_max (n k : Nat) (hk : k ≤ 8) :
    beBytes (n + 1) (2 ^ (8 * n + k) - 1) = (2 ^ k - 1) :: List.replicate n 255 := by
  rw [beBytes_succ, beBytes_all_ones, pow_256_eq, two_pow_add_sub_one_div]
  congr 1
  apply Nat.mod_eq_of_lt
  have : 2 ^ k ≤ 2 ^ 8 := Nat.pow_le_pow_right (by norm_num) hk
  have hpos : 0 < 2 ^ k := by positivity
  omega

/-- C23: for a field of width `W ≥ 1` whose byte0-mask `M` clears the bits above `W` in the
leading byte, and an unsigned type of at least `W` bits, `set_exact` of the largest `W`-bit
value `2 ^ W - 1` succeeds and stores `⌈W/8⌉` bytes: `M` followed by bytes `0xFF`. -/
theorem MatchKey.set_exact_max_value (info : P4Info) (L : Layout) (le : Bool) (st : MatchKey)
    (f_id : Nat) (T : UIntTy)
    (hW : 1 ≤ info.field_bitwidth f_id) (hT : info.field_bitwidth f_id ≤ 8 * T.sizeof)
    (hM : info.field_byte0_mask f_id = byte0Mask (info.field_bitwidth f_id)) :
    (MatchKey.set_exact info L le st f_id T (2 ^ info.field_bitwidth f_id - 1)).1 = 0 ∧
    readBytes (MatchKey.set_exact info L le st f_id T
        (2 ^ info.field_bitwidth f_id - 1)).2.match_key
        (info.table_match_field_index st.table_id f_id * 2 * L.cellSize)
        ((info.field_bitwidth f_id + 7) / 8)
      = info.field_byte0_mask f_id
          :: List.replicate ((info.field_bitwidth f_id + 7) / 8 - 1) 0xFF := by
  have hpos : 0 < 2 ^ info.field_bitwidth f_id := by positivity
  have hv : 2 ^ info.field_bitwidth f_id - 1 < 2 ^ (8 * T.sizeof) :=
    lt_of_lt_of_le (by omega) (Nat.pow_le_pow_right (by norm_num) hT)
  simp only [MatchKey.set_exact, MatchKey.format_eq info L le st f_id T _ _ hT hv]
  refine ⟨trivial, ?_⟩
  have h := readBytes_writeBytes st.match_key
    (info.table_match_field_index st.table_id f_id * 2 * L.cellSize)
    (andHead (info.field_byte0_mask f_id)
      (beBytes ((info.field_bitwidth f_id + 7) / 8) (2 ^ info.field_bitwidth f_id - 1)))
  rw [length_andHead, length_beBytes] at h
  rw [h, hM, andHead_byte0Mask, Nat.mod_eq_of_lt (by omega)]
  generalize info.field_bitwidth f_id = W at hW
  obtain ⟨n, hn⟩ : ∃ n, (W + 7) / 8 = n + 1 := ⟨(W + 7) / 8 - 1, by omega⟩
  have hk : W - 8 * n ≤ 8 := by omega
  have hWe : 8 * n + (W - 8 * n) = W := by omega
  have hmax := beBytes_max n (W - 8 * n) hk
  rw [hWe] at hmax
  simp only [byte0Mask, hn, Nat.add_sub_cancel]
  exact hmax

/-- The 12-bit field of the sample table: `0x0FFF` is stored as `[0x0F, 0xFF]`. -/
theorem MatchKey.set_exact_max_value_witness :
    (1 ≤ sampleInfo.field_bitwidth 0 ∧ sampleInfo.field_bitwidth 0 ≤ 8 * UIntTy.u16.sizeof ∧
      sampleInfo.field_byte0_mask 0 = byte0Mask (sampleInfo.field_bitwidth 0) ∧
      2 ^ sampleInfo.field_bitwidth 0 - 1 = 0x0FFF ∧
      readBytes (MatchKey.set_exact sampleInfo (Layout.lp64 4096) true sampleKey 0 .u16
        0x0FFF).2.match_key 0 2 = [0x0F, 0xFF]) ∧
    (MatchKey.set_exact sampleInfo (Layout.lp64 4096) true sampleKey 0 .u16
      (2 ^ sampleInfo.field_bitwidth 0 - 1)).1 = 0 ∧
    readBytes (MatchKey.set_exact sampleInfo (Layout.lp64 4096) true sampleKey 0 .u16
        (2 ^ sampleInfo.field_bitwidth 0 - 1)).2.match_key
        (sampleInfo.table_match_field_index sampleKey.table_id 0 * 2
          * (Layout.lp64 4096).cellSize)
        ((sampleInfo.field_bitwidth 0 + 7) / 8)
      = sampleInfo.field_byte0_mask 0
          :: List.replicate ((sampleInfo.field_bitwidth 0 + 7) / 8 - 1) 0xFF :=
  ⟨by decide,
   MatchKey.set_exact_max_value sampleInfo (Layout.lp64 4096) true sampleKey 0 .u16 (by decide)
     (by decide) (by decide)⟩

/-! ## The spill cursor -/

theorem MatchKey.call_cursor (info : P4Info) (L : Layout) (le : Bool) (st : MatchKey)
    (c : MatchKey.Call) :
    (MatchKey.call info L le st c).2.data_offset_current
      = st.data_offset_current + c.spillBytes info L := by
  cases c with
  | exact f T k =>
    by_cases c1 : info.field_bitwidth f > T.sizeof * 8 <;>
      simp [MatchKey.call, MatchKey.set_exact, MatchKey.format, MatchKey.Call.spillBytes, c1]
  | exactBytes f k s =>
    rcases Nat.lt_or_ge L.dstArr s with c2 | c2
    · have c3 : ¬ s ≤ L.dstArr := by omega
      by_cases c1 : (info.field_bitwidth f + 7) / 8 = s <;>
        simp [MatchKey.call, MatchKey.set_exactBytes, MatchKey.formatBytes,
          MatchKey.Call.spillBytes, c1, c2, c3]
    · have c3 : ¬ L.dstArr < s := by omega
      by_cases c1 : (info.field_bitwidth f + 7) / 8 = s <;>
        simp [MatchKey.call, MatchKey.set_exactBytes, MatchKey.formatBytes,
          MatchKey.Call.spillBytes, c1, c2, c3]
  | lpm f T k p =>
    by_cases c1 : info.field_bitwidth f > T.sizeof * 8 <;>
      simp [MatchKey.call, MatchKey.set_lpm, MatchKey.storeV, MatchKey.format,
        MatchKey.Call.spillBytes, c1]
  | lpmBytes f k s p =>
    rcases Nat.lt_or_ge L.dstArr s with c2 | c2
    · have c3 : ¬ s ≤ L.dstArr := by omega
      by_cases c1 : (info.field_bitwidth f + 7) / 8 = s <;>
        simp [MatchKey.call, MatchKey.set_lpmBytes, MatchKey.storeV, MatchKey.formatBytes,
          MatchKey.Call.spillBytes, c1, c2, c3]
    · have c3 : ¬ L.dstArr < s := by omega
      by_cases c1 : (info.field_bitwidth f + 7) / 8 = s <;>
        simp [MatchKey.call, MatchKey.set_lpmBytes, MatchKey.storeV, MatchKey.formatBytes,
          MatchKey.Call.spillBytes, c1, c2, c3]
  | ternary f T k m =>
    by_cases c1 : info.field_bitwidth f > T.sizeof * 8 <;>
      simp [MatchKey.call, MatchKey.set_ternary, MatchKey.format, MatchKey.Call.spillBytes, c1]
  | ternaryBytes f k m s =>
    rcases Nat.lt_or_ge L.dstArr s with c2 | c2
    · have c3 : ¬ s ≤ L.dstArr := by omega
      by_cases c1 : (info.field_bitwidth f + 7) / 8 = s <;>
        simp [MatchKey.call, MatchKey.set_ternaryBytes, MatchKey.formatBytes,
          MatchKey.Call.spillBytes, c1, c2, c3, Nat.add_assoc]
    · have c3 : ¬ L.dstArr < s := by omega
      by_cases c1 : (info.field_bitwidth f + 7) / 8 = s <;>
        simp [MatchKey.call, MatchKey.set_ternaryBytes, MatchKey.formatBytes,
          MatchKey.Call.spillBytes, c1, c2, c3]

/-- C24: on a key that received any calls since its construction, every `set_*` call moves the
spill cursor forward by `⌈W/8⌉` for each accepted byte-string value too wide for the inline
bytes of a cell and by nothing otherwise, so the cursor never decreases; the size of the array
stays the one the constructor chose; `reset()` puts the cursor at the end of the cell array,
`2 * F * sizeof(cell)`. -/
theorem MatchKey.cursor_monotone (info : P4Info) (L : Layout) (le : Bool) (table_id : Nat)
    (garbage : Mem) (nset0 : Nat) (pre : List MatchKey.Call) (c : MatchKey.Call) :
    (MatchKey.call info L le
        (MatchKey.run info L le (MatchKey.new info L table_id garbage nset0) pre).2
        c).2.data_offset_current
      = (MatchKey.run info L le (MatchKey.new info L table_id garbage nset0)
          pre).2.data_offset_current + c.spillBytes info L ∧
    (MatchKey.run info L le (MatchKey.new info L table_id garbage nset0)
        pre).2.data_offset_current
      ≤ (MatchKey.call info L le
          (MatchKey.run info L le (MatchKey.new info L table_id garbage nset0) pre).2
          c).2.data_offset_current ∧
    (MatchKey.call info L le
        (MatchKey.run info L le (MatchKey.new info L table_id garbage nset0) pre).2 c).2.size
      = (MatchKey.new info L table_id garbage nset0).size ∧
    (MatchKey.run info L le (MatchKey.new info L table_id garbage nset0)
        pre).2.reset.data_offset_current
      = 2 * info.table_num_match_fields table_id * L.cellSize := by
  have hc := MatchKey.call_cursor info L le
    (MatchKey.run info L le (MatchKey.new info L table_id garbage nset0) pre).2 c
  obtain ⟨_, e2, e3⟩ := MatchKey.run_fixed info L le pre
    (MatchKey.new info L table_id garbage nset0)
  obtain ⟨_, _, f3⟩ := MatchKey.call_fixed info L le
    (MatchKey.run info L le (MatchKey.new info L table_id garbage nset0) pre).2 c
  refine ⟨hc, by omega, by rw [f3, e3], ?_⟩
  simp only [MatchKey.reset, e2]
  rfl

/-- C25, at a failing input: the array of the sample key has 112 bytes, 96 for the 12 cells and
16 for the one field wider than 64 bits (field 5, 128 bits). The byte-string `set_ternary` on
that field, the only call on the fresh key, succeeds; its key spills to the bytes 96 to 111
and its mask to the bytes 112 to 127, past the end of the array, leaving the cursor at 128. -/
theorem MatchKey.set_ternary_spills_past_the_array :
    sampleKey.size = 112 ∧ sampleKey.data_offset_current = 96 ∧
    (MatchKey.set_ternaryBytes sampleInfo (Layout.lp64 4096) sampleKey 5
      [1, 2, 3, 4, 5, 6, 7, 8, 9, 10, 11, 12, 13, 14, 15, 16]
      [255, 255, 255, 255, 255, 255, 255, 255, 255, 255, 255, 255, 255, 255, 255, 254] 16).1
      = 0 ∧
    (MatchKey.formatBytes sampleInfo (Layout.lp64 4096) sampleKey 5
      [1, 2, 3, 4, 5, 6, 7, 8, 9, 10, 11, 12, 13, 14, 15, 16] 16 10).2.data_offset_current
      = 112 ∧
    ¬ (112 + (sampleInfo.field_bitwidth 5 + 7) / 8 ≤ sampleKey.size) ∧
    (MatchKey.set_ternaryBytes sampleInfo (Layout.lp64 4096) sampleKey 5
      [1, 2, 3, 4, 5, 6, 7, 8, 9, 10, 11, 12, 13, 14, 15, 16]
      [255, 255, 255, 255, 255, 255, 255, 255, 255, 255, 255, 255, 255, 255, 255, 254]
      16).2.data_offset_current = 128 ∧
    readBytes (MatchKey.set_ternaryBytes sampleInfo (Layout.lp64 4096) sampleKey 5
      [1, 2, 3, 4, 5, 6, 7, 8, 9, 10, 11, 12, 13, 14, 15, 16]
      [255, 255, 255, 255, 255, 255, 255, 255, 255, 255, 255, 255, 255, 255, 255, 254]
      16).2.match_key 112 16
      = [255, 255, 255, 255, 255, 255, 255, 255, 255, 255, 255, 255, 255, 255, 255, 254] := by
  decide

/-! ## What an integer `set_exact` leaves alone -/

/-- C26: a successful integer `set_exact` on the field of index `i`, with cells of at least 8
inline bytes, changes no byte of the buffer outside the first `⌈W/8⌉` bytes of cell `2i`,
which lie inside that cell: the rest of cell `2i`, every other cell, every byte from cell
`2i+1` on (the companion cell, the later cells and the spill region) are as before, and so are
the spill cursor and the other members of the key. -/
theorem MatchKey.set_exact_frame (info : P4Info) (L : Layout) (le : Bool) (st : MatchKey)
    (f_id : Nat) (T : UIntTy) (V : Nat)
    (hL : L.WF) (hC : 8 ≤ L.dstArr) (hV : V < 2 ^ (8 * T.sizeof))
    (hrc : (MatchKey.set_exact info L le st f_id T V).1 = 0) :
    (∀ a, a < info.table_match_field_index st.table_id f_id * 2 * L.cellSize ∨
        info.table_match_field_index st.table_id f_id * 2 * L.cellSize
          + (info.field_bitwidth f_id + 7) / 8 ≤ a →
      (MatchKey.set_exact info L le st f_id T V).2.match_key a = st.match_key a) ∧
    (info.field_bitwidth f_id + 7) / 8 ≤ L.cellSize ∧
    readBytes (MatchKey.set_exact info L le st f_id T V).2.match_key
        (info.table_match_field_index st.table_id f_id * 2 * L.cellSize
          + (info.field_bitwidth f_id + 7) / 8)
        (L.cellSize - (info.field_bitwidth f_id + 7) / 8)
      = readBytes st.match_key
        (info.table_match_field_index st.table_id f_id * 2 * L.cellSize
          + (info.field_bitwidth f_id + 7) / 8)
        (L.cellSize - (info.field_bitwidth f_id + 7) / 8) ∧
    (∀ j, j ≠ info.table_match_field_index st.table_id f_id * 2 →
      readBytes (MatchKey.set_exact info L le st f_id T V).2.match_key (j * L.cellSize)
          L.cellSize
        = readBytes st.match_key (j * L.cellSize) L.cellSize) ∧
    (∀ a, (info.table_match_field_index st.table_id f_id * 2 + 1) * L.cellSize ≤ a →
      (MatchKey.set_exact info L le st f_id T V).2.match_key a = st.match_key a) ∧
    (MatchKey.set_exact info L le st f_id T V).2.data_offset_current = st.data_offset_current ∧
    (MatchKey.set_exact info L le st f_id T V).2.data_offset = st.data_offset ∧
    (MatchKey.set_exact info L le st f_id T V).2.size = st.size ∧
    (MatchKey.set_exact info L le st f_id T V).2.nset = st.nset ∧
    (MatchKey.set_exact info L le st f_id T V).2.table_id = st.table_id := by
  have hT : info.field_bitwidth f_id ≤ 8 * T.sizeof := by
    by_contra hgt
    have h1 : info.field_bitwidth f_id > T.sizeof * 8 := by omega
    simp [MatchKey.set_exact, MatchKey.format, h1] at hrc
  have hb8 : (info.field_bitwidth f_id + 7) / 8 ≤ 8 := by
    have : T.sizeof ≤ 8 := by cases T <;> decide
    omega
  have hcs : 8 ≤ L.cellSize := le_trans hC hL.1
  have hlen : (andHead (info.field_byte0_mask f_id)
      (beBytes ((info.field_bitwidth f_id + 7) / 8) V)).length
      = (info.field_bitwidth f_id + 7) / 8 := by rw [length_andHead, length_beBytes]
  have e : (info.table_match_field_index st.table_id f_id * 2 + 1) * L.cellSize
      = info.table_match_field_index st.table_id f_id * 2 * L.cellSize + L.cellSize := by ring
  simp only [MatchKey.set_exact, MatchKey.format_eq info L le st f_id T V _ hT hV]
  refine ⟨?_, by omega, ?_, ?_, ?_, trivial, trivial, trivial, trivial, trivial⟩
  · intro a ha
    exact writeBytes_of_not_mem _ _ _ _ (by rw [hlen]; exact ha)
  · exact readBytes_writeBytes_disjoint _ _ _ _ _ (by rw [hlen]; omega)
  · intro j hj
    have hd := cell_disjoint (info.table_match_field_index st.table_id f_id * 2) j L.cellSize hj
    exact readBytes_writeBytes_disjoint _ _ _ _ _ (by rw [hlen]; omega)
  · intro a ha
    exact writeBytes_of_not_mem _ _ _ _ (by rw [hlen]; omega)

/-- The 12-bit field 0 of the sample key set to `0x0ABC`: the bytes 0 and 1 change, the other
bytes of cell 0 and the companion cell 1 do not. -/
theorem MatchKey.set_exact_frame_witness :
    (8 ≤ (Layout.lp64 4096).dstArr ∧ 0x0ABC < 2 ^ (8 * UIntTy.u16.sizeof) ∧
      (MatchKey.set_exact sampleInfo (Layout.lp64 4096) true sampleKey 0 .u16 0x0ABC).1 = 0 ∧
      readBytes (MatchKey.set_exact sampleInfo (Layout.lp64 4096) true sampleKey 0 .u16
        0x0ABC).2.match_key 0 16 = [0x0A, 0xBC, 0, 0, 0, 0, 0, 0, 0, 0, 0, 0, 0, 0, 0, 0]) ∧
    readBytes (MatchKey.set_exact sampleInfo (Layout.lp64 4096) true sampleKey 0 .u16
        0x0ABC).2.match_key 8 8 = readBytes sampleKey.match_key 8 8 ∧
    (MatchKey.set_exact sampleInfo (Layout.lp64 4096) true sampleKey 0 .u16
        0x0ABC).2.data_offset_current = sampleKey.data_offset_current :=
  have h := MatchKey.set_exact_frame sampleInfo (Layout.lp64 4096) true sampleKey 0 .u16 0x0ABC
    (Layout.lp64_wf 4096) (by decide) (by decide) (by decide)
  ⟨by decide, h.2.2.2.1 1 (by decide), h.2.2.2.2.2.1⟩

theorem MatchKey.run_cursor (info : P4Info) (L : Layout) (le : Bool) (cs : List MatchKey.Call)
    (st : MatchKey) :
    (MatchKey.run info L le st cs).2.data_offset_current
      = st.data_offset_current + (cs.map (MatchKey.Call.spillBytes info L)).sum := by
  induction cs generalizing st with
  | nil => rfl
  | cons c cs ih =>
    simp only [MatchKey.run, List.map_cons, List.sum_cons]
    rw [ih, MatchKey.call_cursor]
    omega

theorem sum_map_le_sum_range (g : Nat → Nat) (l : List Nat) (F : Nat) (hnd : l.Nodup)
    (hlt : ∀ i ∈ l, i < F) : (l.map g).sum ≤ ((List.range F).map g).sum := by
  rw [← List.sum_toFinset g hnd, ← List.sum_toFinset g (List.nodup_range F)]
  apply Finset.sum_le_sum_of_subset
  intro i hi
  rw [List.mem_toFinset] at hi ⊢
  exact List.mem_range.mpr (hlt i hi)

/-- The byte-string `set_exact` and `set_lpm` stay inside the array: on a fresh key, with 8
inline bytes per cell, after calls other than the byte-string `set_ternary` that set fields of
the table, each at most once, the spill cursor is within the allocated size. -/
theorem MatchKey.exact_lpm_spills_in_bounds (info : P4Info) (L : Layout) (le : Bool)
    (table_id : Nat) (garbage : Mem) (nset0 : Nat) (cs : List MatchKey.Call)
    (hC : L.dstArr = 8)
    (hno : ∀ c ∈ cs, c.isTernaryBytes = false)
    (hidx : ∀ c ∈ cs, info.table_match_field_index table_id c.field
      < info.table_num_match_fields table_id)
    (hbw : ∀ c ∈ cs, info.table_match_field_info_bitwidth table_id
      (info.table_match_field_index table_id c.field) = info.field_bitwidth c.field)
    (hnd : (cs.map fun c => info.table_match_field_index table_id c.field).Nodup) :
    (MatchKey.run info L le (MatchKey.new info L table_id garbage nset0) cs).2.data_offset_current
      ≤ (MatchKey.new info L table_id garbage nset0).size := by
  rw [MatchKey.run_cursor]
  have hle : (cs.map (MatchKey.Call.spillBytes info L)).sum
      ≤ ((cs.map fun c => info.table_match_field_index table_id c.field).map
          (fun i => if info.table_match_field_info_bitwidth table_id i > 64 then
            (info.table_match_field_info_bitwidth table_id i + 7) / 8 else 0)).sum := by
    rw [List.map_map]
    apply List.sum_le_sum
    intro c hc
    simp only [Function.comp, hbw c hc]
    have hn := hno c hc
    cases c with
    | exact f T k => simp [MatchKey.Call.spillBytes]
    | lpm f T k p => simp [MatchKey.Call.spillBytes]
    | ternary f T k m => simp [MatchKey.Call.spillBytes]
    | exactBytes f k s =>
      simp only [MatchKey.Call.spillBytes, MatchKey.Call.field, hC]
      split_ifs <;> omega
    | lpmBytes f k s p =>
      simp only [MatchKey.Call.spillBytes, MatchKey.Call.field, hC]
      split_ifs <;> omega
    | ternaryBytes f k m s => simp [MatchKey.Call.isTernaryBytes] at hn
  have hsum := sum_map_le_sum_range
    (fun i => if info.table_match_field_info_bitwidth table_id i > 64 then
      (info.table_match_field_info_bitwidth table_id i + 7) / 8 else 0)
    (cs.map fun c => info.table_match_field_index table_id c.field)
    (info.table_num_match_fields table_id) hnd
    (by
      intro i hi
      obtain ⟨c, hc, rfl⟩ := List.mem_map.mp hi
      exact hidx c hc)
  have hsize : (MatchKey.new info L table_id garbage nset0).size
      = (MatchKey.new info L table_id garbage nset0).data_offset_current
        + ((List.range (info.table_num_match_fields table_id)).map
            (fun i => if info.table_match_field_info_bitwidth table_id i > 64 then
              (info.table_match_field_info_bitwidth table_id i + 7) / 8 else 0)).sum := by
    simp only [MatchKey.new, spillSize, List.map_map]
    rfl
  rw [hsize]
  omega

/-- The sample key after a byte-string `set_exact` on the 128-bit field 5 and a byte-string
`set_lpm` on the 48-bit field 3: the cursor, 112, is the size of the array. -/
theorem MatchKey.exact_lpm_spills_in_bounds_sample :
    (MatchKey.run sampleInfo (Layout.lp64 4096) true
      (MatchKey.new sampleInfo (Layout.lp64 4096) 1 zeroMem 0)
      [.exactBytes 5 [1, 2, 3, 4, 5, 6, 7, 8, 9, 10, 11, 12, 13, 14, 15, 16] 16,
       .lpmBytes 3 [1, 2, 3, 4, 5, 6] 6 24]).2.data_offset_current
      ≤ (MatchKey.new sampleInfo (Layout.lp64 4096) 1 zeroMem 0).size ∧
    (MatchKey.run sampleInfo (Layout.lp64 4096) true
      (MatchKey.new sampleInfo (Layout.lp64 4096) 1 zeroMem 0)
      [.exactBytes 5 [1, 2, 3, 4, 5, 6, 7, 8, 9, 10, 11, 12, 13, 14, 15, 16] 16,
       .lpmBytes 3 [1, 2, 3, 4, 5, 6] 6 24]).2.data_offset_current = 112 :=
  ⟨MatchKey.exact_lpm_spills_in_bounds sampleInfo (Layout.lp64 4096) true 1 zeroMem 0
    [.exactBytes 5 [1, 2, 3, 4, 5, 6, 7, 8, 9, 10, 11, 12, 13, 14, 15, 16] 16,
     .lpmBytes 3 [1, 2, 3, 4, 5, 6] 6 24] rfl (by decide) (by decide) (by decide) (by decide),
   by decide⟩

end pi
